import Mathlib

/-!
# Correspondence kinematics kernel (`src/materials/correspondence.cxx`)

A shallow embedding of the 3x3 tensor primitives and of the per-point kernels of
namespace `CORRESPONDENCE`, over an arbitrary field `α` (exact arithmetic), together
with theorems about them.

Conventions of the embedding.

* The nine scalars `aXX ... aZZ` that the source passes side by side are grouped in
  one record `Mat3 α` with fields `XX ... ZZ`; the nine parallel arrays that hold one
  tensor per point are grouped in one map `Nat → Mat3 α` (entry `i` is what the nine
  pointers address after `i` increments).
* Flat arrays (`volume`, `modelCoordinates`, `coordinates`, `velocities`,
  `neighborhoodList`) are maps from the offset to the value stored there.
* `sqrt`, `sin`, `cos` (from `math.h`) and `MATERIAL_EVALUATION::scalarInfluenceFunction`
  (from `material_utilities.h`) are not part of the file; they are parameters.
* Counts and indices of the neighbour list, and `numPoints`, are natural numbers.
* The literal `1.e-30` is the field element `1 / 10 ^ 30`; `0.5` is `1 / 2`.
* A loop `for (k = 0; k < n; ++k)` is `forLoop body n 0`; a kernel takes the prior
  contents of its output buffers as arguments and returns the contents on exit.
* `/` is the division of the field, where a quotient by zero is a value by convention.
  The source does not test its divisors (other than the determinant): the `...Checked`
  definitions run the same statements and return `none` where the source divides by
  zero.
-/

namespace CORRESPONDENCE

/-- Nine scalars read row-major as a 3x3 tensor. -/
@[ext]
structure Mat3 (α : Type) where
  XX : α
  XY : α
  XZ : α
  YX : α
  YY : α
  YZ : α
  ZX : α
  ZY : α
  ZZ : α
deriving DecidableEq

/-- Three scalars: a coordinate or velocity triple. -/
@[ext]
structure Vec3 (α : Type) where
  X : α
  Y : α
  Z : α
deriving DecidableEq

section Primitives

variable {α : Type} [Field α]

/-- The matrix with all nine components zero. -/
def Mat3.zero : Mat3 α := ⟨0, 0, 0, 0, 0, 0, 0, 0, 0⟩

/-- The identity matrix (`identityMatrixXX ... identityMatrixZZ` of the source). -/
def Mat3.identity : Mat3 α := ⟨1, 0, 0, 0, 1, 0, 0, 0, 1⟩

/-- Transpose, realised in the source by reordering the arguments of a call. -/
def Mat3.transpose (a : Mat3 α) : Mat3 α :=
  ⟨a.XX, a.YX, a.ZX, a.XY, a.YY, a.ZY, a.XZ, a.YZ, a.ZZ⟩

/-- Componentwise sum. -/
def Mat3.add (a b : Mat3 α) : Mat3 α :=
  ⟨a.XX + b.XX, a.XY + b.XY, a.XZ + b.XZ,
   a.YX + b.YX, a.YY + b.YY, a.YZ + b.YZ,
   a.ZX + b.ZX, a.ZY + b.ZY, a.ZZ + b.ZZ⟩

/-- Scaled outer product `w * u vᵀ`, in the source's order of multiplication
`temp * u_i * v_j`. -/
def Mat3.scaledOuter (w : α) (u v : Vec3 α) : Mat3 α :=
  ⟨w * u.X * v.X, w * u.X * v.Y, w * u.X * v.Z,
   w * u.Y * v.X, w * u.Y * v.Y, w * u.Y * v.Z,
   w * u.Z * v.X, w * u.Z * v.Y, w * u.Z * v.Z⟩

/-- Determinant by cofactor expansion along the first row. -/
def Mat3.det (m : Mat3 α) : α :=
  m.XX * (m.YY * m.ZZ - m.YZ * m.ZY) - m.XY * (m.YX * m.ZZ - m.YZ * m.ZX)
    + m.XZ * (m.YX * m.ZY - m.YY * m.ZX)

/-- The same nine scalars as a Mathlib matrix. -/
def Mat3.toMatrix (m : Mat3 α) : Matrix (Fin 3) (Fin 3) α :=
  Matrix.of ![![m.XX, m.XY, m.XZ], ![m.YX, m.YY, m.YZ], ![m.ZX, m.ZY, m.ZZ]]

/-- `invert3by3Matrix` (source lines 55-116): the return code and the nine scalars
written to `inverseXX ... inverseZZ`. -/
def invert3by3Matrix [DecidableEq α] (matrix : Mat3 α) : Int × Mat3 α :=
  let minor0 := matrix.YY * matrix.ZZ - matrix.YZ * matrix.ZY
  let minor1 := matrix.YX * matrix.ZZ - matrix.YZ * matrix.ZX
  let minor2 := matrix.YX * matrix.ZY - matrix.YY * matrix.ZX
  let minor3 := matrix.XY * matrix.ZZ - matrix.XZ * matrix.ZY
  let minor4 := matrix.XX * matrix.ZZ - matrix.ZX * matrix.XZ
  let minor5 := matrix.XX * matrix.ZY - matrix.XY * matrix.ZX
  let minor6 := matrix.XY * matrix.YZ - matrix.XZ * matrix.YY
  let minor7 := matrix.XX * matrix.YZ - matrix.XZ * matrix.YX
  let minor8 := matrix.XX * matrix.YY - matrix.XY * matrix.YX
  let det := matrix.XX * minor0 - matrix.XY * minor1 + matrix.XZ * minor2
  if det = 0 then
    (1, ⟨0, 0, 0, 0, 0, 0, 0, 0, 0⟩)
  else
    (0, ⟨minor0 / det, (-1) * minor3 / det, minor6 / det,
         (-1) * minor1 / det, minor4 / det, (-1) * minor7 / det,
         minor2 / det, (-1) * minor5 / det, minor8 / det⟩)

/-- `MatrixMultiply` (source lines 118-159): `result = a * b`. -/
def MatrixMultiply (a b : Mat3 α) : Mat3 α :=
  ⟨a.XX * b.XX + a.XY * b.YX + a.XZ * b.ZX,
   a.XX * b.XY + a.XY * b.YY + a.XZ * b.ZY,
   a.XX * b.XZ + a.XY * b.YZ + a.XZ * b.ZZ,
   a.YX * b.XX + a.YY * b.YX + a.YZ * b.ZX,
   a.YX * b.XY + a.YY * b.YY + a.YZ * b.ZY,
   a.YX * b.XZ + a.YY * b.YZ + a.YZ * b.ZZ,
   a.ZX * b.XX + a.ZY * b.YX + a.ZZ * b.ZX,
   a.ZX * b.XY + a.ZY * b.YY + a.ZZ * b.ZY,
   a.ZX * b.XZ + a.ZY * b.YZ + a.ZZ * b.ZZ⟩

/-- `UnrotateTensor` (source lines 161-247): `temp = a * r`, then
`result = rᵀ * temp`, the transpose being passed component by component. -/
def UnrotateTensor (a r : Mat3 α) : Mat3 α :=
  let temp := MatrixMultiply a r
  MatrixMultiply ⟨r.XX, r.YX, r.ZX, r.XY, r.YY, r.ZY, r.XZ, r.YZ, r.ZZ⟩ temp

/-- `RotateTensor` (source lines 249-324): `temp = a * rᵀ`, then `result = r * temp`. -/
def RotateTensor (a r : Mat3 α) : Mat3 α :=
  let temp := MatrixMultiply a ⟨r.XX, r.YX, r.ZX, r.XY, r.YY, r.ZY, r.XZ, r.YZ, r.ZZ⟩
  MatrixMultiply r temp

/-- `MatrixUpdate` (source lines 326-370): `result = alpha * a + beta * b`. -/
def MatrixUpdate (alpha beta : α) (a b : Mat3 α) : Mat3 α :=
  ⟨alpha * a.XX + beta * b.XX, alpha * a.XY + beta * b.XY, alpha * a.XZ + beta * b.XZ,
   alpha * a.YX + beta * b.YX, alpha * a.YY + beta * b.YY, alpha * a.YZ + beta * b.YZ,
   alpha * a.ZX + beta * b.ZX, alpha * a.ZY + beta * b.ZY, alpha * a.ZZ + beta * b.ZZ⟩


/-- Zero tensor as `0`. -/
instance Mat3.instZero : Zero (Mat3 α) := ⟨Mat3.zero⟩

/-- Componentwise sum as `+`. -/
instance Mat3.instAdd : Add (Mat3 α) := ⟨Mat3.add⟩

/-- Componentwise sum and zero make the tensors a commutative additive monoid, so that
accumulated sums over a neighbour list can be written with `List.sum`. -/
instance Mat3.instAddCommMonoid : AddCommMonoid (Mat3 α) where
  nsmul := nsmulRec
  add_assoc a b c := by
    show Mat3.add (Mat3.add a b) c = Mat3.add a (Mat3.add b c)
    simp only [Mat3.add, add_assoc]
  zero_add a := by
    show Mat3.add Mat3.zero a = a
    simp only [Mat3.add, Mat3.zero, zero_add]
  add_zero a := by
    show Mat3.add a Mat3.zero = a
    simp only [Mat3.add, Mat3.zero, add_zero]
  add_comm a b := by
    show Mat3.add a b = Mat3.add b a
    ext <;> simp only [Mat3.add, add_comm]

/-- Matrix times column vector. -/
def Mat3.mulVec (a : Mat3 α) (v : Vec3 α) : Vec3 α :=
  ⟨a.XX * v.X + a.XY * v.Y + a.XZ * v.Z,
   a.YX * v.X + a.YY * v.Y + a.YZ * v.Z,
   a.ZX * v.X + a.ZY * v.Y + a.ZZ * v.Z⟩

/-- Componentwise sum of two triples. -/
def Vec3.add (u v : Vec3 α) : Vec3 α := ⟨u.X + v.X, u.Y + v.Y, u.Z + v.Z⟩

/-- Componentwise difference of two triples. -/
def Vec3.sub (u v : Vec3 α) : Vec3 α := ⟨u.X - v.X, u.Y - v.Y, u.Z - v.Z⟩

/-- Euclidean dot product. -/
def Vec3.dot (u v : Vec3 α) : α := u.X * v.X + u.Y * v.Y + u.Z * v.Z

/-- The triple stored at offsets `3k`, `3k+1`, `3k+2` of a flat coordinate array
(`base + 3*k`, `*(p)`, `*(p+1)`, `*(p+2)` in the source). -/
def triple (a : Nat → α) (k : Nat) : Vec3 α := ⟨a (3 * k), a (3 * k + 1), a (3 * k + 2)⟩

/-- Componentwise difference. -/
def Mat3.sub (a b : Mat3 α) : Mat3 α :=
  ⟨a.XX - b.XX, a.XY - b.XY, a.XZ - b.XZ,
   a.YX - b.YX, a.YY - b.YY, a.YZ - b.YZ,
   a.ZX - b.ZX, a.ZY - b.ZY, a.ZZ - b.ZZ⟩

/-- Scalar multiple. -/
def Mat3.smul (c : α) (a : Mat3 α) : Mat3 α :=
  ⟨c * a.XX, c * a.XY, c * a.XZ, c * a.YX, c * a.YY, c * a.YZ, c * a.ZX, c * a.ZY, c * a.ZZ⟩

/-- The skew tensor of a vector `omega`, as the specification words it: zero diagonal,
`XY = -omega_z`, `XZ = omega_y`, `YX = omega_z`, `YZ = -omega_x`, `ZX = -omega_y`,
`ZY = omega_x`. -/
def skewTensor (omega : Vec3 α) : Mat3 α :=
  ⟨0, -omega.Z, omega.Y, omega.Z, 0, -omega.X, -omega.Y, omega.X, 0⟩

/-- The increment of section 4.C as the specification words it:
`Q = I + (sin(dt*W)/W) * Om - ((1 - cos(dt*W))/W^2) * (Om*Om)`, `W = sqrt(omega.omega)`,
`Om` the skew tensor of `omega`. -/
def rotationIncrementSpec (sqrt sin cos : α → α) (dt : α) (omega : Vec3 α) : Mat3 α :=
  let W := sqrt (Vec3.dot omega omega)
  let Om := skewTensor omega
  Mat3.sub (Mat3.add Mat3.identity (Mat3.smul (sin (dt * W) / W) Om))
    (Mat3.smul ((1 - cos (dt * W)) / W ^ 2) (MatrixMultiply Om Om))

/-- Symmetric part `1/2 (L + Lᵀ)`. -/
def symmetricPart (L : Mat3 α) : Mat3 α := Mat3.smul (1 / 2) (Mat3.add L L.transpose)

/-- Functions the kernels call but that live outside the file: `sqrt`, `sin`, `cos`
of `math.h` (or of the automatic-differentiation scalar) and
`MATERIAL_EVALUATION::scalarInfluenceFunction` of `material_utilities.h`. -/
structure External (α : Type) where
  sqrt : α → α
  sin : α → α
  cos : α → α
  scalarInfluenceFunction : α → α → α

/-- The loop `for (int k = 0; k < count; ++k) body(start + k)` as a state transformer:
`forLoop body count start s` runs `body start`, `body (start+1)`, ... in that order. -/
def forLoop {σ : Type} (body : Nat → σ → σ) : Nat → Nat → σ → σ
  | 0, _, s => s
  | n + 1, k, s => forLoop body n (k + 1) (body k s)

/-! ### `computeShapeTensorInverseAndApproximateDeformationGradient` (source lines 372-526) -/

/-- Read-only arguments of the shape kernel. -/
structure ShapeInput (α : Type) where
  volume : Nat → α
  modelCoordinates : Nat → α
  coordinates : Nat → α
  neighborhoodList : Nat → Nat
  numPoints : Nat
  horizon : α

/-- Locals of the neighbour loop that survive an iteration. -/
structure ShapeAccum (α : Type) where
  neighborListPtr : Nat
  shapeTensor : Mat3 α
  defGradFirstTerm : Mat3 α

/-- Output buffers, return code and the neighbour-list cursor of the shape kernel. -/
structure ShapeState (α : Type) where
  neighborListPtr : Nat
  shapeTensorInverse : Nat → Mat3 α
  deformationGradient : Nat → Mat3 α
  returnCode : Int

/-- Body of the neighbour loop (source lines 460-501) for owned point `iID`. -/
def shapeNeighborBody (ext : External α) (inp : ShapeInput α) (iID : Nat)
    (acc : ShapeAccum α) : ShapeAccum α :=
  let bondDamage : α := 0
  let neighborIndex := inp.neighborhoodList acc.neighborListPtr
  let neighborVolume := inp.volume neighborIndex
  let undeformedBondX := inp.modelCoordinates (3 * neighborIndex) - inp.modelCoordinates (3 * iID)
  let undeformedBondY :=
    inp.modelCoordinates (3 * neighborIndex + 1) - inp.modelCoordinates (3 * iID + 1)
  let undeformedBondZ :=
    inp.modelCoordinates (3 * neighborIndex + 2) - inp.modelCoordinates (3 * iID + 2)
  let undeformedBondLength :=
    ext.sqrt (undeformedBondX * undeformedBondX + undeformedBondY * undeformedBondY
      + undeformedBondZ * undeformedBondZ)
  let deformedBondX := inp.coordinates (3 * neighborIndex) - inp.coordinates (3 * iID)
  let deformedBondY := inp.coordinates (3 * neighborIndex + 1) - inp.coordinates (3 * iID + 1)
  let deformedBondZ := inp.coordinates (3 * neighborIndex + 2) - inp.coordinates (3 * iID + 2)
  let omega := ext.scalarInfluenceFunction undeformedBondLength inp.horizon
  let temp := (1 - bondDamage) * omega * neighborVolume
  let undeformedBond : Vec3 α := ⟨undeformedBondX, undeformedBondY, undeformedBondZ⟩
  let deformedBond : Vec3 α := ⟨deformedBondX, deformedBondY, deformedBondZ⟩
  { neighborListPtr := acc.neighborListPtr + 1
    shapeTensor := acc.shapeTensor + Mat3.scaledOuter temp undeformedBond undeformedBond
    defGradFirstTerm :=
      acc.defGradFirstTerm + Mat3.scaledOuter temp deformedBond undeformedBond }

/-- Body of the loop over owned points (source lines 443-523). The nine products
written out for `*defGradXX ... *defGradZZ` are those of `MatrixMultiply`. -/
def shapePointBody [DecidableEq α] (ext : External α) (inp : ShapeInput α) (iID : Nat)
    (st : ShapeState α) : ShapeState α :=
  let numNeighbors := inp.neighborhoodList st.neighborListPtr
  let acc := forLoop (fun _ => shapeNeighborBody ext inp iID) numNeighbors 0
    { neighborListPtr := st.neighborListPtr + 1, shapeTensor := 0, defGradFirstTerm := 0 }
  let inversion := invert3by3Matrix acc.shapeTensor
  let inversionReturnCode := inversion.1
  let shapeTensorInv := inversion.2
  { neighborListPtr := acc.neighborListPtr
    shapeTensorInverse := Function.update st.shapeTensorInverse iID shapeTensorInv
    deformationGradient :=
      Function.update st.deformationGradient iID
        (MatrixMultiply acc.defGradFirstTerm shapeTensorInv)
    returnCode := if inversionReturnCode > 0 then inversionReturnCode else st.returnCode }

/-- The shape kernel: `shapeTensorInverse0` and `deformationGradient0` are the contents
of the output buffers on entry. -/
def computeShapeTensorInverseAndApproximateDeformationGradient [DecidableEq α]
    (ext : External α) (inp : ShapeInput α)
    (shapeTensorInverse0 deformationGradient0 : Nat → Mat3 α) : ShapeState α :=
  forLoop (shapePointBody ext inp) inp.numPoints 0
    { neighborListPtr := 0
      shapeTensorInverse := shapeTensorInverse0
      deformationGradient := deformationGradient0
      returnCode := 0 }

/-! ### The flat neighbour list and the sums of section 4.B, as the specification words them -/

/-- Offset of the count of point `i` in the flat list `[count_0, n_0_0, ..., count_1, ...]`. -/
def neighborOffset (neighborhoodList : Nat → Nat) : Nat → Nat
  | 0 => 0
  | i + 1 => neighborOffset neighborhoodList i + 1
      + neighborhoodList (neighborOffset neighborhoodList i)

/-- The neighbours `N[i]` of point `i`: the `count_i` entries that follow the count. -/
def neighbors (neighborhoodList : Nat → Nat) (i : Nat) : List Nat :=
  (List.range (neighborhoodList (neighborOffset neighborhoodList i))).map
    (fun n => neighborhoodList (neighborOffset neighborhoodList i + 1 + n))

/-- Reference bond `xi = X[j] - X[i]`. -/
def referenceBond (modelCoordinates : Nat → α) (i j : Nat) : Vec3 α :=
  Vec3.sub (triple modelCoordinates j) (triple modelCoordinates i)

/-- Bond weight `w_j = (1 - 0) * omega(|xi|, horizon) * V[j]`. -/
def bondWeight (ext : External α) (volume modelCoordinates : Nat → α) (horizon : α)
    (i j : Nat) : α :=
  (1 - 0) * ext.scalarInfluenceFunction
      (ext.sqrt (Vec3.dot (referenceBond modelCoordinates i j)
        (referenceBond modelCoordinates i j))) horizon
    * volume j

/-- Weighted sum over `N[i]` of `w_j * u_j xi_jᵀ`, where `u_j = field[j] - field[i]`;
with `field = modelCoordinates` this is the shape tensor `K_i`, with the current
coordinates it is `F1_i`, with the velocities it is the first term of `Fdot_i`. -/
def weightedBondSum (ext : External α) (volume modelCoordinates : Nat → α) (horizon : α)
    (neighborhoodList : Nat → Nat) (field : Nat → α) (i : Nat) : Mat3 α :=
  ((neighbors neighborhoodList i).map (fun j =>
    Mat3.scaledOuter (bondWeight ext volume modelCoordinates horizon i j)
      (Vec3.sub (triple field j) (triple field i)) (referenceBond modelCoordinates i j))).sum

/-- Shape tensor `K_i = sum over j in N[i] of w_j * xi xiᵀ`. -/
def shapeTensorOf (ext : External α) (inp : ShapeInput α) (i : Nat) : Mat3 α :=
  weightedBondSum ext inp.volume inp.modelCoordinates inp.horizon inp.neighborhoodList
    inp.modelCoordinates i

/-- First term `F1_i = sum over j in N[i] of w_j * eta xiᵀ`. -/
def defGradFirstTermOf (ext : External α) (inp : ShapeInput α) (i : Nat) : Mat3 α :=
  weightedBondSum ext inp.volume inp.modelCoordinates inp.horizon inp.neighborhoodList
    inp.coordinates i

/-! ### `computeGreenLagrangeStrain` (source lines 1145-1208) -/

/-- The nine assignments `*strainXX ... *strainZZ` of one loop iteration
(source lines 1198-1206), `defGrad` being the tensor the nine input pointers address. -/
def greenLagrangeStrainPoint (defGrad : Mat3 α) : Mat3 α :=
  ⟨1 / 2 * (defGrad.XX * defGrad.XX + defGrad.YX * defGrad.YX + defGrad.ZX * defGrad.ZX - 1),
   1 / 2 * (defGrad.XX * defGrad.XY + defGrad.YX * defGrad.YY + defGrad.ZX * defGrad.ZY),
   1 / 2 * (defGrad.XX * defGrad.XZ + defGrad.YX * defGrad.YZ + defGrad.ZX * defGrad.ZZ),
   1 / 2 * (defGrad.XY * defGrad.XX + defGrad.YY * defGrad.YX + defGrad.ZY * defGrad.ZX),
   1 / 2 * (defGrad.XY * defGrad.XY + defGrad.YY * defGrad.YY + defGrad.ZY * defGrad.ZY - 1),
   1 / 2 * (defGrad.XY * defGrad.XZ + defGrad.YY * defGrad.YZ + defGrad.ZY * defGrad.ZZ),
   1 / 2 * (defGrad.XZ * defGrad.XX + defGrad.YZ * defGrad.YX + defGrad.ZZ * defGrad.ZX),
   1 / 2 * (defGrad.XZ * defGrad.XY + defGrad.YZ * defGrad.YY + defGrad.ZZ * defGrad.ZY),
   1 / 2 * (defGrad.XZ * defGrad.XZ + defGrad.YZ * defGrad.YZ + defGrad.ZZ * defGrad.ZZ - 1)⟩

/-- The strain kernel: `greenLagrangeStrain0` is the content of the output buffer on
entry; every pointer advances by one per iteration. -/
def computeGreenLagrangeStrain (deformationGradient greenLagrangeStrain0 : Nat → Mat3 α)
    (numPoints : Nat) : Nat → Mat3 α :=
  forLoop (fun iID strain =>
      Function.update strain iID (greenLagrangeStrainPoint (deformationGradient iID)))
    numPoints 0 greenLagrangeStrain0

/-! ### `computeClassicalElasticStress` (source lines 1494-1561) -/

/-- The nine assignments `*sigmaXX ... *sigmaXZ` of one loop iteration
(source lines 1551-1559); the last three copy the stress just written. -/
def classicalElasticStressPoint (youngsModulus poissonsRatio : α) (epsilon : Mat3 α) :
    Mat3 α :=
  let constant := youngsModulus / ((1 + poissonsRatio) * (1 - 2 * poissonsRatio))
  let sigmaXX := constant * ((1 - poissonsRatio) * epsilon.XX + poissonsRatio * epsilon.YY
    + poissonsRatio * epsilon.ZZ)
  let sigmaYY := constant * (poissonsRatio * epsilon.XX + (1 - poissonsRatio) * epsilon.YY
    + poissonsRatio * epsilon.ZZ)
  let sigmaZZ := constant * (poissonsRatio * epsilon.XX + poissonsRatio * epsilon.YY
    + (1 - poissonsRatio) * epsilon.ZZ)
  let sigmaXY := constant * (1 - 2 * poissonsRatio) * epsilon.XY
  let sigmaYZ := constant * (1 - 2 * poissonsRatio) * epsilon.YZ
  let sigmaZX := constant * (1 - 2 * poissonsRatio) * epsilon.ZX
  let sigmaYX := sigmaXY
  let sigmaZY := sigmaYZ
  let sigmaXZ := sigmaZX
  ⟨sigmaXX, sigmaXY, sigmaXZ, sigmaYX, sigmaYY, sigmaYZ, sigmaZX, sigmaZY, sigmaZZ⟩

/-- The stress kernel: `cauchyStress0` is the content of the output buffer on entry. -/
def computeClassicalElasticStress (strain cauchyStress0 : Nat → Mat3 α) (numPoints : Nat)
    (youngsModulus poissonsRatio : α) : Nat → Mat3 α :=
  forLoop (fun iID sigma =>
      Function.update sigma iID
        (classicalElasticStressPoint youngsModulus poissonsRatio (strain iID)))
    numPoints 0 cauchyStress0

/-! ### `rotateCauchyStress` (source lines 1410-1492) -/

/-- The stress rotation kernel: every cursor (rotation, unrotated stress, rotated
stress) advances by one per iteration; `rotatedCauchyStress0` is the content of the
output buffer on entry. -/
def rotateCauchyStress (rotationTensor unrotatedCauchyStress rotatedCauchyStress0 :
    Nat → Mat3 α) (numPoints : Nat) : Nat → Mat3 α :=
  forLoop (fun iID rotatedStress =>
      Function.update rotatedStress iID
        (RotateTensor (unrotatedCauchyStress iID) (rotationTensor iID)))
    numPoints 0 rotatedCauchyStress0

/-! ### `computeHourglassForce` (source lines 1210-1324) -/

/-- Read-only arguments of the hourglass kernel. -/
structure HourglassInput (α : Type) where
  volume : Nat → α
  modelCoordinates : Nat → α
  coordinates : Nat → α
  deformationGradient : Nat → Mat3 α
  neighborhoodList : Nat → Nat
  numPoints : Nat
  horizon : α
  bulkModulus : α
  hourglassCoefficient : α

/-- The force-density buffer and the neighbour-list cursor of the hourglass kernel. -/
structure HourglassState (α : Type) where
  neighborListPtr : Nat
  hourglassForceDensity : Nat → α

/-- The locals of one iteration of the neighbour loop (source lines 1272-1313). -/
structure HourglassBondLocals (α : Type) where
  undeformedBond : Vec3 α
  undeformedBondLength : α
  deformedBond : Vec3 α
  deformedBondLength : α
  expectedNeighborLocation : Vec3 α
  hourglassVector : Vec3 α
  dot : α
  magnitude : α
  vol : α
  neighborVol : α

/-- The constant hoisted out of the loops (source line 1261); the literal
`3.1415926536` is the decimal fraction `31415926536 / 10^10`. -/
def hourglassConstant (inp : HourglassInput α) : α :=
  18 * inp.hourglassCoefficient * inp.bulkModulus
    / (31415926536 / 10000000000 * inp.horizon * inp.horizon * inp.horizon * inp.horizon)

/-- Source lines 1272-1313 for the bond from owned point `iID` to `neighborIndex`;
`defGrad` and `coord` are cursors advanced in the loop header (entry `iID`). -/
def hourglassBondLocals (ext : External α) (inp : HourglassInput α) (iID neighborIndex : Nat) :
    HourglassBondLocals α :=
  let bondDamage : α := 0
  let constant := hourglassConstant inp
  let defGrad := inp.deformationGradient iID
  let undeformedBondX := inp.modelCoordinates (3 * neighborIndex) - inp.modelCoordinates (3 * iID)
  let undeformedBondY :=
    inp.modelCoordinates (3 * neighborIndex + 1) - inp.modelCoordinates (3 * iID + 1)
  let undeformedBondZ :=
    inp.modelCoordinates (3 * neighborIndex + 2) - inp.modelCoordinates (3 * iID + 2)
  let undeformedBondLength :=
    ext.sqrt (undeformedBondX * undeformedBondX + undeformedBondY * undeformedBondY
      + undeformedBondZ * undeformedBondZ)
  let deformedBondX := inp.coordinates (3 * neighborIndex) - inp.coordinates (3 * iID)
  let deformedBondY := inp.coordinates (3 * neighborIndex + 1) - inp.coordinates (3 * iID + 1)
  let deformedBondZ := inp.coordinates (3 * neighborIndex + 2) - inp.coordinates (3 * iID + 2)
  let deformedBondLength :=
    ext.sqrt (deformedBondX * deformedBondX + deformedBondY * deformedBondY
      + deformedBondZ * deformedBondZ)
  let expectedNeighborLocationX := inp.coordinates (3 * iID)
    + defGrad.XX * undeformedBondX + defGrad.XY * undeformedBondY + defGrad.XZ * undeformedBondZ
  let expectedNeighborLocationY := inp.coordinates (3 * iID + 1)
    + defGrad.YX * undeformedBondX + defGrad.YY * undeformedBondY + defGrad.YZ * undeformedBondZ
  let expectedNeighborLocationZ := inp.coordinates (3 * iID + 2)
    + defGrad.ZX * undeformedBondX + defGrad.ZY * undeformedBondY + defGrad.ZZ * undeformedBondZ
  let hourglassVectorX := expectedNeighborLocationX - inp.coordinates (3 * neighborIndex)
  let hourglassVectorY := expectedNeighborLocationY - inp.coordinates (3 * neighborIndex + 1)
  let hourglassVectorZ := expectedNeighborLocationZ - inp.coordinates (3 * neighborIndex + 2)
  let dot0 := hourglassVectorX * deformedBondX + hourglassVectorY * deformedBondY
    + hourglassVectorZ * deformedBondZ
  let dot := dot0 * (-1)
  let magnitude :=
    (1 - bondDamage) * constant * (dot / undeformedBondLength) * (1 / deformedBondLength)
  { undeformedBond := ⟨undeformedBondX, undeformedBondY, undeformedBondZ⟩
    undeformedBondLength := undeformedBondLength
    deformedBond := ⟨deformedBondX, deformedBondY, deformedBondZ⟩
    deformedBondLength := deformedBondLength
    expectedNeighborLocation :=
      ⟨expectedNeighborLocationX, expectedNeighborLocationY, expectedNeighborLocationZ⟩
    hourglassVector := ⟨hourglassVectorX, hourglassVectorY, hourglassVectorZ⟩
    dot := dot
    magnitude := magnitude
    vol := inp.volume iID
    neighborVol := inp.volume neighborIndex }

/-- Body of the neighbour loop (source lines 1271-1322): the six read-modify-write
statements on the force-density buffer, in the source's order. -/
def hourglassBondBody (ext : External α) (inp : HourglassInput α) (iID : Nat)
    (st : HourglassState α) : HourglassState α :=
  let neighborIndex := inp.neighborhoodList st.neighborListPtr
  let loc := hourglassBondLocals ext inp iID neighborIndex
  let f0 := st.hourglassForceDensity
  let f1 := Function.update f0 (3 * iID)
    (f0 (3 * iID) + loc.magnitude * loc.deformedBond.X * loc.neighborVol)
  let f2 := Function.update f1 (3 * iID + 1)
    (f1 (3 * iID + 1) + loc.magnitude * loc.deformedBond.Y * loc.neighborVol)
  let f3 := Function.update f2 (3 * iID + 2)
    (f2 (3 * iID + 2) + loc.magnitude * loc.deformedBond.Z * loc.neighborVol)
  let f4 := Function.update f3 (3 * neighborIndex)
    (f3 (3 * neighborIndex) - loc.magnitude * loc.deformedBond.X * loc.vol)
  let f5 := Function.update f4 (3 * neighborIndex + 1)
    (f4 (3 * neighborIndex + 1) - loc.magnitude * loc.deformedBond.Y * loc.vol)
  let f6 := Function.update f5 (3 * neighborIndex + 2)
    (f5 (3 * neighborIndex + 2) - loc.magnitude * loc.deformedBond.Z * loc.vol)
  { neighborListPtr := st.neighborListPtr + 1, hourglassForceDensity := f6 }

/-- Body of the loop over owned points (source lines 1264-1323). -/
def hourglassPointBody (ext : External α) (inp : HourglassInput α) (iID : Nat)
    (st : HourglassState α) : HourglassState α :=
  let numNeighbors := inp.neighborhoodList st.neighborListPtr
  forLoop (fun _ => hourglassBondBody ext inp iID) numNeighbors 0
    { neighborListPtr := st.neighborListPtr + 1
      hourglassForceDensity := st.hourglassForceDensity }

/-- The hourglass kernel: `hourglassForceDensity0` is the content of the force-density
buffer on entry (the kernel never resets it). -/
def computeHourglassForce (ext : External α) (inp : HourglassInput α)
    (hourglassForceDensity0 : Nat → α) : HourglassState α :=
  forLoop (hourglassPointBody ext inp) inp.numPoints 0
    { neighborListPtr := 0, hourglassForceDensity := hourglassForceDensity0 }

/-! ### The hourglass force of section 4.E, as the specification words it -/

/-- Scalar multiple of a triple. -/
def Vec3.smul (c : α) (v : Vec3 α) : Vec3 α := ⟨c * v.X, c * v.Y, c * v.Z⟩

/-- Entry `k` of the flat array that holds the triple `v` at point `p` and zero
elsewhere. -/
def tripleEntry (v : Vec3 α) (p k : Nat) : α :=
  if k = 3 * p then v.X else if k = 3 * p + 1 then v.Y else if k = 3 * p + 2 then v.Z else 0

/-- Bond magnitude `m = (1 - b) * kappa * p` with `b = 0`,
`p = -(h . eta) / (|xi| * |eta|)`, `h = x[i] + F[i] * xi - x[j]`, `eta = x[j] - x[i]`,
`xi = X[j] - X[i]`, `kappa` the constant the kernel hoists. -/
def hourglassMagnitude (ext : External α) (inp : HourglassInput α) (i j : Nat) : α :=
  let xi := Vec3.sub (triple inp.modelCoordinates j) (triple inp.modelCoordinates i)
  let eta := Vec3.sub (triple inp.coordinates j) (triple inp.coordinates i)
  let h := Vec3.sub (Vec3.add (triple inp.coordinates i)
    ((inp.deformationGradient i).mulVec xi)) (triple inp.coordinates j)
  let p := -(Vec3.dot h eta) / (ext.sqrt (Vec3.dot xi xi) * ext.sqrt (Vec3.dot eta eta))
  (1 - 0) * hourglassConstant inp * p

/-- The vector the bond `(i, j)` adds to the force density of `i`: `m * eta * V[j]`. -/
def hourglassAddedToPoint (ext : External α) (inp : HourglassInput α) (i j : Nat) : Vec3 α :=
  Vec3.smul (hourglassMagnitude ext inp i j * inp.volume j)
    (Vec3.sub (triple inp.coordinates j) (triple inp.coordinates i))

/-- The vector the bond `(i, j)` adds to the force density of `j`: `-(m * eta * V[i])`. -/
def hourglassAddedToNeighbor (ext : External α) (inp : HourglassInput α) (i j : Nat) :
    Vec3 α :=
  Vec3.smul (-(hourglassMagnitude ext inp i j * inp.volume i))
    (Vec3.sub (triple inp.coordinates j) (triple inp.coordinates i))

/-- What the bond `(i, j)` adds to entry `k` of the flat force-density buffer. -/
def hourglassContribution (ext : External α) (inp : HourglassInput α) (i j k : Nat) : α :=
  tripleEntry (hourglassAddedToPoint ext inp i j) i k
    + tripleEntry (hourglassAddedToNeighbor ext inp i j) j k

/-- The bonds `(i, j)`, `j` in `N[i]`, in the order the kernels traverse them. -/
def traversedBonds (neighborhoodList : Nat → Nat) : Nat → List (Nat × Nat)
  | 0 => []
  | n + 1 => traversedBonds neighborhoodList n
      ++ (neighbors neighborhoodList n).map (fun j => (n, j))

/-! ### The quotients of the kernels as partial values

The source divides without testing the divisor. In the field a quotient by zero is a
value by convention; in the source's double arithmetic it is an infinity or a NaN, and so
is everything computed from it. The definitions below run the same statements and return
`none` where a statement divides by zero: the result is then not a tensor (or a buffer)
of numbers. -/

/-- The nine assignments of one iteration of `computeClassicalElasticStress`
(source lines 1551-1559) as a partial value: each multiplies by the hoisted
`youngsModulus / ((1 + nu) * (1 - 2 nu))` of line 1541, so there is no tensor of numbers
when that divisor is zero. -/
def classicalElasticStressPointChecked [DecidableEq α] (youngsModulus poissonsRatio : α)
    (epsilon : Mat3 α) : Option (Mat3 α) :=
  if (1 + poissonsRatio) * (1 - 2 * poissonsRatio) = 0 then none
  else some (classicalElasticStressPoint youngsModulus poissonsRatio epsilon)

/-- The stress kernel with partial quotients: entry `i` of the buffer on exit, `none`
where the kernel stored the result of a division by zero. Entries the loop does not reach
keep their content. -/
def computeClassicalElasticStressChecked [DecidableEq α] (strain cauchyStress0 : Nat → Mat3 α)
    (numPoints : Nat) (youngsModulus poissonsRatio : α) : Nat → Option (Mat3 α) :=
  forLoop (fun iID sigma =>
      Function.update sigma iID
        (classicalElasticStressPointChecked youngsModulus poissonsRatio (strain iID)))
    numPoints 0 (fun k => some (cauchyStress0 k))

/-- Divisor of the constant hoisted by `computeHourglassForce` (source line 1261). -/
def hourglassConstantDivisor (inp : HourglassInput α) : α :=
  31415926536 / 10000000000 * inp.horizon * inp.horizon * inp.horizon * inp.horizon

/-- Body of the neighbour loop of the hourglass kernel with partial quotients: the
magnitude of line 1310 multiplies the hoisted constant (divisor of line 1261) by
`dot / undeformedBondLength` and by `1.0 / deformedBondLength`; when one of the three
divisors is zero the six statements of lines 1316-1321 store no numbers. -/
def hourglassBondBodyChecked [DecidableEq α] (ext : External α) (inp : HourglassInput α)
    (iID : Nat) (st : HourglassState α) : Option (HourglassState α) :=
  let neighborIndex := inp.neighborhoodList st.neighborListPtr
  let loc := hourglassBondLocals ext inp iID neighborIndex
  if hourglassConstantDivisor inp = 0 ∨ loc.undeformedBondLength = 0
      ∨ loc.deformedBondLength = 0 then none
  else some (hourglassBondBody ext inp iID st)

/-- Body of the loop over owned points of the hourglass kernel with partial quotients. -/
def hourglassPointBodyChecked [DecidableEq α] (ext : External α) (inp : HourglassInput α)
    (iID : Nat) (st : Option (HourglassState α)) : Option (HourglassState α) :=
  st.bind (fun s =>
    forLoop (fun _ acc => acc.bind (hourglassBondBodyChecked ext inp iID))
      (inp.neighborhoodList s.neighborListPtr) 0
      (some { neighborListPtr := s.neighborListPtr + 1
              hourglassForceDensity := s.hourglassForceDensity }))

/-- The hourglass kernel with partial quotients: the state on exit, `none` when some
bond it traversed divided by zero. -/
def computeHourglassForceChecked [DecidableEq α] (ext : External α)
    (inp : HourglassInput α) (hourglassForceDensity0 : Nat → α) :
    Option (HourglassState α) :=
  forLoop (hourglassPointBodyChecked ext inp) inp.numPoints 0
    (some { neighborListPtr := 0, hourglassForceDensity := hourglassForceDensity0 })

/-- Volume-weighted total of the force-density buffer over the points `0 .. numAllPoints-1`
(owned and ghost): the three sums of `V[p] * f[3p + c]`. -/
def volumeWeightedForce (volume hourglassForceDensity : Nat → α) (numAllPoints : Nat) :
    Vec3 α :=
  ⟨∑ p in Finset.range numAllPoints, volume p * hourglassForceDensity (3 * p),
   ∑ p in Finset.range numAllPoints, volume p * hourglassForceDensity (3 * p + 1),
   ∑ p in Finset.range numAllPoints, volume p * hourglassForceDensity (3 * p + 2)⟩

/-! ### The vectors `z` and `w` of the updater (source lines 931-945) -/

/-- The three assignments `zX`, `zY`, `zZ` (source lines 931-939), as a function of the
left stretch and of the rate of deformation they read. -/
def zVector (leftStretchN rateOfDef : Mat3 α) : Vec3 α :=
  ⟨-leftStretchN.XZ * rateOfDef.YX - leftStretchN.YZ * rateOfDef.YY
      - leftStretchN.ZZ * rateOfDef.YZ + leftStretchN.XY * rateOfDef.ZX
      + leftStretchN.YY * rateOfDef.ZY + leftStretchN.ZY * rateOfDef.ZZ,
   leftStretchN.XZ * rateOfDef.XX + leftStretchN.YZ * rateOfDef.XY
      + leftStretchN.ZZ * rateOfDef.XZ - leftStretchN.XX * rateOfDef.ZX
      - leftStretchN.YX * rateOfDef.ZY - leftStretchN.ZX * rateOfDef.ZZ,
   -leftStretchN.XY * rateOfDef.XX - leftStretchN.YY * rateOfDef.XY
      - leftStretchN.ZY * rateOfDef.XZ + leftStretchN.XX * rateOfDef.YX
      + leftStretchN.YX * rateOfDef.YY + leftStretchN.ZX * rateOfDef.YZ⟩

/-- The three assignments `wX`, `wY`, `wZ` (source lines 943-945), as a function of the
spin tensor they read. -/
def wVector (spin : Mat3 α) : Vec3 α :=
  ⟨1 / 2 * (-spin.YZ + spin.ZY), 1 / 2 * (spin.XZ - spin.ZX), 1 / 2 * (-spin.XY + spin.YX)⟩

/-! ### The contractions of section 4.C, as the specification words them -/

/-- The alternator `eps_{ijk}`: `1` on the even permutations of `(0, 1, 2)`, `-1` on the
odd ones, `0` when an index repeats. -/
def leviCivita (i j k : Fin 3) : α :=
  if (i, j, k) = (0, 1, 2) ∨ (i, j, k) = (1, 2, 0) ∨ (i, j, k) = (2, 0, 1) then 1
  else if (i, j, k) = (0, 2, 1) ∨ (i, j, k) = (2, 1, 0) ∨ (i, j, k) = (1, 0, 2) then -1
  else 0

/-- A triple as a function of the index `0, 1, 2`. -/
def Vec3.toFun (v : Vec3 α) : Fin 3 → α := ![v.X, v.Y, v.Z]

/-- The contraction `z_i = eps_{ikj} D_{jm} V_{mk}`. -/
def zContraction (D V : Mat3 α) : Fin 3 → α := fun i =>
  ∑ k : Fin 3, ∑ j : Fin 3, ∑ m : Fin 3, leviCivita i k j * D.toMatrix j m * V.toMatrix m k

/-- The contraction `w_i = -1/2 eps_{ijk} W_{jk}`. -/
def wContraction (W : Mat3 α) : Fin 3 → α := fun i =>
  -(1 / 2) * ∑ j : Fin 3, ∑ k : Fin 3, leviCivita i j k * W.toMatrix j k

end Primitives

section Kinematics

variable {α : Type} [LinearOrderedField α]

/-! ### `computeUnrotatedRateOfDeformationAndRotationTensor` (source lines 528-1143) -/

/-- Read-only arguments of the kinematic updater. -/
structure KinematicInput (α : Type) where
  volume : Nat → α
  modelCoordinates : Nat → α
  velocities : Nat → α
  deformationGradient : Nat → Mat3 α
  shapeTensorInverse : Nat → Mat3 α
  leftStretchTensorN : Nat → Mat3 α
  rotationTensorN : Nat → Mat3 α
  neighborhoodList : Nat → Nat
  numPoints : Nat
  horizon : α
  dt : α

/-- Locals of the neighbour loop of the updater that survive an iteration. -/
structure FdotAccum (α : Type) where
  neighborListPtr : Nat
  FdotFirstTerm : Mat3 α

/-- Output buffers, return code and the neighbour-list cursor of the updater. -/
structure KinematicState (α : Type) where
  neighborListPtr : Nat
  leftStretchTensorNP1 : Nat → Mat3 α
  rotationTensorNP1 : Nat → Mat3 α
  unrotatedRateOfDeformation : Nat → Mat3 α
  returnCode : Int

/-- The values the locals of one iteration over owned points hold when the iteration
ends (the scratch matrices `temp`, `tempA`, `tempB`, `OmegaTensorSq` are left out). -/
structure KinematicLocals (α : Type) where
  FdotFirstTerm : Mat3 α
  Fdot : Mat3 α
  defGradInv : Mat3 α
  inversionReturnCodeF : Int
  eulerianVelGrad : Mat3 α
  rateOfDef : Mat3 α
  spin : Mat3 α
  z : Vec3 α
  w : Vec3 α
  traceV : α
  tempInv : Mat3 α
  inversionReturnCodeT : Int
  omega : Vec3 α
  OmegaTensor : Mat3 α
  OmegaSq : α
  Omega : α
  QMatrix : Mat3 α
  rotTensorNP1 : Mat3 α
  rateOfStretch : Mat3 α
  leftStretchNP1 : Mat3 α
  unrotRateOfDef : Mat3 α

/-- Body of the neighbour loop (source lines 836-869) for owned point `iID`. -/
def fdotNeighborBody (ext : External α) (inp : KinematicInput α) (iID : Nat)
    (acc : FdotAccum α) : FdotAccum α :=
  let bondDamage : α := 0
  let neighborIndex := inp.neighborhoodList acc.neighborListPtr
  let neighborVolume := inp.volume neighborIndex
  let undeformedBondX := inp.modelCoordinates (3 * neighborIndex) - inp.modelCoordinates (3 * iID)
  let undeformedBondY :=
    inp.modelCoordinates (3 * neighborIndex + 1) - inp.modelCoordinates (3 * iID + 1)
  let undeformedBondZ :=
    inp.modelCoordinates (3 * neighborIndex + 2) - inp.modelCoordinates (3 * iID + 2)
  let undeformedBondLength :=
    ext.sqrt (undeformedBondX * undeformedBondX + undeformedBondY * undeformedBondY
      + undeformedBondZ * undeformedBondZ)
  let velStateX := inp.velocities (3 * neighborIndex) - inp.velocities (3 * iID)
  let velStateY := inp.velocities (3 * neighborIndex + 1) - inp.velocities (3 * iID + 1)
  let velStateZ := inp.velocities (3 * neighborIndex + 2) - inp.velocities (3 * iID + 2)
  let omega := ext.scalarInfluenceFunction undeformedBondLength inp.horizon
  let scalarTemp := (1 - bondDamage) * omega * neighborVolume
  let undeformedBond : Vec3 α := ⟨undeformedBondX, undeformedBondY, undeformedBondZ⟩
  let velState : Vec3 α := ⟨velStateX, velStateY, velStateZ⟩
  { neighborListPtr := acc.neighborListPtr + 1
    FdotFirstTerm := acc.FdotFirstTerm + Mat3.scaledOuter scalarTemp velState undeformedBond }

/-- Source lines 871-1138 for owned point `iID`, given the accumulated `FdotFirstTerm`.
`shapeTensorInv`, `defGrad`, `leftStretchN`, `rotTensorN` are the cursors advanced in
the loop header, so they address entry `iID`; `leftStretchTensorN` is the function
argument itself, never advanced, so `*leftStretchTensorNXX` addresses entry `0`. -/
def kinematicLocals (ext : External α) (inp : KinematicInput α) (iID : Nat)
    (FdotFirstTerm : Mat3 α) : KinematicLocals α :=
  let identityMatrix : Mat3 α := ⟨1, 0, 0, 0, 1, 0, 0, 0, 1⟩
  let shapeTensorInv := inp.shapeTensorInverse iID
  let defGrad := inp.deformationGradient iID
  let leftStretchN := inp.leftStretchTensorN iID
  let rotTensorN := inp.rotationTensorN iID
  let leftStretchTensorN := inp.leftStretchTensorN 0
  -- Fdot = FdotFirstTerm * shapeTensorInv, the nine products written out in the source
  let Fdot := MatrixMultiply FdotFirstTerm shapeTensorInv
  -- Compute the inverse of the deformation gradient, Finv
  let inversionF := invert3by3Matrix defGrad
  let defGradInv := inversionF.2
  -- Compute the Eulerian velocity gradient L = Fdot * Finv
  let eulerianVelGrad := MatrixMultiply Fdot defGradInv
  let eulerianVelGradT : Mat3 α :=
    ⟨eulerianVelGrad.XX, eulerianVelGrad.YX, eulerianVelGrad.ZX,
     eulerianVelGrad.XY, eulerianVelGrad.YY, eulerianVelGrad.ZY,
     eulerianVelGrad.XZ, eulerianVelGrad.YZ, eulerianVelGrad.ZZ⟩
  -- Compute rate-of-deformation tensor, D = 1/2 * (L + Lt)
  let rateOfDef := MatrixUpdate (1 / 2) (1 / 2) eulerianVelGrad eulerianVelGradT
  -- Compute spin tensor, W = 1/2 * (L - Lt)
  let spin := MatrixUpdate (1 / 2) (-(1 / 2)) eulerianVelGrad eulerianVelGradT
  -- z_i = \epsilon_{ikj} * D_{jm} * V_{mk}
  let zX := -leftStretchN.XZ * rateOfDef.YX - leftStretchN.YZ * rateOfDef.YY
    - leftStretchN.ZZ * rateOfDef.YZ + leftStretchN.XY * rateOfDef.ZX
    + leftStretchN.YY * rateOfDef.ZY + leftStretchN.ZY * rateOfDef.ZZ
  let zY := leftStretchN.XZ * rateOfDef.XX + leftStretchN.YZ * rateOfDef.XY
    + leftStretchN.ZZ * rateOfDef.XZ - leftStretchN.XX * rateOfDef.ZX
    - leftStretchN.YX * rateOfDef.ZY - leftStretchN.ZX * rateOfDef.ZZ
  let zZ := -leftStretchN.XY * rateOfDef.XX - leftStretchN.YY * rateOfDef.XY
    - leftStretchN.ZY * rateOfDef.XZ + leftStretchN.XX * rateOfDef.YX
    + leftStretchN.YX * rateOfDef.YY + leftStretchN.ZX * rateOfDef.YZ
  -- w_i = -1/2 * \epsilon_{ijk} * W_{jk}
  let wX := 1 / 2 * (-spin.YZ + spin.ZY)
  let wY := 1 / 2 * (spin.XZ - spin.ZX)
  let wZ := 1 / 2 * (-spin.XY + spin.YX)
  let traceV := leftStretchN.XX + leftStretchN.YY + leftStretchN.ZZ
  -- Compute (trace(V) * I - V) store in temp
  let temp := MatrixUpdate traceV (-1) identityMatrix leftStretchN
  let inversionT := invert3by3Matrix temp
  let tempInv := inversionT.2
  -- omega = w + (trace(V) I - V)^(-1) * z
  let omegaX := wX + tempInv.XX * zX + tempInv.XY * zY + tempInv.XZ * zZ
  let omegaY := wY + tempInv.YX * zX + tempInv.YY * zY + tempInv.YZ * zZ
  let omegaZ := wZ + tempInv.ZX * zX + tempInv.ZY * zY + tempInv.ZZ * zZ
  -- OmegaTensorXX is assigned twice and OmegaTensorZZ keeps its initial 0.0
  let OmegaTensor : Mat3 α := ⟨0, -omegaZ, omegaY, omegaZ, 0, -omegaX, -omegaY, omegaX, 0⟩
  let OmegaSq := omegaX * omegaX + omegaY * omegaY + omegaZ * omegaZ
  let Omega := ext.sqrt OmegaSq
  let QMatrix : Mat3 α :=
    if OmegaSq > 1 / 10 ^ 30 then
      let scaleFactor1 := ext.sin (inp.dt * Omega) / Omega
      let temp1 := MatrixUpdate 1 scaleFactor1 identityMatrix OmegaTensor
      let OmegaTensorSq := MatrixMultiply OmegaTensor OmegaTensor
      let scaleFactor2 := -(1 - ext.cos (inp.dt * Omega)) / OmegaSq
      MatrixUpdate 1 scaleFactor2 temp1
        ⟨OmegaTensorSq.XX, OmegaTensorSq.YX, OmegaTensorSq.ZX,
         OmegaTensorSq.YX, OmegaTensorSq.YY, OmegaTensorSq.ZY,
         OmegaTensorSq.XZ, OmegaTensorSq.YZ, OmegaTensorSq.ZZ⟩
    else
      identityMatrix
  -- Compute R_STEP_NP1 = QMatrix * R_STEP_N
  let rotTensorNP1 := MatrixMultiply QMatrix rotTensorN
  -- Compute rate of stretch, Vdot = L*V - V*Omega
  let tempA := MatrixMultiply eulerianVelGrad leftStretchTensorN
  let tempB := MatrixMultiply leftStretchTensorN OmegaTensor
  let rateOfStretch := MatrixUpdate 1 (-1) tempA tempB
  -- V_STEP_NP1 = V_STEP_N + dt*Vdot
  let leftStretchNP1 := MatrixUpdate 1 inp.dt leftStretchTensorN rateOfStretch
  -- Compute the unrotated rate-of-deformation, d = Rt * D * R
  let unrotRateOfDef := UnrotateTensor rateOfDef rotTensorNP1
  { FdotFirstTerm := FdotFirstTerm
    Fdot := Fdot
    defGradInv := defGradInv
    inversionReturnCodeF := inversionF.1
    eulerianVelGrad := eulerianVelGrad
    rateOfDef := rateOfDef
    spin := spin
    z := ⟨zX, zY, zZ⟩
    w := ⟨wX, wY, wZ⟩
    traceV := traceV
    tempInv := tempInv
    inversionReturnCodeT := inversionT.1
    omega := ⟨omegaX, omegaY, omegaZ⟩
    OmegaTensor := OmegaTensor
    OmegaSq := OmegaSq
    Omega := Omega
    QMatrix := QMatrix
    rotTensorNP1 := rotTensorNP1
    rateOfStretch := rateOfStretch
    leftStretchNP1 := leftStretchNP1
    unrotRateOfDef := unrotRateOfDef }

/-- Body of the loop over owned points (source lines 756-1140). The rotation and the
unrotated rate of deformation are stored through the advanced cursors (entry `iID`);
the left stretch is stored through `*leftStretchTensorNP1XX ...`, the function
argument, which addresses entry `0` in every iteration. -/
def kinematicPointBody (ext : External α) (inp : KinematicInput α) (iID : Nat)
    (st : KinematicState α) : KinematicState α :=
  let numNeighbors := inp.neighborhoodList st.neighborListPtr
  let acc := forLoop (fun _ => fdotNeighborBody ext inp iID) numNeighbors 0
    { neighborListPtr := st.neighborListPtr + 1, FdotFirstTerm := 0 }
  let loc := kinematicLocals ext inp iID acc.FdotFirstTerm
  let returnCode1 :=
    if loc.inversionReturnCodeF > 0 then loc.inversionReturnCodeF else st.returnCode
  let returnCode2 :=
    if loc.inversionReturnCodeT > 0 then loc.inversionReturnCodeT else returnCode1
  { neighborListPtr := acc.neighborListPtr
    leftStretchTensorNP1 := Function.update st.leftStretchTensorNP1 0 loc.leftStretchNP1
    rotationTensorNP1 := Function.update st.rotationTensorNP1 iID loc.rotTensorNP1
    unrotatedRateOfDeformation :=
      Function.update st.unrotatedRateOfDeformation iID loc.unrotRateOfDef
    returnCode := returnCode2 }

/-- The kinematic updater: the three `...0` arguments are the contents of the output
buffers on entry. -/
def computeUnrotatedRateOfDeformationAndRotationTensor (ext : External α)
    (inp : KinematicInput α)
    (leftStretchTensorNP10 rotationTensorNP10 unrotatedRateOfDeformation0 : Nat → Mat3 α) :
    KinematicState α :=
  forLoop (kinematicPointBody ext inp) inp.numPoints 0
    { neighborListPtr := 0
      leftStretchTensorNP1 := leftStretchTensorNP10
      rotationTensorNP1 := rotationTensorNP10
      unrotatedRateOfDeformation := unrotatedRateOfDeformation0
      returnCode := 0 }

/-- The locals of iteration `i` of the updater, the neighbour loop having accumulated
`FdotFirstTerm` over the neighbours `N[i]` of the flat list. -/
def kinematicLocalsAt (ext : External α) (inp : KinematicInput α) (i : Nat) :
    KinematicLocals α :=
  kinematicLocals ext inp i
    (weightedBondSum ext inp.volume inp.modelCoordinates inp.horizon inp.neighborhoodList
      inp.velocities i)

end Kinematics

section Scenarios

/-! ### Concrete inputs (the six-neighbour geometry of the specification's scenarios) -/

/-- Reference coordinates of seven points: point `0` at the origin and points `1..6`
at distance 1 on the `+x, -x, +y, -y, +z, -z` axes. -/
def sixNeighborModelCoordinates : Nat → ℚ := fun k =>
  [0, 0, 0, 1, 0, 0, -1, 0, 0, 0, 1, 0, 0, -1, 0, 0, 0, 1, 0, 0, -1].getD k 0

/-- Flat neighbour list of one owned point (point `0`) with neighbours `1..6`. -/
def sixNeighborList : Nat → Nat := fun k => [6, 1, 2, 3, 4, 5, 6].getD k 0

/-- Influence function identically 1 over the rationals; `sqrt`, `sin`, `cos` are
stand-ins, which a constant influence function and the identity branch never consult
for their value. -/
def unitInfluence : External ℚ :=
  { sqrt := fun x => x, sin := fun _ => 0, cos := fun _ => 1,
    scalarInfluenceFunction := fun _ _ => 1 }

/-- The flat coordinate array of the points `A * X[k] + t`. -/
def affineImage {α : Type} [Field α] (A : Mat3 α) (t : Vec3 α) (X : Nat → α) : Nat → α :=
  fun n =>
    let p := Vec3.add (A.mulVec (triple X (n / 3))) t
    if n % 3 = 0 then p.X else if n % 3 = 1 then p.Y else p.Z

/-- Shape-kernel input of the uniaxial-stretch scenario: unit volumes, influence 1,
`x = diag(11/10, 1, 1) * X`. -/
def uniaxialStretchInput : ShapeInput ℚ :=
  { volume := fun _ => 1
    modelCoordinates := sixNeighborModelCoordinates
    coordinates := affineImage ⟨11 / 10, 0, 0, 0, 1, 0, 0, 0, 1⟩ ⟨0, 0, 0⟩
      sixNeighborModelCoordinates
    neighborhoodList := sixNeighborList
    numPoints := 1
    horizon := 2 }

/-- Shape-kernel input of a rigid translation by `t = (1, 2, 3)` of the same geometry. -/
def translationInput : ShapeInput ℚ :=
  { volume := fun _ => 1
    modelCoordinates := sixNeighborModelCoordinates
    coordinates := affineImage Mat3.identity ⟨1, 2, 3⟩ sixNeighborModelCoordinates
    neighborhoodList := sixNeighborList
    numPoints := 1
    horizon := 2 }

/-- Updater input with two owned points and one ghost: point `0` at the origin,
point `1` at `(0, 1, 0)`, ghost `2` at `(1, 0, 0)`; point `0` has the single neighbour
`2`, point `1` has none. Unit volumes; `K⁻¹ = F = Rⁿ = Vⁿ = I` at both owned points;
only the ghost moves, with velocity `(0, 2, 0)`. -/
def singleBondSpinInput {α : Type} [Field α] (dt : α) : KinematicInput α :=
  { volume := fun _ => 1
    modelCoordinates := fun k => if k = 4 then 1 else if k = 6 then 1 else 0
    velocities := fun k => if k = 7 then 2 else 0
    deformationGradient := fun _ => Mat3.identity
    shapeTensorInverse := fun _ => Mat3.identity
    leftStretchTensorN := fun _ => Mat3.identity
    rotationTensorN := fun _ => Mat3.identity
    neighborhoodList := fun k => if k = 0 then 1 else if k = 1 then 2 else 0
    numPoints := 2
    horizon := 2
    dt := dt }

/-- Updater input of the rotation scenario: the six-neighbour geometry (one owned point
at the origin, at rest, ghosts `1..6` on the axes) with ghost velocities
`v[j] = (0, 0, wz) x X[j]`, unit volumes, `K⁻¹ = 1/2 I`, `F = Rⁿ = Vⁿ = I`. -/
def sixNeighborSpinInput {α : Type} [Field α] (wz dt : α) : KinematicInput α :=
  { volume := fun _ => 1
    modelCoordinates := fun k =>
      ([0, 0, 0, 1, 0, 0, -1, 0, 0, 0, 1, 0, 0, -1, 0, 0, 0, 1, 0, 0, -1] : List α).getD k 0
    velocities := fun k =>
      ([0, 0, 0, 0, wz, 0, 0, -wz, 0, -wz, 0, 0, wz, 0, 0, 0, 0, 0, 0, 0, 0] : List α).getD k 0
    deformationGradient := fun _ => Mat3.identity
    shapeTensorInverse := fun _ => ⟨1 / 2, 0, 0, 0, 1 / 2, 0, 0, 0, 1 / 2⟩
    leftStretchTensorN := fun _ => Mat3.identity
    rotationTensorN := fun _ => Mat3.identity
    neighborhoodList := sixNeighborList
    numPoints := 1
    horizon := 2
    dt := dt }

/-- Updater input at rest: the two owned points of `singleBondSpinInput` with all
velocities zero (`F = K⁻¹ = Rⁿ = Vⁿ = I`). -/
def twoPointRestInput {α : Type} [Field α] (dt : α) : KinematicInput α :=
  { singleBondSpinInput dt with velocities := fun _ => 0 }

/-- Shape-kernel input with a degenerate neighbour set: the owned point `0` at the
origin has the two neighbours `1` and `2`, at `(1, 0, 0)` and `(-1, 0, 0)`. -/
def colinearInput : ShapeInput ℚ :=
  { uniaxialStretchInput with neighborhoodList := fun k => [2, 1, 2].getD k 0 }

/-- Shape-kernel input with two owned points on the six-neighbour coordinates: point `0`
has no neighbours (singular shape tensor), point `1` at `(1, 0, 0)` has the neighbours
`0, 2, 3, 4, 5, 6` (shape tensor `diag(9, 2, 2)`); `x = X`. -/
def singularFirstInput : ShapeInput ℚ :=
  { volume := fun _ => 1
    modelCoordinates := sixNeighborModelCoordinates
    coordinates := sixNeighborModelCoordinates
    neighborhoodList := fun k => [0, 6, 0, 2, 3, 4, 5, 6].getD k 0
    numPoints := 2
    horizon := 3 }

/-- Updater input with a singular deformation gradient at the first owned point: the
two owned points of `singleBondSpinInput` with `F[0] = 0` and `F[1] = I`. -/
def singularGradientInput {α : Type} [Field α] (dt : α) : KinematicInput α :=
  { singleBondSpinInput dt with
    deformationGradient := fun k => if k = 0 then Mat3.zero else Mat3.identity }

/-! ### A two-point input of the hourglass kernel -/

/-- Hourglass input with two owned points, each the only neighbour of the other:
`X[0] = x[0] = 0`, `X[1] = (1, 0, 0)`, `x[1] = (2, 0, 0)`, `F = I`, `V[0] = 2`,
`V[1] = 3`, horizon 1, bulk modulus 1 and the hourglass coefficient chosen so that
the hoisted constant is 1. -/
def twoPointHourglassInput : HourglassInput ℚ :=
  { volume := fun k => if k = 0 then 2 else 3
    modelCoordinates := fun k => if k = 3 then 1 else 0
    coordinates := fun k => if k = 3 then 2 else 0
    deformationGradient := fun _ => Mat3.identity
    neighborhoodList := fun k => if k = 0 then 1 else if k = 1 then 1 else if k = 2 then 1 else 0
    numPoints := 2
    horizon := 1
    bulkModulus := 1
    hourglassCoefficient := 31415926536 / 180000000000 }

/-- Square root on the two radicands the two-point hourglass input meets (1 and 4). -/
def squareRootOneFour : External ℚ :=
  { sqrt := fun x => if x = 4 then 2 else x, sin := fun _ => 0, cos := fun _ => 1,
    scalarInfluenceFunction := fun _ _ => 1 }

/-- The two-point hourglass input with point `0` listed as its own neighbour (flat list
`[1, 0, 1, 0]`): a valid index, a bond of zero length. -/
def selfNeighborHourglassInput : HourglassInput ℚ :=
  { twoPointHourglassInput with neighborhoodList := fun k => [1, 0, 1, 0].getD k 0 }

/-- The two-point hourglass input with both points at the same current position
(`x[0] = x[1] = 0`, reference positions distinct). -/
def coincidentHourglassInput : HourglassInput ℚ :=
  { twoPointHourglassInput with coordinates := fun _ => 0 }

/-- The two-point hourglass input with horizon `0`. -/
def zeroHorizonHourglassInput : HourglassInput ℚ :=
  { twoPointHourglassInput with horizon := 0 }

/-! ### Scenario 1: the six-neighbour geometry at rest -/

/-- Shape-kernel input of scenario 1: one owned point at the origin with the six
neighbours on the axes, unit volumes, `x = X`. -/
def sixNeighborRestInput : ShapeInput ℚ :=
  { volume := fun _ => 1
    modelCoordinates := sixNeighborModelCoordinates
    coordinates := sixNeighborModelCoordinates
    neighborhoodList := sixNeighborList
    numPoints := 1
    horizon := 2 }

end Scenarios

section PrimitiveLemmas

variable {α : Type} [Field α]

theorem det_eq_matrix_det (m : Mat3 α) : m.det = m.toMatrix.det := by
  simp [Mat3.det, Mat3.toMatrix, Matrix.det_fin_three]
  ring

theorem toMatrix_MatrixMultiply (a b : Mat3 α) :
    (MatrixMultiply a b).toMatrix = a.toMatrix * b.toMatrix := by
  ext i j
  fin_cases i <;> fin_cases j <;>
    simp [MatrixMultiply, Mat3.toMatrix, Matrix.mul_apply, Fin.sum_univ_three]

theorem toMatrix_identity : (Mat3.identity : Mat3 α).toMatrix = 1 := by
  ext i j
  fin_cases i <;> fin_cases j <;> rfl

theorem invert3by3Matrix_singular [DecidableEq α] (m : Mat3 α) (h : m.det = 0) :
    invert3by3Matrix m = (1, Mat3.zero) := by
  have h2 : m.XX * (m.YY * m.ZZ - m.YZ * m.ZY) - m.XY * (m.YX * m.ZZ - m.YZ * m.ZX)
      + m.XZ * (m.YX * m.ZY - m.YY * m.ZX) = 0 := h
  simp [invert3by3Matrix, h2, Mat3.zero]

theorem invert3by3Matrix_code_regular [DecidableEq α] (m : Mat3 α) (h : m.det ≠ 0) :
    (invert3by3Matrix m).1 = 0 := by
  have h2 : ¬ (m.XX * (m.YY * m.ZZ - m.YZ * m.ZY) - m.XY * (m.YX * m.ZZ - m.YZ * m.ZX)
      + m.XZ * (m.YX * m.ZY - m.YY * m.ZX) = 0) := h
  simp [invert3by3Matrix, h2]

theorem MatrixMultiply_invert_right [DecidableEq α] (m : Mat3 α) (h : m.det ≠ 0) :
    MatrixMultiply m (invert3by3Matrix m).2 = Mat3.identity := by
  have h2 : ¬ (m.XX * (m.YY * m.ZZ - m.YZ * m.ZY) - m.XY * (m.YX * m.ZZ - m.YZ * m.ZX)
      + m.XZ * (m.YX * m.ZY - m.YY * m.ZX) = 0) := h
  simp only [invert3by3Matrix, if_neg h2, MatrixMultiply, Mat3.identity]
  ext <;> (field_simp; ring)

theorem MatrixMultiply_invert_left [DecidableEq α] (m : Mat3 α) (h : m.det ≠ 0) :
    MatrixMultiply (invert3by3Matrix m).2 m = Mat3.identity := by
  have h2 : ¬ (m.XX * (m.YY * m.ZZ - m.YZ * m.ZY) - m.XY * (m.YX * m.ZZ - m.YZ * m.ZX)
      + m.XZ * (m.YX * m.ZY - m.YY * m.ZX) = 0) := h
  simp only [invert3by3Matrix, if_neg h2, MatrixMultiply, Mat3.identity]
  ext <;> (field_simp; ring)

end PrimitiveLemmas

section LoopLemmas

theorem forLoop_succ_last {σ : Type} (body : Nat → σ → σ) (n k : Nat) (s : σ) :
    forLoop body (n + 1) k s = body (k + n) (forLoop body n k s) := by
  induction n generalizing k s with
  | zero => rfl
  | succ n ih =>
    have h := ih (k + 1) (body k s)
    have e : k + 1 + n = k + (n + 1) := by omega
    rw [e] at h
    exact h

end LoopLemmas

section ShapeLemmas

variable {α : Type} [Field α]

/-- The neighbour loop of the shape kernel, run over `n` entries starting at the cursor
of `acc`, advances the cursor by `n` and adds the `n` weighted outer products. -/
theorem shapeNeighborLoop_eq (ext : External α) (inp : ShapeInput α) (iID n : Nat)
    (acc : ShapeAccum α) :
    forLoop (fun _ => shapeNeighborBody ext inp iID) n 0 acc =
      { neighborListPtr := acc.neighborListPtr + n
        shapeTensor := acc.shapeTensor + ((List.range n).map (fun m =>
          Mat3.scaledOuter
            (bondWeight ext inp.volume inp.modelCoordinates inp.horizon iID
              (inp.neighborhoodList (acc.neighborListPtr + m)))
            (referenceBond inp.modelCoordinates iID
              (inp.neighborhoodList (acc.neighborListPtr + m)))
            (referenceBond inp.modelCoordinates iID
              (inp.neighborhoodList (acc.neighborListPtr + m))))).sum
        defGradFirstTerm := acc.defGradFirstTerm + ((List.range n).map (fun m =>
          Mat3.scaledOuter
            (bondWeight ext inp.volume inp.modelCoordinates inp.horizon iID
              (inp.neighborhoodList (acc.neighborListPtr + m)))
            (Vec3.sub (triple inp.coordinates (inp.neighborhoodList (acc.neighborListPtr + m)))
              (triple inp.coordinates iID))
            (referenceBond inp.modelCoordinates iID
              (inp.neighborhoodList (acc.neighborListPtr + m))))).sum } := by
  induction n with
  | zero => simp [forLoop]
  | succ n ih =>
    rw [forLoop_succ_last, ih]
    simp only [List.range_succ, List.map_append, List.sum_append, List.map_cons, List.map_nil,
      List.sum_cons, List.sum_nil, add_zero, ← add_assoc]
    rfl

/-- One iteration of the shape kernel whose cursor stands at the count of point `i`. -/
theorem shapePointBody_eq [DecidableEq α] (ext : External α) (inp : ShapeInput α) (i : Nat)
    (st : ShapeState α) (hptr : st.neighborListPtr = neighborOffset inp.neighborhoodList i) :
    shapePointBody ext inp i st =
      { neighborListPtr := neighborOffset inp.neighborhoodList (i + 1)
        shapeTensorInverse := Function.update st.shapeTensorInverse i
          (invert3by3Matrix (shapeTensorOf ext inp i)).2
        deformationGradient := Function.update st.deformationGradient i
          (MatrixMultiply (defGradFirstTermOf ext inp i)
            (invert3by3Matrix (shapeTensorOf ext inp i)).2)
        returnCode :=
          if (invert3by3Matrix (shapeTensorOf ext inp i)).1 > 0
          then (invert3by3Matrix (shapeTensorOf ext inp i)).1 else st.returnCode } := by
  unfold shapePointBody
  simp only [shapeNeighborLoop_eq, hptr, zero_add]
  simp only [shapeTensorOf, defGradFirstTermOf, weightedBondSum, neighbors, List.map_map,
    neighborOffset, referenceBond]
  rfl

/-- State of the shape kernel after its first `n` iterations: the cursor stands at the
count of point `n`, entries below `n` hold the values computed from the neighbours of
their own point, entries from `n` on are untouched. -/
theorem shapeLoop_fields [DecidableEq α] (ext : External α) (inp : ShapeInput α)
    (st0 : ShapeState α) (h0 : st0.neighborListPtr = 0) (n : Nat) :
    (forLoop (shapePointBody ext inp) n 0 st0).neighborListPtr
        = neighborOffset inp.neighborhoodList n ∧
      (forLoop (shapePointBody ext inp) n 0 st0).shapeTensorInverse
        = (fun i => if i < n then (invert3by3Matrix (shapeTensorOf ext inp i)).2
            else st0.shapeTensorInverse i) ∧
      (forLoop (shapePointBody ext inp) n 0 st0).deformationGradient
        = (fun i => if i < n then MatrixMultiply (defGradFirstTermOf ext inp i)
              (invert3by3Matrix (shapeTensorOf ext inp i)).2
            else st0.deformationGradient i) := by
  induction n with
  | zero => simp [forLoop, h0, neighborOffset]
  | succ n ih =>
    obtain ⟨hp, hk, hf⟩ := ih
    rw [forLoop_succ_last, zero_add, shapePointBody_eq ext inp n _ hp]
    refine ⟨rfl, ?_, ?_⟩
    · funext i
      simp only [hk, Function.update_apply]
      by_cases h1 : i = n
      · simp [h1]
      · by_cases h2 : i < n
        · have h3 : i < n + 1 := by omega
          simp [h1, h2, h3]
        · have h3 : ¬ i < n + 1 := by omega
          simp [h1, h2, h3]
    · funext i
      simp only [hf, Function.update_apply]
      by_cases h1 : i = n
      · simp [h1]
      · by_cases h2 : i < n
        · have h3 : i < n + 1 := by omega
          simp [h1, h2, h3]
        · have h3 : ¬ i < n + 1 := by omega
          simp [h1, h2, h3]

end ShapeLemmas

section ShapeClaims

variable {α : Type} [Field α] [DecidableEq α]

end ShapeClaims

section PrimitiveClaims

variable {α : Type} [Field α] [DecidableEq α]

/-- C2: for every 3x3 matrix `A` whose determinant (cofactor expansion along the first
row) is non-zero, `invert3by3Matrix` returns 0 and writes a matrix `B` with
`A * B = I` and `B * A = I`, namely `B = adj(A) / det(A)` (Mathlib's matrix inverse). -/
theorem C2_invert3by3Matrix_inverse (A : Mat3 α) (hdet : A.det ≠ 0) :
    (invert3by3Matrix A).1 = 0 ∧
    A.toMatrix * (invert3by3Matrix A).2.toMatrix = 1 ∧
    (invert3by3Matrix A).2.toMatrix * A.toMatrix = 1 ∧
    MatrixMultiply A (invert3by3Matrix A).2 = Mat3.identity ∧
    MatrixMultiply (invert3by3Matrix A).2 A = Mat3.identity ∧
    (invert3by3Matrix A).2.toMatrix = (A.toMatrix.det)⁻¹ • A.toMatrix.adjugate := by
  have hr := MatrixMultiply_invert_right A hdet
  have hl := MatrixMultiply_invert_left A hdet
  have hr2 : A.toMatrix * (invert3by3Matrix A).2.toMatrix = 1 := by
    rw [← toMatrix_MatrixMultiply, hr, toMatrix_identity]
  have hl2 : (invert3by3Matrix A).2.toMatrix * A.toMatrix = 1 := by
    rw [← toMatrix_MatrixMultiply, hl, toMatrix_identity]
  refine ⟨invert3by3Matrix_code_regular A hdet, hr2, hl2, hr, hl, ?_⟩
  have hinv : A.toMatrix⁻¹ = (invert3by3Matrix A).2.toMatrix := Matrix.inv_eq_right_inv hr2
  rw [← hinv, Matrix.inv_def, Ring.inverse_eq_inv]

/-- Witness of C2 at the rational matrix `diag(2, 1, 1)`. -/
theorem C2_invert3by3Matrix_inverse_witness :
    (⟨2, 0, 0, 0, 1, 0, 0, 0, 1⟩ : Mat3 ℚ).det ≠ 0 ∧
    (invert3by3Matrix (⟨2, 0, 0, 0, 1, 0, 0, 0, 1⟩ : Mat3 ℚ)).1 = 0 ∧
    MatrixMultiply (⟨2, 0, 0, 0, 1, 0, 0, 0, 1⟩ : Mat3 ℚ)
      (invert3by3Matrix (⟨2, 0, 0, 0, 1, 0, 0, 0, 1⟩ : Mat3 ℚ)).2 = Mat3.identity :=
  have h : (⟨2, 0, 0, 0, 1, 0, 0, 0, 1⟩ : Mat3 ℚ).det ≠ 0 := by simp [Mat3.det]
  ⟨h, (C2_invert3by3Matrix_inverse _ h).1, (C2_invert3by3Matrix_inverse _ h).2.2.2.1⟩

/-- C3: `invert3by3Matrix` returns a non-zero code if and only if the determinant of
its input is exactly zero, and in that case all nine output components are zero. -/
theorem C3_invert3by3Matrix_fault_iff (A : Mat3 α) :
    ((invert3by3Matrix A).1 ≠ 0 ↔ A.det = 0) ∧
    (A.det = 0 → (invert3by3Matrix A).2 = ⟨0, 0, 0, 0, 0, 0, 0, 0, 0⟩) := by
  by_cases h : A.det = 0
  · have e := invert3by3Matrix_singular A h
    refine ⟨?_, fun _ => ?_⟩
    · rw [e]; simp [h]
    · rw [e]; rfl
  · have e := invert3by3Matrix_code_regular A h
    exact ⟨by simp [e, h], fun h2 => absurd h2 h⟩

/-- Witness of C3 at a rank-1 rational matrix: the code is 1 and the output is zero. -/
theorem C3_invert3by3Matrix_fault_iff_witness :
    (⟨2, 0, 0, 0, 0, 0, 0, 0, 0⟩ : Mat3 ℚ).det = 0 ∧
    (invert3by3Matrix (⟨2, 0, 0, 0, 0, 0, 0, 0, 0⟩ : Mat3 ℚ)).1 ≠ 0 ∧
    (invert3by3Matrix (⟨2, 0, 0, 0, 0, 0, 0, 0, 0⟩ : Mat3 ℚ)).2
      = ⟨0, 0, 0, 0, 0, 0, 0, 0, 0⟩ :=
  have h : (⟨2, 0, 0, 0, 0, 0, 0, 0, 0⟩ : Mat3 ℚ).det = 0 := by simp [Mat3.det]
  ⟨h, (C3_invert3by3Matrix_fault_iff _).1.mpr h, (C3_invert3by3Matrix_fault_iff _).2 h⟩

end PrimitiveClaims

section AlgebraLemmas

variable {α : Type} [Field α]

theorem Mat3.add_def (a b : Mat3 α) : a + b = Mat3.add a b := rfl

theorem Mat3.zero_def : (0 : Mat3 α) = Mat3.zero := rfl

theorem MatrixMultiply_add_right (a x y : Mat3 α) :
    MatrixMultiply a (x + y) = MatrixMultiply a x + MatrixMultiply a y := by
  simp only [Mat3.add_def, Mat3.add, MatrixMultiply]
  ext <;> simp only <;> ring

theorem MatrixMultiply_zero_right (a : Mat3 α) : MatrixMultiply a (0 : Mat3 α) = 0 := by
  simp only [Mat3.zero_def, Mat3.zero, MatrixMultiply]
  ext <;> simp only <;> ring

theorem MatrixMultiply_zero_left (a : Mat3 α) : MatrixMultiply (0 : Mat3 α) a = 0 := by
  simp only [Mat3.zero_def, Mat3.zero, MatrixMultiply]
  ext <;> simp only <;> ring

theorem MatrixMultiply_assoc (a b c : Mat3 α) :
    MatrixMultiply (MatrixMultiply a b) c = MatrixMultiply a (MatrixMultiply b c) := by
  simp only [MatrixMultiply]
  ext <;> simp only <;> ring

theorem MatrixMultiply_identity_right (a : Mat3 α) :
    MatrixMultiply a Mat3.identity = a := by
  simp only [MatrixMultiply, Mat3.identity]
  ext <;> simp only <;> ring

theorem MatrixMultiply_identity_left (a : Mat3 α) :
    MatrixMultiply Mat3.identity a = a := by
  simp only [MatrixMultiply, Mat3.identity]
  ext <;> simp only <;> ring

theorem MatrixMultiply_list_sum (a : Mat3 α) (l : List (Mat3 α)) :
    MatrixMultiply a l.sum = (l.map (MatrixMultiply a)).sum := by
  induction l with
  | nil => simp [MatrixMultiply_zero_right]
  | cons x l ih => simp [MatrixMultiply_add_right, ih]

theorem scaledOuter_mulVec (a : Mat3 α) (w : α) (u v : Vec3 α) :
    Mat3.scaledOuter w (a.mulVec u) v = MatrixMultiply a (Mat3.scaledOuter w u v) := by
  simp only [MatrixMultiply, Mat3.scaledOuter, Mat3.mulVec]
  ext <;> simp only <;> ring

theorem affine_bond (a : Mat3 α) (t p q : Vec3 α) :
    Vec3.sub (Vec3.add (a.mulVec p) t) (Vec3.add (a.mulVec q) t) = a.mulVec (Vec3.sub p q) := by
  simp only [Vec3.sub, Vec3.add, Mat3.mulVec]
  ext <;> simp only <;> ring

theorem triple_affineImage (a : Mat3 α) (t : Vec3 α) (X : Nat → α) (k : Nat) :
    triple (affineImage a t X) k = Vec3.add (a.mulVec (triple X k)) t := by
  have h0 : 3 * k % 3 = 0 := by omega
  have h1 : (3 * k + 1) % 3 = 1 := by omega
  have h2 : (3 * k + 2) % 3 = 2 := by omega
  have d0 : 3 * k / 3 = k := by omega
  have d1 : (3 * k + 1) / 3 = k := by omega
  have d2 : (3 * k + 2) / 3 = k := by omega
  simp [triple, affineImage, h0, h1, h2, d0, d1, d2]

/-- Under an affine deformation `x[k] = A * X[k] + t` of every point, the accumulated
first term of the deformation gradient is `A` times the shape tensor. -/
theorem weightedBondSum_affine (ext : External α) (volume modelCoordinates coordinates : Nat → α)
    (horizon : α) (neighborhoodList : Nat → Nat) (a : Mat3 α) (t : Vec3 α) (i : Nat)
    (haff : ∀ k, triple coordinates k = Vec3.add (a.mulVec (triple modelCoordinates k)) t) :
    weightedBondSum ext volume modelCoordinates horizon neighborhoodList coordinates i
      = MatrixMultiply a
          (weightedBondSum ext volume modelCoordinates horizon neighborhoodList
            modelCoordinates i) := by
  unfold weightedBondSum
  rw [MatrixMultiply_list_sum, List.map_map]
  congr 1
  apply List.map_congr_left
  intro j _
  simp only [Function.comp, haff, affine_bond, scaledOuter_mulVec, referenceBond]

/-- A loop that stores `f iID` at entry `iID` of a buffer, for `iID = 0 .. n-1`. -/
theorem forLoop_update {β : Type} (f : Nat → β) (buf0 : Nat → β) (n : Nat) :
    forLoop (fun iID buf => Function.update buf iID (f iID)) n 0 buf0
      = fun i => if i < n then f i else buf0 i := by
  induction n with
  | zero => funext i; simp [forLoop]
  | succ n ih =>
    rw [forLoop_succ_last, ih, zero_add]
    funext i
    simp only [Function.update_apply]
    by_cases h1 : i = n
    · simp [h1]
    · by_cases h2 : i < n
      · have h3 : i < n + 1 := by omega
        simp [h1, h2, h3]
      · have h3 : ¬ i < n + 1 := by omega
        simp [h1, h2, h3]

/-- The shape tensor of the six-neighbour geometry with unit volumes and influence 1. -/
theorem shapeTensorOf_uniaxialStretchInput :
    shapeTensorOf unitInfluence uniaxialStretchInput 0 = ⟨2, 0, 0, 0, 2, 0, 0, 0, 2⟩ := by
  simp [shapeTensorOf, weightedBondSum, neighbors, neighborOffset, uniaxialStretchInput,
    sixNeighborList, List.range_succ, bondWeight, unitInfluence, referenceBond, triple, Vec3.sub,
    sixNeighborModelCoordinates, Mat3.scaledOuter, Mat3.add_def, Mat3.add, Mat3.zero_def, Mat3.zero]
  norm_num

theorem shapeTensorOf_translationInput :
    shapeTensorOf unitInfluence translationInput 0 = ⟨2, 0, 0, 0, 2, 0, 0, 0, 2⟩ :=
  shapeTensorOf_uniaxialStretchInput

theorem mulVec_identity (v : Vec3 α) : (Mat3.identity : Mat3 α).mulVec v = v := by
  simp only [Mat3.mulVec, Mat3.identity]
  ext <;> simp only <;> ring

/-- Entry `i` of the shape-tensor-inverse buffer after the shape kernel. -/
theorem shapeKernel_shapeTensorInverse [DecidableEq α] (ext : External α) (inp : ShapeInput α)
    (shapeTensorInverse0 deformationGradient0 : Nat → Mat3 α) (i : Nat) :
    (computeShapeTensorInverseAndApproximateDeformationGradient ext inp
        shapeTensorInverse0 deformationGradient0).shapeTensorInverse i
      = if i < inp.numPoints then (invert3by3Matrix (shapeTensorOf ext inp i)).2
        else shapeTensorInverse0 i := by
  obtain ⟨_, hk, _⟩ := shapeLoop_fields ext inp
    { neighborListPtr := 0
      shapeTensorInverse := shapeTensorInverse0
      deformationGradient := deformationGradient0
      returnCode := 0 } rfl inp.numPoints
  unfold computeShapeTensorInverseAndApproximateDeformationGradient
  rw [hk]

/-- Entry `i` of the deformation-gradient buffer after the shape kernel. -/
theorem shapeKernel_deformationGradient [DecidableEq α] (ext : External α) (inp : ShapeInput α)
    (shapeTensorInverse0 deformationGradient0 : Nat → Mat3 α) (i : Nat) :
    (computeShapeTensorInverseAndApproximateDeformationGradient ext inp
        shapeTensorInverse0 deformationGradient0).deformationGradient i
      = if i < inp.numPoints then MatrixMultiply (defGradFirstTermOf ext inp i)
          (invert3by3Matrix (shapeTensorOf ext inp i)).2
        else deformationGradient0 i := by
  obtain ⟨_, _, hf⟩ := shapeLoop_fields ext inp
    { neighborListPtr := 0
      shapeTensorInverse := shapeTensorInverse0
      deformationGradient := deformationGradient0
      returnCode := 0 } rfl inp.numPoints
  unfold computeShapeTensorInverseAndApproximateDeformationGradient
  rw [hf]

/-- Under `x[k] = A * X[k] + t` the kernel writes `F[i] = A` at a regular owned point. -/
theorem shapeKernel_affine [DecidableEq α] (ext : External α) (inp : ShapeInput α)
    (A : Mat3 α) (t : Vec3 α) (shapeTensorInverse0 deformationGradient0 : Nat → Mat3 α)
    (i : Nat) (hi : i < inp.numPoints)
    (haff : ∀ k, triple inp.coordinates k
      = Vec3.add (A.mulVec (triple inp.modelCoordinates k)) t)
    (hK : (shapeTensorOf ext inp i).det ≠ 0) :
    (computeShapeTensorInverseAndApproximateDeformationGradient ext inp
        shapeTensorInverse0 deformationGradient0).deformationGradient i = A := by
  rw [shapeKernel_deformationGradient]
  simp only [hi, if_true]
  have h1 : defGradFirstTermOf ext inp i = MatrixMultiply A (shapeTensorOf ext inp i) :=
    weightedBondSum_affine ext inp.volume inp.modelCoordinates inp.coordinates inp.horizon
      inp.neighborhoodList A t i haff
  rw [h1, MatrixMultiply_assoc, MatrixMultiply_invert_right _ hK, MatrixMultiply_identity_right]

theorem greenLagrangeStrainPoint_identity :
    greenLagrangeStrainPoint (Mat3.identity : Mat3 α) = Mat3.zero := by
  simp only [greenLagrangeStrainPoint, Mat3.identity, Mat3.zero]
  ext <;> simp only <;> ring

theorem classicalElasticStressPoint_zero (youngsModulus poissonsRatio : α) :
    classicalElasticStressPoint youngsModulus poissonsRatio (Mat3.zero : Mat3 α) = Mat3.zero := by
  simp only [classicalElasticStressPoint, Mat3.zero]
  ext <;> simp only <;> ring

end AlgebraLemmas

section StressPartialLemmas

variable {α : Type} [Field α] [DecidableEq α]

/-- Entry `i` of the stress buffer after the kernel with partial quotients. -/
theorem computeClassicalElasticStressChecked_apply (strain cauchyStress0 : Nat → Mat3 α)
    (numPoints : Nat) (youngsModulus poissonsRatio : α) (i : Nat) :
    computeClassicalElasticStressChecked strain cauchyStress0 numPoints youngsModulus
        poissonsRatio i
      = if i < numPoints
        then classicalElasticStressPointChecked youngsModulus poissonsRatio (strain i)
        else some (cauchyStress0 i) := by
  unfold computeClassicalElasticStressChecked
  rw [forLoop_update]

/-- Where the divisor of the hoisted constant is not zero, the partial stress is the
stress. -/
theorem classicalElasticStressPointChecked_of_ne (youngsModulus poissonsRatio : α)
    (epsilon : Mat3 α) (h : (1 + poissonsRatio) * (1 - 2 * poissonsRatio) ≠ 0) :
    classicalElasticStressPointChecked youngsModulus poissonsRatio epsilon
      = some (classicalElasticStressPoint youngsModulus poissonsRatio epsilon) := by
  unfold classicalElasticStressPointChecked
  rw [if_neg h]

/-- Where the divisor of the hoisted constant is zero, there is no stress. -/
theorem classicalElasticStressPointChecked_of_eq (youngsModulus poissonsRatio : α)
    (epsilon : Mat3 α) (h : (1 + poissonsRatio) * (1 - 2 * poissonsRatio) = 0) :
    classicalElasticStressPointChecked youngsModulus poissonsRatio epsilon = none := by
  unfold classicalElasticStressPointChecked
  rw [if_pos h]

end StressPartialLemmas

section AffineClaims

variable {α : Type} [Field α] [DecidableEq α]

/-- C4: if the current coordinates satisfy `x[k] = A * X[k] + t` for every point `k`
(owned or ghost), then at every owned point `i` whose shape tensor is non-singular the
shape kernel writes `F[i] = A` (exact arithmetic). -/
theorem C4_affine_deformation_gradient (ext : External α) (inp : ShapeInput α)
    (A : Mat3 α) (t : Vec3 α) (shapeTensorInverse0 deformationGradient0 : Nat → Mat3 α)
    (i : Nat) (hi : i < inp.numPoints)
    (haff : ∀ k, triple inp.coordinates k
      = Vec3.add (A.mulVec (triple inp.modelCoordinates k)) t)
    (hK : (shapeTensorOf ext inp i).det ≠ 0) :
    (computeShapeTensorInverseAndApproximateDeformationGradient ext inp
        shapeTensorInverse0 deformationGradient0).deformationGradient i = A :=
  shapeKernel_affine ext inp A t shapeTensorInverse0 deformationGradient0 i hi haff hK

/-- Witness of C4, the uniaxial stretch `diag(1.1, 1, 1)` of the six-neighbour geometry:
the kernel writes `F[0] = diag(1.1, 1, 1)`. -/
theorem C4_affine_deformation_gradient_witness :
    (0 < uniaxialStretchInput.numPoints) ∧
    (shapeTensorOf unitInfluence uniaxialStretchInput 0).det ≠ 0 ∧
    (computeShapeTensorInverseAndApproximateDeformationGradient unitInfluence
        uniaxialStretchInput (fun _ => 0) (fun _ => 0)).deformationGradient 0
      = ⟨11 / 10, 0, 0, 0, 1, 0, 0, 0, 1⟩ :=
  have hK : (shapeTensorOf unitInfluence uniaxialStretchInput 0).det ≠ 0 := by
    rw [shapeTensorOf_uniaxialStretchInput]; simp [Mat3.det]
  ⟨by decide, hK,
    C4_affine_deformation_gradient unitInfluence uniaxialStretchInput
      ⟨11 / 10, 0, 0, 0, 1, 0, 0, 0, 1⟩ ⟨0, 0, 0⟩ (fun _ => 0) (fun _ => 0) 0 (by decide)
      (fun k => triple_affineImage _ _ _ k) hK⟩

/-- C5: rigid-body translation. If `x[k] = X[k] + t` for every point, then at every
owned point with non-singular shape tensor the shape kernel gives `F = I` and the same
`K⁻¹` as for the undeformed configuration `x = X` (a true inverse of the shape tensor),
`computeGreenLagrangeStrain` on that `F` gives `E = 0`, and, for material parameters
with `(1 + nu)(1 - 2 nu) ≠ 0` (the divisor of the constant the stress kernel hoists),
`computeClassicalElasticStress` on that `E` stores a tensor of numbers, `sigma = 0`. -/
theorem C5_rigid_translation (ext : External α) (inp : ShapeInput α) (t : Vec3 α)
    (shapeTensorInverse0 deformationGradient0 greenLagrangeStrain0 cauchyStress0 :
      Nat → Mat3 α)
    (youngsModulus poissonsRatio : α) (i : Nat) (hi : i < inp.numPoints)
    (htrans : ∀ k, triple inp.coordinates k = Vec3.add (triple inp.modelCoordinates k) t)
    (hK : (shapeTensorOf ext inp i).det ≠ 0)
    (hnu : (1 + poissonsRatio) * (1 - 2 * poissonsRatio) ≠ 0) :
    (computeShapeTensorInverseAndApproximateDeformationGradient ext inp
        shapeTensorInverse0 deformationGradient0).deformationGradient i = Mat3.identity ∧
    (computeShapeTensorInverseAndApproximateDeformationGradient ext inp
        shapeTensorInverse0 deformationGradient0).shapeTensorInverse i
      = (computeShapeTensorInverseAndApproximateDeformationGradient ext
          { inp with coordinates := inp.modelCoordinates }
          shapeTensorInverse0 deformationGradient0).shapeTensorInverse i ∧
    MatrixMultiply (shapeTensorOf ext inp i)
      ((computeShapeTensorInverseAndApproximateDeformationGradient ext inp
        shapeTensorInverse0 deformationGradient0).shapeTensorInverse i) = Mat3.identity ∧
    computeGreenLagrangeStrain
      (computeShapeTensorInverseAndApproximateDeformationGradient ext inp
        shapeTensorInverse0 deformationGradient0).deformationGradient
      greenLagrangeStrain0 inp.numPoints i = Mat3.zero ∧
    computeClassicalElasticStress
      (computeGreenLagrangeStrain
        (computeShapeTensorInverseAndApproximateDeformationGradient ext inp
          shapeTensorInverse0 deformationGradient0).deformationGradient
        greenLagrangeStrain0 inp.numPoints)
      cauchyStress0 inp.numPoints youngsModulus poissonsRatio i = Mat3.zero ∧
    computeClassicalElasticStressChecked
      (computeGreenLagrangeStrain
        (computeShapeTensorInverseAndApproximateDeformationGradient ext inp
          shapeTensorInverse0 deformationGradient0).deformationGradient
        greenLagrangeStrain0 inp.numPoints)
      cauchyStress0 inp.numPoints youngsModulus poissonsRatio i = some Mat3.zero := by
  have hF : (computeShapeTensorInverseAndApproximateDeformationGradient ext inp
      shapeTensorInverse0 deformationGradient0).deformationGradient i = Mat3.identity :=
    shapeKernel_affine ext inp Mat3.identity t shapeTensorInverse0 deformationGradient0 i hi
      (fun k => by rw [mulVec_identity]; exact htrans k) hK
  have hE : computeGreenLagrangeStrain
      (computeShapeTensorInverseAndApproximateDeformationGradient ext inp
        shapeTensorInverse0 deformationGradient0).deformationGradient
      greenLagrangeStrain0 inp.numPoints i = Mat3.zero := by
    unfold computeGreenLagrangeStrain
    rw [forLoop_update]
    simp only [hi, if_true, hF, greenLagrangeStrainPoint_identity]
  refine ⟨hF, ?_, ?_, hE, ?_, ?_⟩
  · rw [shapeKernel_shapeTensorInverse, shapeKernel_shapeTensorInverse]
    rfl
  · rw [shapeKernel_shapeTensorInverse]
    simp only [hi, if_true]
    exact MatrixMultiply_invert_right _ hK
  · unfold computeClassicalElasticStress
    rw [forLoop_update]
    simp only [hi, if_true, hE, classicalElasticStressPoint_zero]
  · rw [computeClassicalElasticStressChecked_apply, if_pos hi, hE,
      classicalElasticStressPointChecked_of_ne _ _ _ hnu, classicalElasticStressPoint_zero]

/-- Witness of C5: the six-neighbour geometry translated by `(1, 2, 3)`, with
`E_y = 1`, `nu = 1/4`. -/
theorem C5_rigid_translation_witness :
    (0 < translationInput.numPoints) ∧
    (shapeTensorOf unitInfluence translationInput 0).det ≠ 0 ∧
    ((1 + 1 / 4) * (1 - 2 * (1 / 4)) : ℚ) ≠ 0 ∧
    (computeShapeTensorInverseAndApproximateDeformationGradient unitInfluence
        translationInput (fun _ => 0) (fun _ => 0)).deformationGradient 0 = Mat3.identity ∧
    computeClassicalElasticStress
      (computeGreenLagrangeStrain
        (computeShapeTensorInverseAndApproximateDeformationGradient unitInfluence
          translationInput (fun _ => 0) (fun _ => 0)).deformationGradient
        (fun _ => 0) translationInput.numPoints)
      (fun _ => 0) translationInput.numPoints 1 (1 / 4) 0 = Mat3.zero :=
  have hK : (shapeTensorOf unitInfluence translationInput 0).det ≠ 0 := by
    rw [shapeTensorOf_translationInput]; simp [Mat3.det]
  have hnu : ((1 + 1 / 4) * (1 - 2 * (1 / 4)) : ℚ) ≠ 0 := by norm_num
  have h := C5_rigid_translation unitInfluence translationInput ⟨1, 2, 3⟩
    (fun _ => 0) (fun _ => 0) (fun _ => 0) (fun _ => 0) 1 (1 / 4) 0 (by decide)
    (fun k => by
      have e := triple_affineImage (Mat3.identity : Mat3 ℚ) ⟨1, 2, 3⟩
        sixNeighborModelCoordinates k
      rw [mulVec_identity] at e
      exact e) hK hnu
  ⟨by decide, hK, hnu, h.1, h.2.2.2.2.1⟩

end AffineClaims

section KinematicLemmas

variable {α : Type} [LinearOrderedField α]

/-- The neighbour loop of the updater, run over `n` entries starting at the cursor of
`acc`, advances the cursor by `n` and adds the `n` weighted outer products. -/
theorem fdotNeighborLoop_eq (ext : External α) (inp : KinematicInput α) (iID n : Nat)
    (acc : FdotAccum α) :
    forLoop (fun _ => fdotNeighborBody ext inp iID) n 0 acc =
      { neighborListPtr := acc.neighborListPtr + n
        FdotFirstTerm := acc.FdotFirstTerm + ((List.range n).map (fun m =>
          Mat3.scaledOuter
            (bondWeight ext inp.volume inp.modelCoordinates inp.horizon iID
              (inp.neighborhoodList (acc.neighborListPtr + m)))
            (Vec3.sub (triple inp.velocities (inp.neighborhoodList (acc.neighborListPtr + m)))
              (triple inp.velocities iID))
            (referenceBond inp.modelCoordinates iID
              (inp.neighborhoodList (acc.neighborListPtr + m))))).sum } := by
  induction n with
  | zero => simp [forLoop]
  | succ n ih =>
    rw [forLoop_succ_last, ih]
    simp only [List.range_succ, List.map_append, List.sum_append, List.map_cons, List.map_nil,
      List.sum_cons, List.sum_nil, add_zero, ← add_assoc]
    rfl

/-- One iteration of the updater whose cursor stands at the count of point `i`. -/
theorem kinematicPointBody_eq (ext : External α) (inp : KinematicInput α) (i : Nat)
    (st : KinematicState α)
    (hptr : st.neighborListPtr = neighborOffset inp.neighborhoodList i) :
    kinematicPointBody ext inp i st =
      { neighborListPtr := neighborOffset inp.neighborhoodList (i + 1)
        leftStretchTensorNP1 := Function.update st.leftStretchTensorNP1 0
          (kinematicLocalsAt ext inp i).leftStretchNP1
        rotationTensorNP1 := Function.update st.rotationTensorNP1 i
          (kinematicLocalsAt ext inp i).rotTensorNP1
        unrotatedRateOfDeformation := Function.update st.unrotatedRateOfDeformation i
          (kinematicLocalsAt ext inp i).unrotRateOfDef
        returnCode :=
          if (kinematicLocalsAt ext inp i).inversionReturnCodeT > 0
          then (kinematicLocalsAt ext inp i).inversionReturnCodeT
          else if (kinematicLocalsAt ext inp i).inversionReturnCodeF > 0
          then (kinematicLocalsAt ext inp i).inversionReturnCodeF
          else st.returnCode } := by
  have hacc : (forLoop (fun _ => fdotNeighborBody ext inp i)
      (inp.neighborhoodList st.neighborListPtr) 0
      { neighborListPtr := st.neighborListPtr + 1, FdotFirstTerm := 0 })
      = { neighborListPtr := neighborOffset inp.neighborhoodList (i + 1)
          FdotFirstTerm := weightedBondSum ext inp.volume inp.modelCoordinates inp.horizon
            inp.neighborhoodList inp.velocities i } := by
    rw [fdotNeighborLoop_eq, hptr]
    simp only [weightedBondSum, neighbors, List.map_map, neighborOffset, zero_add]
    rfl
  unfold kinematicPointBody
  simp only [hacc]
  rfl

/-- State of the updater after its first `n` iterations. Rotation and unrotated rate of
deformation: entries below `n` hold the values of their own point. Left stretch: only
entry `0` is ever stored, and it holds the value computed in the last iteration. -/
theorem kinematicLoop_fields (ext : External α) (inp : KinematicInput α)
    (st0 : KinematicState α) (h0 : st0.neighborListPtr = 0) (n : Nat) :
    (forLoop (kinematicPointBody ext inp) n 0 st0).neighborListPtr
        = neighborOffset inp.neighborhoodList n ∧
      (forLoop (kinematicPointBody ext inp) n 0 st0).rotationTensorNP1
        = (fun i => if i < n then (kinematicLocalsAt ext inp i).rotTensorNP1
            else st0.rotationTensorNP1 i) ∧
      (forLoop (kinematicPointBody ext inp) n 0 st0).unrotatedRateOfDeformation
        = (fun i => if i < n then (kinematicLocalsAt ext inp i).unrotRateOfDef
            else st0.unrotatedRateOfDeformation i) ∧
      (forLoop (kinematicPointBody ext inp) n 0 st0).leftStretchTensorNP1
        = (fun i => if i = 0 ∧ 0 < n then (kinematicLocalsAt ext inp (n - 1)).leftStretchNP1
            else st0.leftStretchTensorNP1 i) := by
  induction n with
  | zero => simp [forLoop, h0, neighborOffset]
  | succ n ih =>
    obtain ⟨hp, hr, hd, hv⟩ := ih
    rw [forLoop_succ_last, zero_add, kinematicPointBody_eq ext inp n _ hp]
    refine ⟨rfl, ?_, ?_, ?_⟩
    · funext i
      simp only [hr, Function.update_apply]
      by_cases h1 : i = n
      · simp [h1]
      · by_cases h2 : i < n
        · have h3 : i < n + 1 := by omega
          simp [h1, h2, h3]
        · have h3 : ¬ i < n + 1 := by omega
          simp [h1, h2, h3]
    · funext i
      simp only [hd, Function.update_apply]
      by_cases h1 : i = n
      · simp [h1]
      · by_cases h2 : i < n
        · have h3 : i < n + 1 := by omega
          simp [h1, h2, h3]
        · have h3 : ¬ i < n + 1 := by omega
          simp [h1, h2, h3]
    · funext i
      simp only [hv, Function.update_apply]
      by_cases h1 : i = 0
      · simp [h1]
      · simp [h1]

/-- Entry `i` of the rotation buffer after the updater. -/
theorem kinematic_rotationTensorNP1 (ext : External α) (inp : KinematicInput α)
    (leftStretchTensorNP10 rotationTensorNP10 unrotatedRateOfDeformation0 : Nat → Mat3 α)
    (i : Nat) :
    (computeUnrotatedRateOfDeformationAndRotationTensor ext inp leftStretchTensorNP10
        rotationTensorNP10 unrotatedRateOfDeformation0).rotationTensorNP1 i
      = if i < inp.numPoints then (kinematicLocalsAt ext inp i).rotTensorNP1
        else rotationTensorNP10 i := by
  obtain ⟨_, hr, _, _⟩ := kinematicLoop_fields ext inp
    { neighborListPtr := 0
      leftStretchTensorNP1 := leftStretchTensorNP10
      rotationTensorNP1 := rotationTensorNP10
      unrotatedRateOfDeformation := unrotatedRateOfDeformation0
      returnCode := 0 } rfl inp.numPoints
  unfold computeUnrotatedRateOfDeformationAndRotationTensor
  rw [hr]

/-- Entry `i` of the unrotated-rate-of-deformation buffer after the updater. -/
theorem kinematic_unrotatedRateOfDeformation (ext : External α) (inp : KinematicInput α)
    (leftStretchTensorNP10 rotationTensorNP10 unrotatedRateOfDeformation0 : Nat → Mat3 α)
    (i : Nat) :
    (computeUnrotatedRateOfDeformationAndRotationTensor ext inp leftStretchTensorNP10
        rotationTensorNP10 unrotatedRateOfDeformation0).unrotatedRateOfDeformation i
      = if i < inp.numPoints then (kinematicLocalsAt ext inp i).unrotRateOfDef
        else unrotatedRateOfDeformation0 i := by
  obtain ⟨_, _, hd, _⟩ := kinematicLoop_fields ext inp
    { neighborListPtr := 0
      leftStretchTensorNP1 := leftStretchTensorNP10
      rotationTensorNP1 := rotationTensorNP10
      unrotatedRateOfDeformation := unrotatedRateOfDeformation0
      returnCode := 0 } rfl inp.numPoints
  unfold computeUnrotatedRateOfDeformationAndRotationTensor
  rw [hd]

/-- Entry `i` of the left-stretch buffer after the updater: entry `0` holds the value
computed in the last iteration (from `Vⁿ[0]` and the velocity gradient of the last
point); every other entry keeps the content it had on entry. -/
theorem kinematic_leftStretchTensorNP1 (ext : External α) (inp : KinematicInput α)
    (leftStretchTensorNP10 rotationTensorNP10 unrotatedRateOfDeformation0 : Nat → Mat3 α)
    (i : Nat) :
    (computeUnrotatedRateOfDeformationAndRotationTensor ext inp leftStretchTensorNP10
        rotationTensorNP10 unrotatedRateOfDeformation0).leftStretchTensorNP1 i
      = if i = 0 ∧ 0 < inp.numPoints
        then (kinematicLocalsAt ext inp (inp.numPoints - 1)).leftStretchNP1
        else leftStretchTensorNP10 i := by
  obtain ⟨_, _, _, hv⟩ := kinematicLoop_fields ext inp
    { neighborListPtr := 0
      leftStretchTensorNP1 := leftStretchTensorNP10
      rotationTensorNP1 := rotationTensorNP10
      unrotatedRateOfDeformation := unrotatedRateOfDeformation0
      returnCode := 0 } rfl inp.numPoints
  unfold computeUnrotatedRateOfDeformationAndRotationTensor
  rw [hv]

end KinematicLemmas

section KinematicFieldLemmas

variable {α : Type} [LinearOrderedField α]

theorem kinematicLocals_Fdot (ext : External α) (inp : KinematicInput α) (i : Nat)
    (Ff : Mat3 α) :
    (kinematicLocals ext inp i Ff).Fdot = MatrixMultiply Ff (inp.shapeTensorInverse i) := rfl

theorem kinematicLocals_defGradInv (ext : External α) (inp : KinematicInput α) (i : Nat)
    (Ff : Mat3 α) :
    (kinematicLocals ext inp i Ff).defGradInv
      = (invert3by3Matrix (inp.deformationGradient i)).2 := rfl

theorem kinematicLocals_inversionReturnCodeF (ext : External α) (inp : KinematicInput α)
    (i : Nat) (Ff : Mat3 α) :
    (kinematicLocals ext inp i Ff).inversionReturnCodeF
      = (invert3by3Matrix (inp.deformationGradient i)).1 := rfl

theorem kinematicLocals_eulerianVelGrad (ext : External α) (inp : KinematicInput α) (i : Nat)
    (Ff : Mat3 α) :
    (kinematicLocals ext inp i Ff).eulerianVelGrad
      = MatrixMultiply (kinematicLocals ext inp i Ff).Fdot
          (kinematicLocals ext inp i Ff).defGradInv := rfl

theorem kinematicLocals_rateOfDef (ext : External α) (inp : KinematicInput α) (i : Nat)
    (Ff : Mat3 α) :
    (kinematicLocals ext inp i Ff).rateOfDef
      = MatrixUpdate (1 / 2) (1 / 2) (kinematicLocals ext inp i Ff).eulerianVelGrad
          (kinematicLocals ext inp i Ff).eulerianVelGrad.transpose := rfl

theorem kinematicLocals_spin (ext : External α) (inp : KinematicInput α) (i : Nat)
    (Ff : Mat3 α) :
    (kinematicLocals ext inp i Ff).spin
      = MatrixUpdate (1 / 2) (-(1 / 2)) (kinematicLocals ext inp i Ff).eulerianVelGrad
          (kinematicLocals ext inp i Ff).eulerianVelGrad.transpose := rfl

theorem kinematicLocals_z (ext : External α) (inp : KinematicInput α) (i : Nat)
    (Ff : Mat3 α) :
    (kinematicLocals ext inp i Ff).z
      = ⟨-(inp.leftStretchTensorN i).XZ * (kinematicLocals ext inp i Ff).rateOfDef.YX
          - (inp.leftStretchTensorN i).YZ * (kinematicLocals ext inp i Ff).rateOfDef.YY
          - (inp.leftStretchTensorN i).ZZ * (kinematicLocals ext inp i Ff).rateOfDef.YZ
          + (inp.leftStretchTensorN i).XY * (kinematicLocals ext inp i Ff).rateOfDef.ZX
          + (inp.leftStretchTensorN i).YY * (kinematicLocals ext inp i Ff).rateOfDef.ZY
          + (inp.leftStretchTensorN i).ZY * (kinematicLocals ext inp i Ff).rateOfDef.ZZ,
         (inp.leftStretchTensorN i).XZ * (kinematicLocals ext inp i Ff).rateOfDef.XX
          + (inp.leftStretchTensorN i).YZ * (kinematicLocals ext inp i Ff).rateOfDef.XY
          + (inp.leftStretchTensorN i).ZZ * (kinematicLocals ext inp i Ff).rateOfDef.XZ
          - (inp.leftStretchTensorN i).XX * (kinematicLocals ext inp i Ff).rateOfDef.ZX
          - (inp.leftStretchTensorN i).YX * (kinematicLocals ext inp i Ff).rateOfDef.ZY
          - (inp.leftStretchTensorN i).ZX * (kinematicLocals ext inp i Ff).rateOfDef.ZZ,
         -(inp.leftStretchTensorN i).XY * (kinematicLocals ext inp i Ff).rateOfDef.XX
          - (inp.leftStretchTensorN i).YY * (kinematicLocals ext inp i Ff).rateOfDef.XY
          - (inp.leftStretchTensorN i).ZY * (kinematicLocals ext inp i Ff).rateOfDef.XZ
          + (inp.leftStretchTensorN i).XX * (kinematicLocals ext inp i Ff).rateOfDef.YX
          + (inp.leftStretchTensorN i).YX * (kinematicLocals ext inp i Ff).rateOfDef.YY
          + (inp.leftStretchTensorN i).ZX * (kinematicLocals ext inp i Ff).rateOfDef.YZ⟩ := rfl

theorem kinematicLocals_w (ext : External α) (inp : KinematicInput α) (i : Nat)
    (Ff : Mat3 α) :
    (kinematicLocals ext inp i Ff).w
      = ⟨1 / 2 * (-(kinematicLocals ext inp i Ff).spin.YZ + (kinematicLocals ext inp i Ff).spin.ZY),
         1 / 2 * ((kinematicLocals ext inp i Ff).spin.XZ - (kinematicLocals ext inp i Ff).spin.ZX),
         1 / 2 * (-(kinematicLocals ext inp i Ff).spin.XY
           + (kinematicLocals ext inp i Ff).spin.YX)⟩ := rfl

theorem kinematicLocals_tempInv (ext : External α) (inp : KinematicInput α) (i : Nat)
    (Ff : Mat3 α) :
    (kinematicLocals ext inp i Ff).tempInv
      = (invert3by3Matrix
          (MatrixUpdate
            ((inp.leftStretchTensorN i).XX + (inp.leftStretchTensorN i).YY
              + (inp.leftStretchTensorN i).ZZ)
            (-1) Mat3.identity (inp.leftStretchTensorN i))).2 := rfl

theorem kinematicLocals_inversionReturnCodeT (ext : External α) (inp : KinematicInput α)
    (i : Nat) (Ff : Mat3 α) :
    (kinematicLocals ext inp i Ff).inversionReturnCodeT
      = (invert3by3Matrix
          (MatrixUpdate
            ((inp.leftStretchTensorN i).XX + (inp.leftStretchTensorN i).YY
              + (inp.leftStretchTensorN i).ZZ)
            (-1) Mat3.identity (inp.leftStretchTensorN i))).1 := rfl

theorem kinematicLocals_omega_components (ext : External α) (inp : KinematicInput α)
    (i : Nat) (Ff : Mat3 α) :
    (kinematicLocals ext inp i Ff).omega
      = ⟨(kinematicLocals ext inp i Ff).w.X
          + (kinematicLocals ext inp i Ff).tempInv.XX * (kinematicLocals ext inp i Ff).z.X
          + (kinematicLocals ext inp i Ff).tempInv.XY * (kinematicLocals ext inp i Ff).z.Y
          + (kinematicLocals ext inp i Ff).tempInv.XZ * (kinematicLocals ext inp i Ff).z.Z,
         (kinematicLocals ext inp i Ff).w.Y
          + (kinematicLocals ext inp i Ff).tempInv.YX * (kinematicLocals ext inp i Ff).z.X
          + (kinematicLocals ext inp i Ff).tempInv.YY * (kinematicLocals ext inp i Ff).z.Y
          + (kinematicLocals ext inp i Ff).tempInv.YZ * (kinematicLocals ext inp i Ff).z.Z,
         (kinematicLocals ext inp i Ff).w.Z
          + (kinematicLocals ext inp i Ff).tempInv.ZX * (kinematicLocals ext inp i Ff).z.X
          + (kinematicLocals ext inp i Ff).tempInv.ZY * (kinematicLocals ext inp i Ff).z.Y
          + (kinematicLocals ext inp i Ff).tempInv.ZZ * (kinematicLocals ext inp i Ff).z.Z⟩ :=
  rfl

theorem kinematicLocals_omega (ext : External α) (inp : KinematicInput α) (i : Nat)
    (Ff : Mat3 α) :
    (kinematicLocals ext inp i Ff).omega
      = Vec3.add (kinematicLocals ext inp i Ff).w
          ((kinematicLocals ext inp i Ff).tempInv.mulVec (kinematicLocals ext inp i Ff).z) := by
  rw [kinematicLocals_omega_components]
  simp only [Vec3.add, Mat3.mulVec]
  ext <;> simp only <;> ring

theorem kinematicLocals_OmegaTensor (ext : External α) (inp : KinematicInput α) (i : Nat)
    (Ff : Mat3 α) :
    (kinematicLocals ext inp i Ff).OmegaTensor
      = skewTensor (kinematicLocals ext inp i Ff).omega := rfl

theorem kinematicLocals_OmegaSq (ext : External α) (inp : KinematicInput α) (i : Nat)
    (Ff : Mat3 α) :
    (kinematicLocals ext inp i Ff).OmegaSq
      = Vec3.dot (kinematicLocals ext inp i Ff).omega (kinematicLocals ext inp i Ff).omega :=
  rfl

theorem kinematicLocals_Omega (ext : External α) (inp : KinematicInput α) (i : Nat)
    (Ff : Mat3 α) :
    (kinematicLocals ext inp i Ff).Omega = ext.sqrt (kinematicLocals ext inp i Ff).OmegaSq :=
  rfl

/-- The increment the code builds, in terms of the locals it is built from. The second
`MatrixUpdate` receives the rows `(SqXX, SqYX, SqZX)`, `(SqYX, SqYY, SqZY)`,
`(SqXZ, SqYZ, SqZZ)` of `OmegaTensorSq = OmegaTensor * OmegaTensor`. -/
theorem kinematicLocals_QMatrix (ext : External α) (inp : KinematicInput α) (i : Nat)
    (Ff : Mat3 α) :
    (kinematicLocals ext inp i Ff).QMatrix
      = if (kinematicLocals ext inp i Ff).OmegaSq > 1 / 10 ^ 30 then
          MatrixUpdate 1
            (-(1 - ext.cos (inp.dt * (kinematicLocals ext inp i Ff).Omega))
              / (kinematicLocals ext inp i Ff).OmegaSq)
            (MatrixUpdate 1
              (ext.sin (inp.dt * (kinematicLocals ext inp i Ff).Omega)
                / (kinematicLocals ext inp i Ff).Omega)
              Mat3.identity (kinematicLocals ext inp i Ff).OmegaTensor)
            ⟨(MatrixMultiply (kinematicLocals ext inp i Ff).OmegaTensor
                (kinematicLocals ext inp i Ff).OmegaTensor).XX,
             (MatrixMultiply (kinematicLocals ext inp i Ff).OmegaTensor
                (kinematicLocals ext inp i Ff).OmegaTensor).YX,
             (MatrixMultiply (kinematicLocals ext inp i Ff).OmegaTensor
                (kinematicLocals ext inp i Ff).OmegaTensor).ZX,
             (MatrixMultiply (kinematicLocals ext inp i Ff).OmegaTensor
                (kinematicLocals ext inp i Ff).OmegaTensor).YX,
             (MatrixMultiply (kinematicLocals ext inp i Ff).OmegaTensor
                (kinematicLocals ext inp i Ff).OmegaTensor).YY,
             (MatrixMultiply (kinematicLocals ext inp i Ff).OmegaTensor
                (kinematicLocals ext inp i Ff).OmegaTensor).ZY,
             (MatrixMultiply (kinematicLocals ext inp i Ff).OmegaTensor
                (kinematicLocals ext inp i Ff).OmegaTensor).XZ,
             (MatrixMultiply (kinematicLocals ext inp i Ff).OmegaTensor
                (kinematicLocals ext inp i Ff).OmegaTensor).YZ,
             (MatrixMultiply (kinematicLocals ext inp i Ff).OmegaTensor
                (kinematicLocals ext inp i Ff).OmegaTensor).ZZ⟩
        else Mat3.identity := rfl

theorem kinematicLocals_rotTensorNP1 (ext : External α) (inp : KinematicInput α) (i : Nat)
    (Ff : Mat3 α) :
    (kinematicLocals ext inp i Ff).rotTensorNP1
      = MatrixMultiply (kinematicLocals ext inp i Ff).QMatrix (inp.rotationTensorN i) := rfl

theorem kinematicLocals_rateOfStretch (ext : External α) (inp : KinematicInput α) (i : Nat)
    (Ff : Mat3 α) :
    (kinematicLocals ext inp i Ff).rateOfStretch
      = MatrixUpdate 1 (-1)
          (MatrixMultiply (kinematicLocals ext inp i Ff).eulerianVelGrad
            (inp.leftStretchTensorN 0))
          (MatrixMultiply (inp.leftStretchTensorN 0)
            (kinematicLocals ext inp i Ff).OmegaTensor) := rfl

theorem kinematicLocals_leftStretchNP1 (ext : External α) (inp : KinematicInput α) (i : Nat)
    (Ff : Mat3 α) :
    (kinematicLocals ext inp i Ff).leftStretchNP1
      = MatrixUpdate 1 inp.dt (inp.leftStretchTensorN 0)
          (kinematicLocals ext inp i Ff).rateOfStretch := rfl

theorem kinematicLocals_unrotRateOfDef (ext : External α) (inp : KinematicInput α) (i : Nat)
    (Ff : Mat3 α) :
    (kinematicLocals ext inp i Ff).unrotRateOfDef
      = UnrotateTensor (kinematicLocals ext inp i Ff).rateOfDef
          (kinematicLocals ext inp i Ff).rotTensorNP1 := rfl

end KinematicFieldLemmas

section ScenarioLemmas

variable {α : Type} [LinearOrderedField α]

theorem invert3by3Matrix_identity :
    invert3by3Matrix (Mat3.identity : Mat3 α) = (0, Mat3.identity) := by
  simp [invert3by3Matrix, Mat3.identity]

theorem singleBondSpin_tempInv (ext : External α) (dt : α) (i : Nat) (Ff : Mat3 α) :
    (kinematicLocals ext (singleBondSpinInput dt) i Ff).tempInv
      = ⟨1 / 2, 0, 0, 0, 1 / 2, 0, 0, 0, 1 / 2⟩ := by
  rw [kinematicLocals_tempInv]
  simp only [singleBondSpinInput, Mat3.identity, MatrixUpdate, invert3by3Matrix]
  norm_num

theorem singleBondSpin_FdotFirstTerm0 (ext : External α) (dt : α)
    (hinfl : ∀ r h, ext.scalarInfluenceFunction r h = 1) :
    weightedBondSum ext (singleBondSpinInput dt).volume (singleBondSpinInput dt).modelCoordinates
      (singleBondSpinInput dt).horizon (singleBondSpinInput dt).neighborhoodList
      (singleBondSpinInput dt).velocities 0 = ⟨0, 0, 0, 2, 0, 0, 0, 0, 0⟩ := by
  simp [weightedBondSum, neighbors, neighborOffset, singleBondSpinInput, List.range_succ,
    bondWeight, hinfl, referenceBond, triple, Vec3.sub, Mat3.scaledOuter, Mat3.add_def, Mat3.add,
    Mat3.zero_def, Mat3.zero]

theorem singleBondSpin_FdotFirstTerm1 (ext : External α) (dt : α) :
    weightedBondSum ext (singleBondSpinInput dt).volume (singleBondSpinInput dt).modelCoordinates
      (singleBondSpinInput dt).horizon (singleBondSpinInput dt).neighborhoodList
      (singleBondSpinInput dt).velocities 1 = Mat3.zero := by
  simp [weightedBondSum, neighbors, neighborOffset, singleBondSpinInput, Mat3.zero_def]

/-- Velocity gradient of point `0` of the spin scenario. -/
theorem singleBondSpin_eulerianVelGrad0 (ext : External α) (dt : α)
    (hinfl : ∀ r h, ext.scalarInfluenceFunction r h = 1) :
    (kinematicLocalsAt ext (singleBondSpinInput dt) 0).eulerianVelGrad
      = ⟨0, 0, 0, 2, 0, 0, 0, 0, 0⟩ := by
  unfold kinematicLocalsAt
  rw [singleBondSpin_FdotFirstTerm0 ext dt hinfl, kinematicLocals_eulerianVelGrad,
    kinematicLocals_Fdot, kinematicLocals_defGradInv]
  simp only [singleBondSpinInput, invert3by3Matrix_identity, MatrixMultiply_identity_right]

/-- Angular velocity of point `0` of the spin scenario: `omega = (0, 0, 1)`. -/
theorem singleBondSpin_omega0 (ext : External α) (dt : α)
    (hinfl : ∀ r h, ext.scalarInfluenceFunction r h = 1) :
    (kinematicLocalsAt ext (singleBondSpinInput dt) 0).omega = ⟨0, 0, 1⟩ := by
  have hL := singleBondSpin_eulerianVelGrad0 ext dt hinfl
  unfold kinematicLocalsAt at hL ⊢
  rw [kinematicLocals_omega_components, singleBondSpin_tempInv, kinematicLocals_w,
    kinematicLocals_z, kinematicLocals_spin, kinematicLocals_rateOfDef, hL]
  simp only [singleBondSpinInput, Mat3.identity, MatrixUpdate, Mat3.transpose]
  norm_num

/-- Velocity gradient of point `1` of the spin scenario (no neighbours). -/
theorem singleBondSpin_eulerianVelGrad1 (ext : External α) (dt : α) :
    (kinematicLocalsAt ext (singleBondSpinInput dt) 1).eulerianVelGrad = Mat3.zero := by
  unfold kinematicLocalsAt
  rw [singleBondSpin_FdotFirstTerm1 ext dt, kinematicLocals_eulerianVelGrad,
    kinematicLocals_Fdot, kinematicLocals_defGradInv]
  simp only [singleBondSpinInput, invert3by3Matrix_identity, MatrixMultiply_identity_right]

/-- Angular velocity of point `1` of the spin scenario: `omega = 0`. -/
theorem singleBondSpin_omega1 (ext : External α) (dt : α) :
    (kinematicLocalsAt ext (singleBondSpinInput dt) 1).omega = ⟨0, 0, 0⟩ := by
  have hL := singleBondSpin_eulerianVelGrad1 ext dt
  unfold kinematicLocalsAt at hL ⊢
  rw [kinematicLocals_omega_components, singleBondSpin_tempInv, kinematicLocals_w,
    kinematicLocals_z, kinematicLocals_spin, kinematicLocals_rateOfDef, hL]
  simp only [singleBondSpinInput, Mat3.identity, MatrixUpdate, Mat3.transpose, Mat3.zero]
  norm_num

/-- Left stretch computed in the iteration of point `1` of the spin scenario. -/
theorem singleBondSpin_leftStretchNP1 (ext : External α) (dt : α) :
    (kinematicLocalsAt ext (singleBondSpinInput dt) 1).leftStretchNP1 = Mat3.identity := by
  have hL := singleBondSpin_eulerianVelGrad1 ext dt
  have hw := singleBondSpin_omega1 ext dt
  unfold kinematicLocalsAt at hL hw ⊢
  rw [kinematicLocals_leftStretchNP1, kinematicLocals_rateOfStretch,
    kinematicLocals_OmegaTensor, hL, hw]
  simp only [singleBondSpinInput, Mat3.identity, MatrixUpdate, MatrixMultiply, Mat3.zero,
    skewTensor]
  norm_num

end ScenarioLemmas

section RotationLemmas

variable {α : Type} [LinearOrderedField α]

/-- In the branch `OmegaSq > 1e-30`, with `sqrt(OmegaSq)^2 = OmegaSq`, the increment the
code builds is the increment the specification words. -/
theorem kinematicLocals_QMatrix_large (ext : External α) (inp : KinematicInput α) (i : Nat)
    (Ff : Mat3 α)
    (hW : ext.sqrt (Vec3.dot (kinematicLocals ext inp i Ff).omega
        (kinematicLocals ext inp i Ff).omega) ^ 2
      = Vec3.dot (kinematicLocals ext inp i Ff).omega (kinematicLocals ext inp i Ff).omega)
    (hbig : Vec3.dot (kinematicLocals ext inp i Ff).omega (kinematicLocals ext inp i Ff).omega
      > 1 / 10 ^ 30) :
    (kinematicLocals ext inp i Ff).QMatrix
      = rotationIncrementSpec ext.sqrt ext.sin ext.cos inp.dt
          (kinematicLocals ext inp i Ff).omega := by
  rw [kinematicLocals_QMatrix, kinematicLocals_Omega, kinematicLocals_OmegaSq,
    kinematicLocals_OmegaTensor, if_pos hbig]
  unfold rotationIncrementSpec
  simp only [hW]
  generalize (kinematicLocals ext inp i Ff).omega = om
  generalize ext.sin (inp.dt * ext.sqrt (om.dot om)) = s
  generalize ext.cos (inp.dt * ext.sqrt (om.dot om)) = c
  generalize ext.sqrt (om.dot om) = W
  simp only [MatrixUpdate, MatrixMultiply, skewTensor, Mat3.sub, Mat3.add, Mat3.smul,
    Mat3.identity, Vec3.dot]
  ext <;> simp only <;> ring

/-- In the branch `OmegaSq <= 1e-30` the increment is the identity. -/
theorem kinematicLocals_QMatrix_small (ext : External α) (inp : KinematicInput α) (i : Nat)
    (Ff : Mat3 α)
    (hsmall : Vec3.dot (kinematicLocals ext inp i Ff).omega
      (kinematicLocals ext inp i Ff).omega ≤ 1 / 10 ^ 30) :
    (kinematicLocals ext inp i Ff).QMatrix = Mat3.identity := by
  rw [kinematicLocals_QMatrix, kinematicLocals_OmegaSq, if_neg (not_lt.mpr hsmall)]

/-- Determinant of the increment the specification words, for a true square root and
`sin^2 + cos^2 = 1`: it is `5 - 4 cos(dt*W)`, which is 1 only when `cos(dt*W) = 1`. -/
theorem rotationIncrementSpec_det (sqrt sin cos : α → α) (dt : α) (omega : Vec3 α)
    (hW : sqrt (Vec3.dot omega omega) ^ 2 = Vec3.dot omega omega)
    (hpos : 0 < Vec3.dot omega omega)
    (htrig : sin (dt * sqrt (Vec3.dot omega omega)) ^ 2
      + cos (dt * sqrt (Vec3.dot omega omega)) ^ 2 = 1) :
    (rotationIncrementSpec sqrt sin cos dt omega).det
      = 5 - 4 * cos (dt * sqrt (Vec3.dot omega omega)) := by
  unfold rotationIncrementSpec
  simp only
  generalize hs : sin (dt * sqrt (omega.dot omega)) = s at htrig
  generalize hc : cos (dt * sqrt (omega.dot omega)) = c at htrig
  generalize hWd : sqrt (omega.dot omega) = W at hW
  have hS : omega.X * omega.X + omega.Y * omega.Y + omega.Z * omega.Z = W ^ 2 := hW.symm
  have hWpos : 0 < W ^ 2 := by rw [hW]; exact hpos
  have hW0 : W ≠ 0 := by
    intro h
    rw [h] at hWpos
    simp at hWpos
  have key : (Mat3.sub (Mat3.add Mat3.identity (Mat3.smul (s / W) (skewTensor omega)))
      (Mat3.smul ((1 - c) / W ^ 2) (MatrixMultiply (skewTensor omega) (skewTensor omega)))).det
      = (1 + (1 - c) / W ^ 2
            * (omega.X * omega.X + omega.Y * omega.Y + omega.Z * omega.Z)) ^ 2
        + (s / W) ^ 2 * (omega.X * omega.X + omega.Y * omega.Y + omega.Z * omega.Z) := by
    simp only [MatrixMultiply, skewTensor, Mat3.sub, Mat3.add, Mat3.smul, Mat3.identity,
      Mat3.det]
    ring
  rw [key, hS]
  have e1 : (1 - c) / W ^ 2 * W ^ 2 = 1 - c := by field_simp
  have e2 : (s / W) ^ 2 * W ^ 2 = s ^ 2 := by field_simp
  rw [e1, e2]
  have e3 : s ^ 2 = 1 - c ^ 2 := by linarith
  rw [e3]
  ring

end RotationLemmas

section KinematicClaims

variable {α : Type} [LinearOrderedField α]

/-- C6: for every owned point whose angular-velocity vector satisfies
`omega.omega > 1e-30`, with `sqrt` a true square root, the updater writes
`R^{n+1}[i] = Q * R^n[i]` where
`Q = I + (sin(dt*W)/W) * Om - ((1 - cos(dt*W))/W^2) * (Om*Om)`, `W = sqrt(omega.omega)`
and `Om` is the skew tensor of `omega`. -/
theorem C6_rotation_update (ext : External α) (inp : KinematicInput α)
    (leftStretchTensorNP10 rotationTensorNP10 unrotatedRateOfDeformation0 : Nat → Mat3 α)
    (i : Nat) (hi : i < inp.numPoints)
    (hsqrt : ∀ x : α, 0 ≤ x → ext.sqrt x ^ 2 = x)
    (hbig : Vec3.dot (kinematicLocalsAt ext inp i).omega (kinematicLocalsAt ext inp i).omega
      > 1 / 10 ^ 30) :
    (computeUnrotatedRateOfDeformationAndRotationTensor ext inp leftStretchTensorNP10
        rotationTensorNP10 unrotatedRateOfDeformation0).rotationTensorNP1 i
      = MatrixMultiply
          (rotationIncrementSpec ext.sqrt ext.sin ext.cos inp.dt
            (kinematicLocalsAt ext inp i).omega)
          (inp.rotationTensorN i) := by
  rw [kinematic_rotationTensorNP1]
  simp only [hi, if_true]
  have h0 : (0 : α) ≤ Vec3.dot (kinematicLocalsAt ext inp i).omega
      (kinematicLocalsAt ext inp i).omega := by
    have : (0 : α) < 1 / 10 ^ 30 := by positivity
    exact le_of_lt (lt_trans this hbig)
  unfold kinematicLocalsAt at hbig h0 ⊢
  rw [kinematicLocals_rotTensorNP1,
    kinematicLocals_QMatrix_large ext inp i _ (hsqrt _ h0) hbig]

/-- Witness of C6 over the reals: point `0` of the spin scenario has `omega = (0, 0, 1)`. -/
theorem C6_rotation_update_witness :
    (computeUnrotatedRateOfDeformationAndRotationTensor
        ({ sqrt := Real.sqrt, sin := Real.sin, cos := Real.cos,
           scalarInfluenceFunction := fun _ _ => 1 } : External ℝ)
        (singleBondSpinInput 1) (fun _ => 0) (fun _ => 0) (fun _ => 0)).rotationTensorNP1 0
      = MatrixMultiply
          (rotationIncrementSpec Real.sqrt Real.sin Real.cos 1 ⟨0, 0, 1⟩) Mat3.identity := by
  have hw := singleBondSpin_omega0
    ({ sqrt := Real.sqrt, sin := Real.sin, cos := Real.cos,
       scalarInfluenceFunction := fun _ _ => 1 } : External ℝ) 1 (fun _ _ => rfl)
  have h := C6_rotation_update
    ({ sqrt := Real.sqrt, sin := Real.sin, cos := Real.cos,
       scalarInfluenceFunction := fun _ _ => 1 } : External ℝ)
    (singleBondSpinInput 1) (fun _ => 0) (fun _ => 0) (fun _ => 0) 0 (by decide)
    (fun x hx => Real.sq_sqrt hx)
    (by rw [hw]; norm_num [Vec3.dot])
  rw [hw] at h
  exact h

/-- C9: for every owned point `i`, the updater writes `R^{n+1}[i] = Q_i * R^n[i]`
(`Q_i` the increment of the iteration) and
`d[i] = (R^{n+1}[i])ᵀ * D_i * R^{n+1}[i]` with `D_i = 1/2 (L_i + L_iᵀ)`,
`L_i = Fdot_i * invert3by3Matrix(F[i])` and
`Fdot_i = (sum over j in N[i] of w_j * (v[j]-v[i]) xiᵀ) * K⁻¹[i]`, the weights being
those of the shape kernel; `d[i]` is given both from `Q_i * R^n[i]` and from the entry
`R^{n+1}[i]` of the rotation buffer on exit. -/
theorem C9_unrotated_rate_of_deformation (ext : External α) (inp : KinematicInput α)
    (leftStretchTensorNP10 rotationTensorNP10 unrotatedRateOfDeformation0 : Nat → Mat3 α)
    (i : Nat) (hi : i < inp.numPoints) :
    (computeUnrotatedRateOfDeformationAndRotationTensor ext inp leftStretchTensorNP10
        rotationTensorNP10 unrotatedRateOfDeformation0).rotationTensorNP1 i
      = MatrixMultiply (kinematicLocalsAt ext inp i).QMatrix (inp.rotationTensorN i) ∧
    (computeUnrotatedRateOfDeformationAndRotationTensor ext inp leftStretchTensorNP10
        rotationTensorNP10 unrotatedRateOfDeformation0).unrotatedRateOfDeformation i
      = MatrixMultiply
          (MatrixMultiply (kinematicLocalsAt ext inp i).QMatrix
            (inp.rotationTensorN i)).transpose
          (MatrixMultiply
            (symmetricPart
              (MatrixMultiply
                (MatrixMultiply
                  ((neighbors inp.neighborhoodList i).map (fun j =>
                    Mat3.scaledOuter
                      (bondWeight ext inp.volume inp.modelCoordinates inp.horizon i j)
                      (Vec3.sub (triple inp.velocities j) (triple inp.velocities i))
                      (referenceBond inp.modelCoordinates i j))).sum
                  (inp.shapeTensorInverse i))
                (invert3by3Matrix (inp.deformationGradient i)).2))
            (MatrixMultiply (kinematicLocalsAt ext inp i).QMatrix (inp.rotationTensorN i))) ∧
    (computeUnrotatedRateOfDeformationAndRotationTensor ext inp leftStretchTensorNP10
        rotationTensorNP10 unrotatedRateOfDeformation0).unrotatedRateOfDeformation i
      = MatrixMultiply
          ((computeUnrotatedRateOfDeformationAndRotationTensor ext inp leftStretchTensorNP10
            rotationTensorNP10 unrotatedRateOfDeformation0).rotationTensorNP1 i).transpose
          (MatrixMultiply
            (symmetricPart
              (MatrixMultiply
                (MatrixMultiply
                  ((neighbors inp.neighborhoodList i).map (fun j =>
                    Mat3.scaledOuter
                      (bondWeight ext inp.volume inp.modelCoordinates inp.horizon i j)
                      (Vec3.sub (triple inp.velocities j) (triple inp.velocities i))
                      (referenceBond inp.modelCoordinates i j))).sum
                  (inp.shapeTensorInverse i))
                (invert3by3Matrix (inp.deformationGradient i)).2))
            ((computeUnrotatedRateOfDeformationAndRotationTensor ext inp leftStretchTensorNP10
              rotationTensorNP10 unrotatedRateOfDeformation0).rotationTensorNP1 i)) := by
  have hR : (computeUnrotatedRateOfDeformationAndRotationTensor ext inp leftStretchTensorNP10
      rotationTensorNP10 unrotatedRateOfDeformation0).rotationTensorNP1 i
      = MatrixMultiply (kinematicLocalsAt ext inp i).QMatrix (inp.rotationTensorN i) := by
    rw [kinematic_rotationTensorNP1, if_pos hi]
    rfl
  have hd : (computeUnrotatedRateOfDeformationAndRotationTensor ext inp leftStretchTensorNP10
      rotationTensorNP10 unrotatedRateOfDeformation0).unrotatedRateOfDeformation i
      = MatrixMultiply
          ((computeUnrotatedRateOfDeformationAndRotationTensor ext inp leftStretchTensorNP10
            rotationTensorNP10 unrotatedRateOfDeformation0).rotationTensorNP1 i).transpose
          (MatrixMultiply
            (symmetricPart
              (MatrixMultiply
                (MatrixMultiply
                  ((neighbors inp.neighborhoodList i).map (fun j =>
                    Mat3.scaledOuter
                      (bondWeight ext inp.volume inp.modelCoordinates inp.horizon i j)
                      (Vec3.sub (triple inp.velocities j) (triple inp.velocities i))
                      (referenceBond inp.modelCoordinates i j))).sum
                  (inp.shapeTensorInverse i))
                (invert3by3Matrix (inp.deformationGradient i)).2))
            ((computeUnrotatedRateOfDeformationAndRotationTensor ext inp leftStretchTensorNP10
              rotationTensorNP10 unrotatedRateOfDeformation0).rotationTensorNP1 i)) := by
    rw [kinematic_unrotatedRateOfDeformation, kinematic_rotationTensorNP1]
    simp only [hi, if_true]
    unfold kinematicLocalsAt
    rw [kinematicLocals_unrotRateOfDef, kinematicLocals_rateOfDef,
      kinematicLocals_eulerianVelGrad, kinematicLocals_Fdot, kinematicLocals_defGradInv]
    have hsym : ∀ L : Mat3 α,
        MatrixUpdate (1 / 2) (1 / 2) L L.transpose = symmetricPart L := by
      intro L
      simp only [MatrixUpdate, symmetricPart, Mat3.smul, Mat3.add, Mat3.transpose]
      ext <;> simp only <;> ring
    rw [hsym]
    rfl
  refine ⟨hR, ?_, hd⟩
  rw [← hR]
  exact hd

/-- Witness of C9 on the spin scenario, point `0`, with `dt = 1`, influence 1 and the
stand-ins `sin = 0`, `cos = 1` (so `Q_0 = I`): from zero-filled buffers the updater
writes `R^{n+1}[0] = I` and `d[0] = D_0`, the symmetric part of
`L_0 = [[0,0,0],[2,0,0],[0,0,0]]`. -/
theorem C9_unrotated_rate_of_deformation_witness :
    (0 < (singleBondSpinInput (1 : ℚ)).numPoints) ∧
    (computeUnrotatedRateOfDeformationAndRotationTensor unitInfluence
        (singleBondSpinInput 1) (fun _ => 0) (fun _ => 0)
        (fun _ => 0)).rotationTensorNP1 0 = ⟨1, 0, 0, 0, 1, 0, 0, 0, 1⟩ ∧
    (computeUnrotatedRateOfDeformationAndRotationTensor unitInfluence
        (singleBondSpinInput 1) (fun _ => 0) (fun _ => 0)
        (fun _ => 0)).unrotatedRateOfDeformation 0 = ⟨0, 1, 0, 1, 0, 0, 0, 0, 0⟩ := by
  have h := C9_unrotated_rate_of_deformation unitInfluence (singleBondSpinInput (1 : ℚ))
    (fun _ => 0) (fun _ => 0) (fun _ => 0) 0 (by decide)
  have hF := singleBondSpin_FdotFirstTerm0 unitInfluence (1 : ℚ) (fun _ _ => rfl)
  unfold weightedBondSum at hF
  have hw := singleBondSpin_omega0 unitInfluence (1 : ℚ) (fun _ _ => rfl)
  have hQ : (kinematicLocalsAt unitInfluence (singleBondSpinInput (1 : ℚ)) 0).QMatrix
      = ⟨1, 0, 0, 0, 1, 0, 0, 0, 1⟩ := by
    unfold kinematicLocalsAt at hw ⊢
    rw [kinematicLocals_QMatrix, kinematicLocals_Omega, kinematicLocals_OmegaSq,
      kinematicLocals_OmegaTensor, hw]
    simp only [unitInfluence, singleBondSpinInput, Vec3.dot, skewTensor, MatrixUpdate,
      MatrixMultiply, Mat3.identity]
    norm_num
  have hR : MatrixMultiply
      (kinematicLocalsAt unitInfluence (singleBondSpinInput (1 : ℚ)) 0).QMatrix
      ((singleBondSpinInput (1 : ℚ)).rotationTensorN 0) = ⟨1, 0, 0, 0, 1, 0, 0, 0, 1⟩ := by
    rw [hQ]
    simp only [singleBondSpinInput, Mat3.identity, MatrixMultiply]
    norm_num
  refine ⟨by decide, h.1.trans hR, ?_⟩
  rw [h.2.1, hR, hF]
  simp only [singleBondSpinInput, invert3by3Matrix_identity, MatrixMultiply_identity_right]
  simp only [symmetricPart, Mat3.smul, Mat3.add, Mat3.transpose, MatrixMultiply]
  norm_num

/-- C10: tiny-rotation fallback. For every owned point whose angular-velocity vector
satisfies `omega.omega <= 1e-30`, the updater uses `Q = I`, so `R^{n+1}[i] = R^n[i]`;
and the return code an iteration leaves is set by the two inversion codes alone
(deformation gradient and `trace(V) I - V`), whichever branch is taken. -/
theorem C10_tiny_rotation_fallback (ext : External α) (inp : KinematicInput α)
    (leftStretchTensorNP10 rotationTensorNP10 unrotatedRateOfDeformation0 : Nat → Mat3 α)
    (i : Nat) (hi : i < inp.numPoints)
    (hsmall : Vec3.dot (kinematicLocalsAt ext inp i).omega
      (kinematicLocalsAt ext inp i).omega ≤ 1 / 10 ^ 30) :
    (kinematicLocalsAt ext inp i).QMatrix = Mat3.identity ∧
    (computeUnrotatedRateOfDeformationAndRotationTensor ext inp leftStretchTensorNP10
        rotationTensorNP10 unrotatedRateOfDeformation0).rotationTensorNP1 i
      = inp.rotationTensorN i ∧
    ∀ st : KinematicState α, st.neighborListPtr = neighborOffset inp.neighborhoodList i →
      (kinematicPointBody ext inp i st).returnCode
        = if (invert3by3Matrix
              (MatrixUpdate
                ((inp.leftStretchTensorN i).XX + (inp.leftStretchTensorN i).YY
                  + (inp.leftStretchTensorN i).ZZ)
                (-1) Mat3.identity (inp.leftStretchTensorN i))).1 > 0
          then (invert3by3Matrix
              (MatrixUpdate
                ((inp.leftStretchTensorN i).XX + (inp.leftStretchTensorN i).YY
                  + (inp.leftStretchTensorN i).ZZ)
                (-1) Mat3.identity (inp.leftStretchTensorN i))).1
          else if (invert3by3Matrix (inp.deformationGradient i)).1 > 0
          then (invert3by3Matrix (inp.deformationGradient i)).1
          else st.returnCode := by
  have hQ : (kinematicLocalsAt ext inp i).QMatrix = Mat3.identity :=
    kinematicLocals_QMatrix_small ext inp i _ hsmall
  refine ⟨hQ, ?_, ?_⟩
  · rw [kinematic_rotationTensorNP1]
    simp only [hi, if_true]
    unfold kinematicLocalsAt at hQ ⊢
    rw [kinematicLocals_rotTensorNP1, hQ, MatrixMultiply_identity_left]
  · intro st hptr
    rw [kinematicPointBody_eq ext inp i st hptr]
    rfl

/-- Witness of C10: point `1` of the spin scenario has no neighbours, so `omega = 0`,
and the updater leaves `R^{n+1}[1] = R^n[1] = I`. -/
theorem C10_tiny_rotation_fallback_witness :
    (1 < (singleBondSpinInput (1 : ℚ)).numPoints) ∧
    Vec3.dot (kinematicLocalsAt unitInfluence (singleBondSpinInput (1 : ℚ)) 1).omega
      (kinematicLocalsAt unitInfluence (singleBondSpinInput (1 : ℚ)) 1).omega = 0 ∧
    (computeUnrotatedRateOfDeformationAndRotationTensor unitInfluence
        (singleBondSpinInput 1) (fun _ => 0) (fun _ => 0) (fun _ => 0)).rotationTensorNP1 1
      = Mat3.identity :=
  have hw : Vec3.dot (kinematicLocalsAt unitInfluence (singleBondSpinInput (1 : ℚ)) 1).omega
      (kinematicLocalsAt unitInfluence (singleBondSpinInput (1 : ℚ)) 1).omega = 0 := by
    rw [singleBondSpin_omega1]; norm_num [Vec3.dot]
  ⟨by decide, hw,
    (C10_tiny_rotation_fallback unitInfluence (singleBondSpinInput (1 : ℚ))
      (fun _ => 0) (fun _ => 0) (fun _ => 0) 1 (by decide)
      (by rw [hw]; positivity)).2.1⟩

end KinematicClaims

section Divergences

/-- C7 (the code at a failing input): over the reals, with the true `sqrt`, `sin`,
`cos`, point `0` of the spin scenario (`omega = (0, 0, 1)`, `R^n = I`) gets an increment
`Q` of determinant `5 - 4 cos(dt)` for every time step `dt`; at `dt = pi` the increment
and the stored `R^{n+1}[0]` are `diag(3, 3, 1)`, with `Q * Qᵀ = diag(9, 9, 1)` and
`det Q = 9`: not a rotation. -/
theorem C7_rotation_increment_not_orthogonal :
    (∀ dt : ℝ,
      (kinematicLocalsAt
        ({ sqrt := Real.sqrt, sin := Real.sin, cos := Real.cos,
           scalarInfluenceFunction := fun _ _ => 1 } : External ℝ)
        (singleBondSpinInput dt) 0).QMatrix.det = 5 - 4 * Real.cos dt) ∧
    (kinematicLocalsAt
        ({ sqrt := Real.sqrt, sin := Real.sin, cos := Real.cos,
           scalarInfluenceFunction := fun _ _ => 1 } : External ℝ)
        (singleBondSpinInput Real.pi) 0).QMatrix = ⟨3, 0, 0, 0, 3, 0, 0, 0, 1⟩ ∧
    (computeUnrotatedRateOfDeformationAndRotationTensor
        ({ sqrt := Real.sqrt, sin := Real.sin, cos := Real.cos,
           scalarInfluenceFunction := fun _ _ => 1 } : External ℝ)
        (singleBondSpinInput Real.pi) (fun _ => 0) (fun _ => 0) (fun _ => 0)).rotationTensorNP1 0
      = ⟨3, 0, 0, 0, 3, 0, 0, 0, 1⟩ ∧
    MatrixMultiply (⟨3, 0, 0, 0, 3, 0, 0, 0, 1⟩ : Mat3 ℝ)
        (⟨3, 0, 0, 0, 3, 0, 0, 0, 1⟩ : Mat3 ℝ).transpose
      = ⟨9, 0, 0, 0, 9, 0, 0, 0, 1⟩ ∧
    (⟨3, 0, 0, 0, 3, 0, 0, 0, 1⟩ : Mat3 ℝ).det = 9 := by
  have hQ : ∀ dt : ℝ,
      (kinematicLocalsAt
        ({ sqrt := Real.sqrt, sin := Real.sin, cos := Real.cos,
           scalarInfluenceFunction := fun _ _ => 1 } : External ℝ)
        (singleBondSpinInput dt) 0).QMatrix
      = rotationIncrementSpec Real.sqrt Real.sin Real.cos dt ⟨0, 0, 1⟩ := by
    intro dt
    have hw := singleBondSpin_omega0
      ({ sqrt := Real.sqrt, sin := Real.sin, cos := Real.cos,
         scalarInfluenceFunction := fun _ _ => 1 } : External ℝ) dt (fun _ _ => rfl)
    unfold kinematicLocalsAt at hw ⊢
    have h := kinematicLocals_QMatrix_large
      ({ sqrt := Real.sqrt, sin := Real.sin, cos := Real.cos,
         scalarInfluenceFunction := fun _ _ => 1 } : External ℝ) (singleBondSpinInput dt) 0
      (weightedBondSum
        ({ sqrt := Real.sqrt, sin := Real.sin, cos := Real.cos,
           scalarInfluenceFunction := fun _ _ => 1 } : External ℝ)
        (singleBondSpinInput dt).volume (singleBondSpinInput dt).modelCoordinates
        (singleBondSpinInput dt).horizon (singleBondSpinInput dt).neighborhoodList
        (singleBondSpinInput dt).velocities 0)
      (by rw [hw]; exact Real.sq_sqrt (by norm_num [Vec3.dot]))
      (by rw [hw]; norm_num [Vec3.dot])
    rw [h, hw]
    rfl
  have hW : Real.sqrt (Vec3.dot (⟨0, 0, 1⟩ : Vec3 ℝ) ⟨0, 0, 1⟩) = 1 := by
    norm_num [Vec3.dot]
  have hpi : rotationIncrementSpec Real.sqrt Real.sin Real.cos Real.pi ⟨0, 0, 1⟩
      = ⟨3, 0, 0, 0, 3, 0, 0, 0, 1⟩ := by
    unfold rotationIncrementSpec
    simp only [hW, mul_one, Real.sin_pi, Real.cos_pi]
    simp only [MatrixMultiply, skewTensor, Mat3.sub, Mat3.add, Mat3.smul, Mat3.identity]
    norm_num
  refine ⟨?_, ?_, ?_, ?_, ?_⟩
  · intro dt
    rw [hQ dt, rotationIncrementSpec_det Real.sqrt Real.sin Real.cos dt ⟨0, 0, 1⟩
      (Real.sq_sqrt (by norm_num [Vec3.dot])) (by norm_num [Vec3.dot])
      (Real.sin_sq_add_cos_sq _), hW, mul_one]
  · rw [hQ, hpi]
  · rw [kinematic_rotationTensorNP1]
    have h2 : (0 : Nat) < (singleBondSpinInput Real.pi).numPoints := by decide
    simp only [h2, if_true]
    have hq := hQ Real.pi
    unfold kinematicLocalsAt at hq ⊢
    rw [kinematicLocals_rotTensorNP1, hq, hpi]
    simp only [singleBondSpinInput, MatrixMultiply_identity_right]
  · simp only [MatrixMultiply, Mat3.transpose]
    norm_num
  · simp only [Mat3.det]
    norm_num

/-- C8 (the code at a failing input): on the spin scenario with two owned points and
zero-filled output buffers, whatever the external functions are, the updater leaves
`V^{n+1}[1]` at its prior content `0`, whereas `V^n[1] + dt (L_1 V^n[1] - V^n[1] Om_1)`
is the identity; entry `0` ends as the identity, the value computed in the iteration of
point `1` from `V^n[0]`. -/
theorem C8_left_stretch_stored_at_entry_zero (ext : External ℚ) :
    (computeUnrotatedRateOfDeformationAndRotationTensor ext (singleBondSpinInput 1)
        (fun _ => 0) (fun _ => 0) (fun _ => 0)).leftStretchTensorNP1 1 = Mat3.zero ∧
    Mat3.add ((singleBondSpinInput (1 : ℚ)).leftStretchTensorN 1)
        (Mat3.smul (singleBondSpinInput (1 : ℚ)).dt
          (Mat3.sub
            (MatrixMultiply (kinematicLocalsAt ext (singleBondSpinInput 1) 1).eulerianVelGrad
              ((singleBondSpinInput (1 : ℚ)).leftStretchTensorN 1))
            (MatrixMultiply ((singleBondSpinInput (1 : ℚ)).leftStretchTensorN 1)
              (skewTensor (kinematicLocalsAt ext (singleBondSpinInput 1) 1).omega))))
      = Mat3.identity ∧
    (Mat3.zero : Mat3 ℚ) ≠ Mat3.identity ∧
    (computeUnrotatedRateOfDeformationAndRotationTensor ext (singleBondSpinInput 1)
        (fun _ => 0) (fun _ => 0) (fun _ => 0)).leftStretchTensorNP1 0 = Mat3.identity := by
  refine ⟨?_, ?_, ?_, ?_⟩
  · rw [kinematic_leftStretchTensorNP1]
    simp
    rfl
  · rw [singleBondSpin_eulerianVelGrad1, singleBondSpin_omega1]
    simp only [singleBondSpinInput, Mat3.identity, MatrixMultiply, Mat3.zero, skewTensor,
      Mat3.add, Mat3.sub, Mat3.smul]
    norm_num
  · intro h
    have := congrArg Mat3.XX h
    simp [Mat3.zero, Mat3.identity] at this
  · rw [kinematic_leftStretchTensorNP1]
    have h2 : (0 : Nat) = 0 ∧ 0 < (singleBondSpinInput (1 : ℚ)).numPoints := ⟨rfl, by decide⟩
    simp only [h2, and_self, if_true]
    exact singleBondSpin_leftStretchNP1 ext 1

end Divergences

section TransposeLemmas

theorem toMatrix_transpose {α : Type} (a : Mat3 α) : a.transpose.toMatrix = a.toMatrix.transpose := by
  ext i j
  fin_cases i <;> fin_cases j <;> rfl

theorem toMatrix_injective {α : Type} (a b : Mat3 α) (h : a.toMatrix = b.toMatrix) : a = b := by
  have e : ∀ i j, a.toMatrix i j = b.toMatrix i j := fun i j => by rw [h]
  ext
  · exact e 0 0
  · exact e 0 1
  · exact e 0 2
  · exact e 1 0
  · exact e 1 1
  · exact e 1 2
  · exact e 2 0
  · exact e 2 1
  · exact e 2 2

end TransposeLemmas

section RotateClaims

variable {α : Type} [Field α]

theorem RotateTensor_eq (a r : Mat3 α) :
    RotateTensor a r = MatrixMultiply r (MatrixMultiply a r.transpose) := rfl

theorem UnrotateTensor_eq (a r : Mat3 α) :
    UnrotateTensor a r = MatrixMultiply r.transpose (MatrixMultiply a r) := rfl

/-- For a square matrix a left inverse is a right inverse: `Rᵀ R = I` gives `R Rᵀ = I`. -/
theorem MatrixMultiply_transpose_comm (r : Mat3 α)
    (h : MatrixMultiply r.transpose r = Mat3.identity) :
    MatrixMultiply r r.transpose = Mat3.identity := by
  apply toMatrix_injective
  have h2 : r.toMatrix.transpose * r.toMatrix = 1 := by
    rw [← toMatrix_transpose, ← toMatrix_MatrixMultiply, h, toMatrix_identity]
  rw [toMatrix_MatrixMultiply, toMatrix_transpose, toMatrix_identity]
  exact Matrix.mul_eq_one_comm.mp h2

/-- C19: rotate/unrotate round trip. For every 3x3 matrix `R` with `Rᵀ * R = I` and
every 3x3 tensor `A`, `RotateTensor(UnrotateTensor(A, R), R) = A`. -/
theorem C19_rotate_unrotate_round_trip (A R : Mat3 α)
    (hR : MatrixMultiply R.transpose R = Mat3.identity) :
    RotateTensor (UnrotateTensor A R) R = A := by
  have hR2 := MatrixMultiply_transpose_comm R hR
  rw [RotateTensor_eq, UnrotateTensor_eq, MatrixMultiply_assoc, MatrixMultiply_assoc, hR2,
    MatrixMultiply_identity_right, ← MatrixMultiply_assoc, hR2, MatrixMultiply_identity_left]

/-- Witness of C19: the quarter turn about `z` and a tensor with nine distinct entries. -/
theorem C19_rotate_unrotate_round_trip_witness :
    MatrixMultiply (⟨0, -1, 0, 1, 0, 0, 0, 0, 1⟩ : Mat3 ℚ).transpose
        ⟨0, -1, 0, 1, 0, 0, 0, 0, 1⟩ = Mat3.identity ∧
    RotateTensor (UnrotateTensor (⟨1, 2, 3, 4, 5, 6, 7, 8, 9⟩ : Mat3 ℚ)
        ⟨0, -1, 0, 1, 0, 0, 0, 0, 1⟩) ⟨0, -1, 0, 1, 0, 0, 0, 0, 1⟩
      = ⟨1, 2, 3, 4, 5, 6, 7, 8, 9⟩ :=
  have h : MatrixMultiply (⟨0, -1, 0, 1, 0, 0, 0, 0, 1⟩ : Mat3 ℚ).transpose
      ⟨0, -1, 0, 1, 0, 0, 0, 0, 1⟩ = Mat3.identity := by
    simp [MatrixMultiply, Mat3.transpose, Mat3.identity]
  ⟨h, C19_rotate_unrotate_round_trip _ _ h⟩

/-- C20: for every pair of 3x3 matrices `A` and `R` (orthogonal or not), `RotateTensor`
writes `R * A * Rᵀ`, i.e. `result_ij = sum over k, l of R_ik * A_kl * R_jl`. -/
theorem C20_RotateTensor_formula (A R : Mat3 α) :
    (RotateTensor A R).toMatrix = R.toMatrix * A.toMatrix * R.toMatrix.transpose ∧
    ∀ i j : Fin 3, (RotateTensor A R).toMatrix i j
      = ∑ k : Fin 3, ∑ l : Fin 3, R.toMatrix i k * A.toMatrix k l * R.toMatrix j l := by
  have h1 : (RotateTensor A R).toMatrix = R.toMatrix * A.toMatrix * R.toMatrix.transpose := by
    rw [RotateTensor_eq, toMatrix_MatrixMultiply, toMatrix_MatrixMultiply, toMatrix_transpose,
      Matrix.mul_assoc]
  refine ⟨h1, ?_⟩
  intro i j
  rw [h1]
  simp only [Matrix.mul_apply, Matrix.transpose_apply, Finset.sum_mul]
  rw [Finset.sum_comm]

end RotateClaims

section ShapeReturnCode

variable {α : Type} [Field α] [DecidableEq α]

theorem invert3by3Matrix_code (m : Mat3 α) :
    (invert3by3Matrix m).1 = if m.det = 0 then 1 else 0 := by
  by_cases h : m.det = 0
  · rw [invert3by3Matrix_singular m h, if_pos h]
  · rw [invert3by3Matrix_code_regular m h, if_neg h]

/-- Return code after one more iteration of the shape kernel. -/
theorem shapeLoop_returnCode_succ (ext : External α) (inp : ShapeInput α)
    (st0 : ShapeState α) (h0 : st0.neighborListPtr = 0) (n : Nat) :
    (forLoop (shapePointBody ext inp) (n + 1) 0 st0).returnCode
      = if (shapeTensorOf ext inp n).det = 0 then 1
        else (forLoop (shapePointBody ext inp) n 0 st0).returnCode := by
  obtain ⟨hp, _, _⟩ := shapeLoop_fields ext inp st0 h0 n
  rw [forLoop_succ_last, zero_add, shapePointBody_eq ext inp n _ hp]
  simp only [invert3by3Matrix_code]
  by_cases h : (shapeTensorOf ext inp n).det = 0
  · simp [h]
  · simp [h]

/-- Return code of the shape loop: the code on entry while no point was singular, 1 as
soon as one was. -/
theorem shapeLoop_returnCode (ext : External α) (inp : ShapeInput α)
    (st0 : ShapeState α) (h0 : st0.neighborListPtr = 0) (n : Nat) :
    ((∀ i, i < n → (shapeTensorOf ext inp i).det ≠ 0) →
      (forLoop (shapePointBody ext inp) n 0 st0).returnCode = st0.returnCode) ∧
    ((∃ i, i < n ∧ (shapeTensorOf ext inp i).det = 0) →
      (forLoop (shapePointBody ext inp) n 0 st0).returnCode = 1) := by
  induction n with
  | zero =>
    refine ⟨fun _ => rfl, ?_⟩
    rintro ⟨i, hi, _⟩
    omega
  | succ n ih =>
    obtain ⟨ihA, ihB⟩ := ih
    rw [shapeLoop_returnCode_succ ext inp st0 h0 n]
    constructor
    · intro hall
      rw [if_neg (hall n (by omega))]
      exact ihA (fun i hi => hall i (by omega))
    · rintro ⟨i, hi, hdet⟩
      by_cases hn : (shapeTensorOf ext inp n).det = 0
      · rw [if_pos hn]
      · rw [if_neg hn]
        apply ihB
        refine ⟨i, ?_, hdet⟩
        rcases Nat.lt_succ_iff_lt_or_eq.mp hi with h | h
        · exact h
        · exact absurd (h ▸ hdet) hn

/-- C15: the shape kernel returns 0 if and only if every owned point's accumulated
shape tensor has non-zero determinant; it returns the non-zero code 1 as soon as at
least one owned point, wherever it stands in the traversal, is singular. -/
theorem C15_shape_kernel_return_code (ext : External α) (inp : ShapeInput α)
    (shapeTensorInverse0 deformationGradient0 : Nat → Mat3 α) :
    ((computeShapeTensorInverseAndApproximateDeformationGradient ext inp
        shapeTensorInverse0 deformationGradient0).returnCode = 0
      ↔ ∀ i, i < inp.numPoints → (shapeTensorOf ext inp i).det ≠ 0) ∧
    ((∃ i, i < inp.numPoints ∧ (shapeTensorOf ext inp i).det = 0) →
      (computeShapeTensorInverseAndApproximateDeformationGradient ext inp
        shapeTensorInverse0 deformationGradient0).returnCode = 1) := by
  obtain ⟨hA, hB⟩ := shapeLoop_returnCode ext inp
    { neighborListPtr := 0
      shapeTensorInverse := shapeTensorInverse0
      deformationGradient := deformationGradient0
      returnCode := 0 } rfl inp.numPoints
  unfold computeShapeTensorInverseAndApproximateDeformationGradient
  refine ⟨⟨?_, fun hall => hA hall⟩, hB⟩
  intro hrc i hi hdet
  have h1 := hB ⟨i, hi, hdet⟩
  rw [hrc] at h1
  exact absurd h1 (by decide)

end ShapeReturnCode

section SingularLemmas

variable {α : Type} [Field α]

/-- A matrix that sends a non-zero vector to zero has determinant zero. -/
theorem det_eq_zero_of_mulVec_eq_zero (K : Mat3 α) (n : Vec3 α) (hn : n ≠ ⟨0, 0, 0⟩)
    (h : K.mulVec n = ⟨0, 0, 0⟩) : K.det = 0 := by
  have h1 : K.XX * n.X + K.XY * n.Y + K.XZ * n.Z = 0 := congrArg Vec3.X h
  have h2 : K.YX * n.X + K.YY * n.Y + K.YZ * n.Z = 0 := congrArg Vec3.Y h
  have h3 : K.ZX * n.X + K.ZY * n.Y + K.ZZ * n.Z = 0 := congrArg Vec3.Z h
  have eX : K.det * n.X = 0 := by
    simp only [Mat3.det]
    linear_combination (K.YY * K.ZZ - K.YZ * K.ZY) * h1 - (K.XY * K.ZZ - K.XZ * K.ZY) * h2
      + (K.XY * K.YZ - K.XZ * K.YY) * h3
  have eY : K.det * n.Y = 0 := by
    simp only [Mat3.det]
    linear_combination -(K.YX * K.ZZ - K.YZ * K.ZX) * h1 + (K.XX * K.ZZ - K.XZ * K.ZX) * h2
      - (K.XX * K.YZ - K.XZ * K.YX) * h3
  have eZ : K.det * n.Z = 0 := by
    simp only [Mat3.det]
    linear_combination (K.YX * K.ZY - K.YY * K.ZX) * h1 - (K.XX * K.ZY - K.XY * K.ZX) * h2
      + (K.XX * K.YY - K.XY * K.YX) * h3
  by_contra hdet
  apply hn
  ext
  · exact (mul_eq_zero.mp eX).resolve_left hdet
  · exact (mul_eq_zero.mp eY).resolve_left hdet
  · exact (mul_eq_zero.mp eZ).resolve_left hdet

/-- A sum of outer products `w * u ξᵀ` whose `ξ` are all orthogonal to `n` sends `n`
to zero. -/
theorem mulVec_sum_scaledOuter (n : Vec3 α) (l : List Nat) (w : Nat → α) (u xi : Nat → Vec3 α)
    (h : ∀ j ∈ l, Vec3.dot (xi j) n = 0) :
    (l.map (fun j => Mat3.scaledOuter (w j) (u j) (xi j))).sum.mulVec n = ⟨0, 0, 0⟩ := by
  induction l with
  | nil =>
    simp only [List.map_nil, List.sum_nil, Mat3.zero_def, Mat3.zero, Mat3.mulVec]
    ext <;> simp only <;> ring
  | cons a l ih =>
    have ha : (xi a).X * n.X + (xi a).Y * n.Y + (xi a).Z * n.Z = 0 :=
      h a (List.mem_cons_self a l)
    have ih2 := ih (fun j hj => h j (List.mem_cons_of_mem a hj))
    simp only [List.map_cons, List.sum_cons]
    generalize (l.map (fun j => Mat3.scaledOuter (w j) (u j) (xi j))).sum = T at ih2 ⊢
    have i1 : T.XX * n.X + T.XY * n.Y + T.XZ * n.Z = 0 := congrArg Vec3.X ih2
    have i2 : T.YX * n.X + T.YY * n.Y + T.YZ * n.Z = 0 := congrArg Vec3.Y ih2
    have i3 : T.ZX * n.X + T.ZY * n.Y + T.ZZ * n.Z = 0 := congrArg Vec3.Z ih2
    simp only [Mat3.add_def, Mat3.add, Mat3.scaledOuter, Mat3.mulVec]
    ext
    · simp only; linear_combination i1 + (w a) * (u a).X * ha
    · simp only; linear_combination i2 + (w a) * (u a).Y * ha
    · simp only; linear_combination i3 + (w a) * (u a).Z * ha

/-- A sum of at most two symmetric outer products `w * ξ ξᵀ` has determinant zero. -/
theorem det_sum_scaledOuter_few (l : List Nat) (w : Nat → α) (xi : Nat → Vec3 α)
    (h : l.length < 3) :
    (l.map (fun j => Mat3.scaledOuter (w j) (xi j) (xi j))).sum.det = 0 := by
  match l, h with
  | [], _ =>
    simp only [List.map_nil, List.sum_nil, Mat3.zero_def, Mat3.zero, Mat3.det]
    ring
  | [a], _ =>
    simp only [List.map_cons, List.map_nil, List.sum_cons, List.sum_nil, Mat3.zero_def,
      Mat3.zero, Mat3.add_def, Mat3.add, Mat3.scaledOuter, Mat3.det]
    ring
  | [a, b], _ =>
    simp only [List.map_cons, List.map_nil, List.sum_cons, List.sum_nil, Mat3.zero_def,
      Mat3.zero, Mat3.add_def, Mat3.add, Mat3.scaledOuter, Mat3.det]
    ring
  | _ :: _ :: _ :: _, h =>
    simp only [List.length_cons] at h
    omega

end SingularLemmas

section SingularClaims

variable {α : Type} [Field α] [DecidableEq α]

/-- The shape tensors of the two owned points of `singularFirstInput`. -/
theorem shapeTensorOf_singularFirstInput :
    shapeTensorOf unitInfluence singularFirstInput 0 = Mat3.zero ∧
    shapeTensorOf unitInfluence singularFirstInput 1 = ⟨9, 0, 0, 0, 2, 0, 0, 0, 2⟩ := by
  constructor
  · simp [shapeTensorOf, weightedBondSum, neighbors, neighborOffset, singularFirstInput,
      Mat3.zero_def]
  · simp [shapeTensorOf, weightedBondSum, neighbors, neighborOffset, singularFirstInput,
      List.range_succ, bondWeight, unitInfluence, referenceBond, triple, Vec3.sub,
      sixNeighborModelCoordinates, Mat3.scaledOuter, Mat3.add_def, Mat3.add, Mat3.zero_def,
      Mat3.zero]
    norm_num

/-- Witness of C15 on `singularFirstInput`: the first owned point is singular, the
second is regular, and the kernel returns 1. -/
theorem C15_shape_kernel_return_code_witness :
    (shapeTensorOf unitInfluence singularFirstInput 0).det = 0 ∧
    (shapeTensorOf unitInfluence singularFirstInput 1).det ≠ 0 ∧
    (computeShapeTensorInverseAndApproximateDeformationGradient unitInfluence
        singularFirstInput (fun _ => 0) (fun _ => 0)).returnCode = 1 :=
  have h0 : (shapeTensorOf unitInfluence singularFirstInput 0).det = 0 := by
    rw [shapeTensorOf_singularFirstInput.1]; simp [Mat3.det, Mat3.zero]
  have h1 : (shapeTensorOf unitInfluence singularFirstInput 1).det ≠ 0 := by
    rw [shapeTensorOf_singularFirstInput.2]; norm_num [Mat3.det]
  ⟨h0, h1,
    (C15_shape_kernel_return_code unitInfluence singularFirstInput (fun _ => 0)
      (fun _ => 0)).2 ⟨0, by decide, h0⟩⟩

/-- C16: a singular point does not halt the shape kernel. At every owned point `i`:
`F[i] = F1_i * K⁻¹[i]`; if the shape tensor `K_i` has zero determinant, all nine
components of `K⁻¹[i]` and of `F[i]` are zero; otherwise `K⁻¹[i]` is the inverse of
`K_i` (`K_i * K⁻¹[i] = I`), whatever happened at the points before or after it. -/
theorem C16_singular_point_does_not_halt (ext : External α) (inp : ShapeInput α)
    (shapeTensorInverse0 deformationGradient0 : Nat → Mat3 α) (i : Nat)
    (hi : i < inp.numPoints) :
    (computeShapeTensorInverseAndApproximateDeformationGradient ext inp
        shapeTensorInverse0 deformationGradient0).deformationGradient i
      = MatrixMultiply (defGradFirstTermOf ext inp i)
          ((computeShapeTensorInverseAndApproximateDeformationGradient ext inp
            shapeTensorInverse0 deformationGradient0).shapeTensorInverse i) ∧
    ((shapeTensorOf ext inp i).det = 0 →
      (computeShapeTensorInverseAndApproximateDeformationGradient ext inp
          shapeTensorInverse0 deformationGradient0).shapeTensorInverse i
        = ⟨0, 0, 0, 0, 0, 0, 0, 0, 0⟩ ∧
      (computeShapeTensorInverseAndApproximateDeformationGradient ext inp
          shapeTensorInverse0 deformationGradient0).deformationGradient i
        = ⟨0, 0, 0, 0, 0, 0, 0, 0, 0⟩) ∧
    ((shapeTensorOf ext inp i).det ≠ 0 →
      MatrixMultiply (shapeTensorOf ext inp i)
          ((computeShapeTensorInverseAndApproximateDeformationGradient ext inp
            shapeTensorInverse0 deformationGradient0).shapeTensorInverse i) = Mat3.identity ∧
      MatrixMultiply
          ((computeShapeTensorInverseAndApproximateDeformationGradient ext inp
            shapeTensorInverse0 deformationGradient0).shapeTensorInverse i)
          (shapeTensorOf ext inp i) = Mat3.identity) := by
  have hK := shapeKernel_shapeTensorInverse ext inp shapeTensorInverse0 deformationGradient0 i
  have hF := shapeKernel_deformationGradient ext inp shapeTensorInverse0 deformationGradient0 i
  rw [if_pos hi] at hK hF
  rw [hF, hK]
  refine ⟨rfl, ?_, ?_⟩
  · intro hdet
    rw [invert3by3Matrix_singular _ hdet]
    exact ⟨rfl, MatrixMultiply_zero_right _⟩
  · intro hdet
    exact ⟨MatrixMultiply_invert_right _ hdet, MatrixMultiply_invert_left _ hdet⟩

/-- Witness of C16 on `singularFirstInput`: the singular point `0` gets zeros and the
regular point `1` after it still gets the inverse of its shape tensor. -/
theorem C16_singular_point_does_not_halt_witness :
    (computeShapeTensorInverseAndApproximateDeformationGradient unitInfluence
        singularFirstInput (fun _ => Mat3.identity) (fun _ => Mat3.identity)).shapeTensorInverse 0
      = ⟨0, 0, 0, 0, 0, 0, 0, 0, 0⟩ ∧
    (computeShapeTensorInverseAndApproximateDeformationGradient unitInfluence
        singularFirstInput (fun _ => Mat3.identity) (fun _ => Mat3.identity)).deformationGradient 0
      = ⟨0, 0, 0, 0, 0, 0, 0, 0, 0⟩ ∧
    MatrixMultiply (⟨9, 0, 0, 0, 2, 0, 0, 0, 2⟩ : Mat3 ℚ)
        ((computeShapeTensorInverseAndApproximateDeformationGradient unitInfluence
          singularFirstInput (fun _ => Mat3.identity)
          (fun _ => Mat3.identity)).shapeTensorInverse 1) = Mat3.identity := by
  have h0 : (shapeTensorOf unitInfluence singularFirstInput 0).det = 0 := by
    rw [shapeTensorOf_singularFirstInput.1]; simp [Mat3.det, Mat3.zero]
  have h1 : (shapeTensorOf unitInfluence singularFirstInput 1).det ≠ 0 := by
    rw [shapeTensorOf_singularFirstInput.2]; norm_num [Mat3.det]
  have a := (C16_singular_point_does_not_halt unitInfluence singularFirstInput
    (fun _ => Mat3.identity) (fun _ => Mat3.identity) 0 (by decide)).2.1 h0
  have b := ((C16_singular_point_does_not_halt unitInfluence singularFirstInput
    (fun _ => Mat3.identity) (fun _ => Mat3.identity) 1 (by decide)).2.2 h1).1
  rw [shapeTensorOf_singularFirstInput.2] at b
  exact ⟨a.1, a.2, b⟩

/-- C17: degenerate neighbour set. For every owned point whose reference bonds all lie
in one plane through the point (all orthogonal to one non-zero vector `n`), or which has
fewer than three neighbours, whatever the weights and the current coordinates, the
shape tensor has zero determinant, the kernel writes `K⁻¹[i] = 0` and `F[i] = 0`, and
it returns a non-zero code. -/
theorem C17_degenerate_neighbour_set (ext : External α) (inp : ShapeInput α)
    (shapeTensorInverse0 deformationGradient0 : Nat → Mat3 α) (i : Nat)
    (hi : i < inp.numPoints)
    (hdeg : (∃ n : Vec3 α, n ≠ ⟨0, 0, 0⟩ ∧
        ∀ j ∈ neighbors inp.neighborhoodList i,
          Vec3.dot (referenceBond inp.modelCoordinates i j) n = 0)
      ∨ (neighbors inp.neighborhoodList i).length < 3) :
    (shapeTensorOf ext inp i).det = 0 ∧
    (computeShapeTensorInverseAndApproximateDeformationGradient ext inp
        shapeTensorInverse0 deformationGradient0).shapeTensorInverse i
      = ⟨0, 0, 0, 0, 0, 0, 0, 0, 0⟩ ∧
    (computeShapeTensorInverseAndApproximateDeformationGradient ext inp
        shapeTensorInverse0 deformationGradient0).deformationGradient i
      = ⟨0, 0, 0, 0, 0, 0, 0, 0, 0⟩ ∧
    (computeShapeTensorInverseAndApproximateDeformationGradient ext inp
        shapeTensorInverse0 deformationGradient0).returnCode ≠ 0 := by
  have hdet : (shapeTensorOf ext inp i).det = 0 := by
    rcases hdeg with ⟨n, hn, hplane⟩ | hfew
    · apply det_eq_zero_of_mulVec_eq_zero _ n hn
      exact mulVec_sum_scaledOuter n _ _ _ _ hplane
    · exact det_sum_scaledOuter_few _ _ _ hfew
  refine ⟨hdet, ?_, ?_, ?_⟩
  · rw [shapeKernel_shapeTensorInverse]
    simp only [hi, if_true]
    rw [invert3by3Matrix_singular _ hdet]
    rfl
  · rw [shapeKernel_deformationGradient]
    simp only [hi, if_true]
    rw [invert3by3Matrix_singular _ hdet]
    exact MatrixMultiply_zero_right _
  · have h := (shapeLoop_returnCode ext inp
      { neighborListPtr := 0
        shapeTensorInverse := shapeTensorInverse0
        deformationGradient := deformationGradient0
        returnCode := 0 } rfl inp.numPoints).2 ⟨i, hi, hdet⟩
    unfold computeShapeTensorInverseAndApproximateDeformationGradient
    rw [h]
    decide

/-- Witness of C17 on `colinearInput` (both neighbours on the `x` axis, so every bond is
orthogonal to `n = (0, 1, 0)`): zero outputs and return code 1, hence non-zero. -/
theorem C17_degenerate_neighbour_set_witness :
    (∀ j ∈ neighbors colinearInput.neighborhoodList 0,
      Vec3.dot (referenceBond colinearInput.modelCoordinates 0 j) ⟨0, 1, 0⟩ = 0) ∧
    (computeShapeTensorInverseAndApproximateDeformationGradient unitInfluence
        colinearInput (fun _ => Mat3.identity) (fun _ => Mat3.identity)).shapeTensorInverse 0
      = ⟨0, 0, 0, 0, 0, 0, 0, 0, 0⟩ ∧
    (computeShapeTensorInverseAndApproximateDeformationGradient unitInfluence
        colinearInput (fun _ => Mat3.identity) (fun _ => Mat3.identity)).deformationGradient 0
      = ⟨0, 0, 0, 0, 0, 0, 0, 0, 0⟩ ∧
    (computeShapeTensorInverseAndApproximateDeformationGradient unitInfluence
        colinearInput (fun _ => Mat3.identity) (fun _ => Mat3.identity)).returnCode ≠ 0 :=
  have hplane : ∀ j ∈ neighbors colinearInput.neighborhoodList 0,
      Vec3.dot (referenceBond colinearInput.modelCoordinates 0 j) ⟨0, 1, 0⟩ = 0 := by
    intro j hj
    simp [neighbors, neighborOffset, colinearInput, List.range_succ] at hj
    rcases hj with rfl | rfl <;>
      simp [referenceBond, colinearInput, uniaxialStretchInput, sixNeighborModelCoordinates,
        triple, Vec3.sub, Vec3.dot]
  ⟨hplane,
    (C17_degenerate_neighbour_set unitInfluence colinearInput (fun _ => Mat3.identity)
      (fun _ => Mat3.identity) 0 (by decide)
      (Or.inl ⟨⟨0, 1, 0⟩, by simp, hplane⟩)).2⟩

end SingularClaims

section VelocityGradientLemmas

variable {α : Type} [LinearOrderedField α]

/-- If every bond of point `i` carries `field[j] - field[i] = a * xi`, the weighted sum
of `(field[j] - field[i]) xiᵀ` is `a` times the shape tensor. -/
theorem weightedBondSum_linear (ext : External α) (volume modelCoordinates field : Nat → α)
    (horizon : α) (neighborhoodList : Nat → Nat) (a : Mat3 α) (i : Nat)
    (h : ∀ j ∈ neighbors neighborhoodList i,
      Vec3.sub (triple field j) (triple field i)
        = a.mulVec (referenceBond modelCoordinates i j)) :
    weightedBondSum ext volume modelCoordinates horizon neighborhoodList field i
      = MatrixMultiply a
          (weightedBondSum ext volume modelCoordinates horizon neighborhoodList
            modelCoordinates i) := by
  unfold weightedBondSum
  rw [MatrixMultiply_list_sum, List.map_map]
  congr 1
  apply List.map_congr_left
  intro j hj
  simp only [Function.comp, h j hj, scaledOuter_mulVec, referenceBond]

/-- With all velocities zero the accumulated first term of `Fdot` is zero. -/
theorem weightedBondSum_zero_field (ext : External α) (volume modelCoordinates field : Nat → α)
    (horizon : α) (neighborhoodList : Nat → Nat) (i : Nat) (h : ∀ k, field k = 0) :
    weightedBondSum ext volume modelCoordinates horizon neighborhoodList field i
      = Mat3.zero := by
  rw [weightedBondSum_linear ext volume modelCoordinates field horizon neighborhoodList
    Mat3.zero i]
  · exact MatrixMultiply_zero_left _
  · intro j _
    simp only [triple, h, Vec3.sub, Mat3.mulVec, Mat3.zero]
    ext <;> simp only <;> ring

/-- What an iteration computes when the velocity gradient `L` vanishes: `D`, `W` and
`omega` vanish, the increment is the identity, the rotation is copied, the unrotated
rate of deformation is zero and the left stretch computed is `V^n[0]`. -/
theorem kinematicLocals_of_velGrad_zero (ext : External α) (inp : KinematicInput α) (i : Nat)
    (Ff : Mat3 α) (hL : (kinematicLocals ext inp i Ff).eulerianVelGrad = Mat3.zero) :
    (kinematicLocals ext inp i Ff).rateOfDef = Mat3.zero ∧
    (kinematicLocals ext inp i Ff).spin = Mat3.zero ∧
    (kinematicLocals ext inp i Ff).omega = ⟨0, 0, 0⟩ ∧
    (kinematicLocals ext inp i Ff).QMatrix = Mat3.identity ∧
    (kinematicLocals ext inp i Ff).rotTensorNP1 = inp.rotationTensorN i ∧
    (kinematicLocals ext inp i Ff).unrotRateOfDef = Mat3.zero ∧
    (kinematicLocals ext inp i Ff).leftStretchNP1 = inp.leftStretchTensorN 0 := by
  have hD : (kinematicLocals ext inp i Ff).rateOfDef = Mat3.zero := by
    rw [kinematicLocals_rateOfDef, hL]
    simp only [MatrixUpdate, Mat3.transpose, Mat3.zero]
    ext <;> simp only <;> ring
  have hW : (kinematicLocals ext inp i Ff).spin = Mat3.zero := by
    rw [kinematicLocals_spin, hL]
    simp only [MatrixUpdate, Mat3.transpose, Mat3.zero]
    ext <;> simp only <;> ring
  have hz : (kinematicLocals ext inp i Ff).z = ⟨0, 0, 0⟩ := by
    rw [kinematicLocals_z, hD]
    simp only [Mat3.zero]
    ext <;> simp only <;> ring
  have hw : (kinematicLocals ext inp i Ff).w = ⟨0, 0, 0⟩ := by
    rw [kinematicLocals_w, hW]
    simp only [Mat3.zero]
    ext <;> simp only <;> ring
  have hom : (kinematicLocals ext inp i Ff).omega = ⟨0, 0, 0⟩ := by
    rw [kinematicLocals_omega_components, hz, hw]
    ext <;> simp only <;> ring
  have hQ : (kinematicLocals ext inp i Ff).QMatrix = Mat3.identity := by
    apply kinematicLocals_QMatrix_small
    rw [hom]
    simp only [Vec3.dot]
    have : (0 : α) < 1 / 10 ^ 30 := by positivity
    linarith
  have hR : (kinematicLocals ext inp i Ff).rotTensorNP1 = inp.rotationTensorN i := by
    rw [kinematicLocals_rotTensorNP1, hQ, MatrixMultiply_identity_left]
  refine ⟨hD, hW, hom, hQ, hR, ?_, ?_⟩
  · rw [kinematicLocals_unrotRateOfDef, hD]
    simp only [UnrotateTensor, MatrixMultiply, Mat3.zero]
    ext <;> simp only <;> ring
  · rw [kinematicLocals_leftStretchNP1, kinematicLocals_rateOfStretch,
      kinematicLocals_OmegaTensor, hL, hom]
    simp only [MatrixUpdate, MatrixMultiply, Mat3.zero, skewTensor]
    ext <;> simp only <;> ring

/-- What an iteration computes under a rigid spin: if `F[i] = I`, the supplied `K⁻¹[i]`
inverts the shape tensor and every bond carries `v[j] - v[i] = S * xi` with `S`
skew-symmetric, then `L = S`, `D = 0`, `W = S` and `omega` is the axial vector of `S`. -/
theorem kinematicLocals_of_rigid_spin (ext : External α) (inp : KinematicInput α) (i : Nat)
    (S : Mat3 α) (hS : Mat3.add S S.transpose = Mat3.zero)
    (hF : inp.deformationGradient i = Mat3.identity)
    (hK : MatrixMultiply
        (weightedBondSum ext inp.volume inp.modelCoordinates inp.horizon inp.neighborhoodList
          inp.modelCoordinates i)
        (inp.shapeTensorInverse i) = Mat3.identity)
    (hv : ∀ j ∈ neighbors inp.neighborhoodList i,
      Vec3.sub (triple inp.velocities j) (triple inp.velocities i)
        = S.mulVec (referenceBond inp.modelCoordinates i j)) :
    (kinematicLocalsAt ext inp i).eulerianVelGrad = S ∧
    (kinematicLocalsAt ext inp i).rateOfDef = Mat3.zero ∧
    (kinematicLocalsAt ext inp i).spin = S ∧
    (kinematicLocalsAt ext inp i).omega = ⟨S.ZY, S.XZ, S.YX⟩ ∧
    (kinematicLocalsAt ext inp i).unrotRateOfDef = Mat3.zero := by
  have hL : (kinematicLocalsAt ext inp i).eulerianVelGrad = S := by
    unfold kinematicLocalsAt
    rw [kinematicLocals_eulerianVelGrad, kinematicLocals_Fdot, kinematicLocals_defGradInv, hF,
      invert3by3Matrix_identity, MatrixMultiply_identity_right,
      weightedBondSum_linear ext inp.volume inp.modelCoordinates inp.velocities inp.horizon
        inp.neighborhoodList S i hv, MatrixMultiply_assoc, hK, MatrixMultiply_identity_right]
  have s1 : S.XX + S.XX = 0 := congrArg Mat3.XX hS
  have s2 : S.XY + S.YX = 0 := congrArg Mat3.XY hS
  have s3 : S.XZ + S.ZX = 0 := congrArg Mat3.XZ hS
  have s5 : S.YY + S.YY = 0 := congrArg Mat3.YY hS
  have s6 : S.YZ + S.ZY = 0 := congrArg Mat3.YZ hS
  have s9 : S.ZZ + S.ZZ = 0 := congrArg Mat3.ZZ hS
  unfold kinematicLocalsAt at hL ⊢
  generalize weightedBondSum ext inp.volume inp.modelCoordinates inp.horizon
    inp.neighborhoodList inp.velocities i = Ff at hL ⊢
  have hD : (kinematicLocals ext inp i Ff).rateOfDef = Mat3.zero := by
    rw [kinematicLocals_rateOfDef, hL]
    simp only [MatrixUpdate, Mat3.transpose, Mat3.zero]
    ext <;> simp only
    · linear_combination (1 / 2 : α) * s1
    · linear_combination (1 / 2 : α) * s2
    · linear_combination (1 / 2 : α) * s3
    · linear_combination (1 / 2 : α) * s2
    · linear_combination (1 / 2 : α) * s5
    · linear_combination (1 / 2 : α) * s6
    · linear_combination (1 / 2 : α) * s3
    · linear_combination (1 / 2 : α) * s6
    · linear_combination (1 / 2 : α) * s9
  have hW : (kinematicLocals ext inp i Ff).spin = S := by
    rw [kinematicLocals_spin, hL]
    simp only [MatrixUpdate, Mat3.transpose]
    ext <;> simp only
    · linear_combination (-(1 / 2) : α) * s1
    · linear_combination (-(1 / 2) : α) * s2
    · linear_combination (-(1 / 2) : α) * s3
    · linear_combination (-(1 / 2) : α) * s2
    · linear_combination (-(1 / 2) : α) * s5
    · linear_combination (-(1 / 2) : α) * s6
    · linear_combination (-(1 / 2) : α) * s3
    · linear_combination (-(1 / 2) : α) * s6
    · linear_combination (-(1 / 2) : α) * s9
  have hz : (kinematicLocals ext inp i Ff).z = ⟨0, 0, 0⟩ := by
    rw [kinematicLocals_z, hD]
    simp only [Mat3.zero]
    ext <;> simp only <;> ring
  refine ⟨hL, hD, hW, ?_, ?_⟩
  · rw [kinematicLocals_omega_components, hz, kinematicLocals_w, hW]
    ext <;> simp only
    · linear_combination (-(1 / 2) : α) * s6
    · linear_combination (-(1 / 2) : α) * s3
    · linear_combination (-(1 / 2) : α) * s2
  · rw [kinematicLocals_unrotRateOfDef, hD]
    simp only [UnrotateTensor, MatrixMultiply, Mat3.zero]
    ext <;> simp only <;> ring

end VelocityGradientLemmas

section IdentityStartClaims

variable {α : Type} [LinearOrderedField α]

/-- C11: identity start (rotation and rate of deformation). For every input in which
all velocities are zero, at every owned point the updater gives `Fdot = 0`, `L = 0`,
`D = 0`, `W = 0`, and it writes `R^{n+1}[i] = R^n[i]` and `d[i] = 0`. -/
theorem C11_identity_start_rotation (ext : External α) (inp : KinematicInput α)
    (leftStretchTensorNP10 rotationTensorNP10 unrotatedRateOfDeformation0 : Nat → Mat3 α)
    (i : Nat) (hi : i < inp.numPoints) (hv : ∀ k, inp.velocities k = 0) :
    (kinematicLocalsAt ext inp i).Fdot = Mat3.zero ∧
    (kinematicLocalsAt ext inp i).eulerianVelGrad = Mat3.zero ∧
    (kinematicLocalsAt ext inp i).rateOfDef = Mat3.zero ∧
    (kinematicLocalsAt ext inp i).spin = Mat3.zero ∧
    (computeUnrotatedRateOfDeformationAndRotationTensor ext inp leftStretchTensorNP10
        rotationTensorNP10 unrotatedRateOfDeformation0).rotationTensorNP1 i
      = inp.rotationTensorN i ∧
    (computeUnrotatedRateOfDeformationAndRotationTensor ext inp leftStretchTensorNP10
        rotationTensorNP10 unrotatedRateOfDeformation0).unrotatedRateOfDeformation i
      = Mat3.zero := by
  have hFf := weightedBondSum_zero_field ext inp.volume inp.modelCoordinates inp.velocities
    inp.horizon inp.neighborhoodList i hv
  have hFdot : (kinematicLocalsAt ext inp i).Fdot = Mat3.zero := by
    unfold kinematicLocalsAt
    rw [kinematicLocals_Fdot, hFf]
    exact MatrixMultiply_zero_left _
  have hL : (kinematicLocalsAt ext inp i).eulerianVelGrad = Mat3.zero := by
    unfold kinematicLocalsAt at hFdot ⊢
    rw [kinematicLocals_eulerianVelGrad, hFdot]
    exact MatrixMultiply_zero_left _
  obtain ⟨hD, hW, _, _, hR, hd, _⟩ := kinematicLocals_of_velGrad_zero ext inp i _ hL
  refine ⟨hFdot, hL, hD, hW, ?_, ?_⟩
  · rw [kinematic_rotationTensorNP1, if_pos hi]
    exact hR
  · rw [kinematic_unrotatedRateOfDeformation, if_pos hi]
    exact hd

/-- Witness of C11: the two owned points at rest, point `0`. -/
theorem C11_identity_start_rotation_witness :
    (0 < (twoPointRestInput (1 : ℚ)).numPoints) ∧
    (∀ k, (twoPointRestInput (1 : ℚ)).velocities k = 0) ∧
    (computeUnrotatedRateOfDeformationAndRotationTensor unitInfluence (twoPointRestInput 1)
        (fun _ => 0) (fun _ => 0) (fun _ => Mat3.identity)).rotationTensorNP1 0
      = Mat3.identity ∧
    (computeUnrotatedRateOfDeformationAndRotationTensor unitInfluence (twoPointRestInput 1)
        (fun _ => 0) (fun _ => 0) (fun _ => Mat3.identity)).unrotatedRateOfDeformation 0
      = Mat3.zero :=
  have h := C11_identity_start_rotation unitInfluence (twoPointRestInput (1 : ℚ))
    (fun _ => 0) (fun _ => 0) (fun _ => Mat3.identity) 0 (by decide) (fun _ => rfl)
  ⟨by decide, fun _ => rfl, h.2.2.2.2.1, h.2.2.2.2.2⟩

/-- C14: rigid spin gives no rate of deformation. For every skew-symmetric `S`, every
owned point `i` with `F[i] = I` whose supplied `K⁻¹[i]` inverts its shape tensor, and
every `R^n`, `V^n`: if `v[j] - v[i] = S * (X[j] - X[i])` for every neighbour `j`, then
`D = 0` and the updater writes `d[i] = 0` (all nine components). -/
theorem C14_rigid_spin_no_rate_of_deformation (ext : External α) (inp : KinematicInput α)
    (leftStretchTensorNP10 rotationTensorNP10 unrotatedRateOfDeformation0 : Nat → Mat3 α)
    (S : Mat3 α) (i : Nat) (hi : i < inp.numPoints)
    (hS : Mat3.add S S.transpose = Mat3.zero)
    (hF : inp.deformationGradient i = Mat3.identity)
    (hK : MatrixMultiply
        (weightedBondSum ext inp.volume inp.modelCoordinates inp.horizon inp.neighborhoodList
          inp.modelCoordinates i)
        (inp.shapeTensorInverse i) = Mat3.identity)
    (hv : ∀ j ∈ neighbors inp.neighborhoodList i,
      Vec3.sub (triple inp.velocities j) (triple inp.velocities i)
        = S.mulVec (referenceBond inp.modelCoordinates i j)) :
    (kinematicLocalsAt ext inp i).rateOfDef = Mat3.zero ∧
    (computeUnrotatedRateOfDeformationAndRotationTensor ext inp leftStretchTensorNP10
        rotationTensorNP10 unrotatedRateOfDeformation0).unrotatedRateOfDeformation i
      = ⟨0, 0, 0, 0, 0, 0, 0, 0, 0⟩ := by
  obtain ⟨_, hD, _, _, hd⟩ := kinematicLocals_of_rigid_spin ext inp i S hS hF hK hv
  refine ⟨hD, ?_⟩
  rw [kinematic_unrotatedRateOfDeformation, if_pos hi]
  exact hd

end IdentityStartClaims

section SpinScenario

variable {α : Type} [LinearOrderedField α]

/-- The shape tensor of the rotation scenario is `2 I`. -/
theorem sixNeighborSpin_shapeTensor (ext : External α) (wz dt : α)
    (hinfl : ∀ r h, ext.scalarInfluenceFunction r h = 1) :
    weightedBondSum ext (sixNeighborSpinInput wz dt).volume
      (sixNeighborSpinInput wz dt).modelCoordinates (sixNeighborSpinInput wz dt).horizon
      (sixNeighborSpinInput wz dt).neighborhoodList
      (sixNeighborSpinInput wz dt).modelCoordinates 0 = ⟨2, 0, 0, 0, 2, 0, 0, 0, 2⟩ := by
  simp [weightedBondSum, neighbors, neighborOffset, sixNeighborSpinInput, sixNeighborList,
    List.range_succ, bondWeight, hinfl, referenceBond, triple, Vec3.sub, Mat3.scaledOuter,
    Mat3.add_def, Mat3.add, Mat3.zero_def, Mat3.zero]
  norm_num

/-- The neighbour velocities of the rotation scenario are `S * xi` for the skew tensor
of `(0, 0, wz)`. -/
theorem sixNeighborSpin_velocities (wz dt : α) :
    ∀ j ∈ neighbors (sixNeighborSpinInput wz dt).neighborhoodList 0,
      Vec3.sub (triple (sixNeighborSpinInput wz dt).velocities j)
          (triple (sixNeighborSpinInput wz dt).velocities 0)
        = (skewTensor (⟨0, 0, wz⟩ : Vec3 α)).mulVec
            (referenceBond (sixNeighborSpinInput wz dt).modelCoordinates 0 j) := by
  intro j hj
  simp [neighbors, neighborOffset, sixNeighborSpinInput, sixNeighborList, List.range_succ] at hj
  rcases hj with rfl | rfl | rfl | rfl | rfl | rfl <;>
    simp [referenceBond, sixNeighborSpinInput, triple, Vec3.sub, skewTensor, Mat3.mulVec]

/-- In the rotation scenario `omega = (0, 0, wz)` and `D = 0`. -/
theorem sixNeighborSpin_locals (ext : External α) (wz dt : α)
    (hinfl : ∀ r h, ext.scalarInfluenceFunction r h = 1) :
    (kinematicLocalsAt ext (sixNeighborSpinInput wz dt) 0).omega = ⟨0, 0, wz⟩ ∧
    (kinematicLocalsAt ext (sixNeighborSpinInput wz dt) 0).rateOfDef = Mat3.zero := by
  have h := kinematicLocals_of_rigid_spin ext (sixNeighborSpinInput wz dt) 0
    (skewTensor ⟨0, 0, wz⟩)
    (by simp only [skewTensor, Mat3.add, Mat3.transpose, Mat3.zero]; ext <;> simp)
    rfl
    (by
      rw [sixNeighborSpin_shapeTensor ext wz dt hinfl]
      simp only [sixNeighborSpinInput, MatrixMultiply, Mat3.identity]
      ext <;> simp)
    (sixNeighborSpin_velocities wz dt)
  exact ⟨h.2.2.2.1, h.2.1⟩

end SpinScenario

section SpinClaims

/-- Witness of C14: the rotation scenario over the rationals, `S` the skew tensor of
`(0, 0, 1)`; the updater writes `d[0] = 0`. -/
theorem C14_rigid_spin_no_rate_of_deformation_witness :
    (computeUnrotatedRateOfDeformationAndRotationTensor unitInfluence
        (sixNeighborSpinInput (1 : ℚ) (1 / 100)) (fun _ => 0) (fun _ => 0)
        (fun _ => Mat3.identity)).unrotatedRateOfDeformation 0
      = ⟨0, 0, 0, 0, 0, 0, 0, 0, 0⟩ :=
  (C14_rigid_spin_no_rate_of_deformation unitInfluence
    (sixNeighborSpinInput (1 : ℚ) (1 / 100)) (fun _ => 0) (fun _ => 0)
    (fun _ => Mat3.identity) (skewTensor ⟨0, 0, 1⟩) 0 (by decide)
    (by simp only [skewTensor, Mat3.add, Mat3.transpose, Mat3.zero]; ext <;> simp)
    rfl
    (by
      rw [sixNeighborSpin_shapeTensor unitInfluence 1 (1 / 100) (fun _ _ => rfl)]
      simp only [sixNeighborSpinInput, MatrixMultiply, Mat3.identity]
      ext <;> simp)
    (sixNeighborSpin_velocities 1 (1 / 100))).2

/-- C13 (the code on the rotation scenario): over the reals, with the true `sqrt`,
`sin`, `cos`, `wz = 1` and `dt = 0.01`, the updater stores
`R^{n+1}[0] = [[2 - cos 0.01, -sin 0.01, 0], [sin 0.01, 2 - cos 0.01, 0], [0, 0, 1]]`;
its diagonal differs from that of `Rot_z(0.01)` by `2 (1 - cos 0.01)`, more than
`9e-5`, hence more than `1e-10`. -/
theorem C13_rotation_scenario_diagonal_off :
    (computeUnrotatedRateOfDeformationAndRotationTensor
        ({ sqrt := Real.sqrt, sin := Real.sin, cos := Real.cos,
           scalarInfluenceFunction := fun _ _ => 1 } : External ℝ)
        (sixNeighborSpinInput 1 (1 / 100)) (fun _ => 0) (fun _ => 0)
        (fun _ => 0)).rotationTensorNP1 0
      = ⟨2 - Real.cos (1 / 100), -Real.sin (1 / 100), 0,
         Real.sin (1 / 100), 2 - Real.cos (1 / 100), 0,
         0, 0, 1⟩ ∧
    9 / 10 ^ 5 < |((computeUnrotatedRateOfDeformationAndRotationTensor
        ({ sqrt := Real.sqrt, sin := Real.sin, cos := Real.cos,
           scalarInfluenceFunction := fun _ _ => 1 } : External ℝ)
        (sixNeighborSpinInput 1 (1 / 100)) (fun _ => 0) (fun _ => 0)
        (fun _ => 0)).rotationTensorNP1 0).XX - Real.cos (1 / 100)| ∧
    (1 : ℝ) / 10 ^ 10 < 9 / 10 ^ 5 := by
  have hom := (sixNeighborSpin_locals
    ({ sqrt := Real.sqrt, sin := Real.sin, cos := Real.cos,
       scalarInfluenceFunction := fun _ _ => 1 } : External ℝ) 1 (1 / 100)
    (fun _ _ => rfl)).1
  have hW : Real.sqrt (Vec3.dot (⟨0, 0, 1⟩ : Vec3 ℝ) ⟨0, 0, 1⟩) = 1 := by
    norm_num [Vec3.dot]
  have hR : (computeUnrotatedRateOfDeformationAndRotationTensor
      ({ sqrt := Real.sqrt, sin := Real.sin, cos := Real.cos,
         scalarInfluenceFunction := fun _ _ => 1 } : External ℝ)
      (sixNeighborSpinInput 1 (1 / 100)) (fun _ => 0) (fun _ => 0)
      (fun _ => 0)).rotationTensorNP1 0
      = ⟨2 - Real.cos (1 / 100), -Real.sin (1 / 100), 0,
         Real.sin (1 / 100), 2 - Real.cos (1 / 100), 0,
         0, 0, 1⟩ := by
    rw [kinematic_rotationTensorNP1]
    have h2 : (0 : Nat) < (sixNeighborSpinInput (1 : ℝ) (1 / 100)).numPoints := by decide
    rw [if_pos h2]
    unfold kinematicLocalsAt at hom ⊢
    rw [kinematicLocals_rotTensorNP1,
      kinematicLocals_QMatrix_large _ _ _ _
        (by rw [hom]; exact Real.sq_sqrt (by norm_num [Vec3.dot]))
        (by rw [hom]; norm_num [Vec3.dot]),
      hom]
    unfold rotationIncrementSpec
    simp only [hW, mul_one]
    simp only [sixNeighborSpinInput, MatrixMultiply, skewTensor, Mat3.sub, Mat3.add, Mat3.smul,
      Mat3.identity]
    ext <;> simp only <;> ring
  refine ⟨hR, ?_, by norm_num⟩
  rw [hR]
  have hb := Real.cos_bound (x := (1 / 100 : ℝ)) (by rw [abs_of_pos] <;> norm_num)
  have hc : Real.cos (1 / 100) ≤ 1 - (1 / 100 : ℝ) ^ 2 / 2 + |(1 / 100 : ℝ)| ^ 4 * (5 / 96) := by
    have := (abs_le.mp hb).2
    linarith
  have habs : |(1 / 100 : ℝ)| = 1 / 100 := abs_of_pos (by norm_num)
  rw [habs] at hc
  have hpos : 9 / 10 ^ 5 < 2 - Real.cos (1 / 100) - Real.cos (1 / 100) := by
    norm_num at hc ⊢
    linarith
  show 9 / 10 ^ 5 < |2 - Real.cos (1 / 100) - Real.cos (1 / 100)|
  exact lt_of_lt_of_le hpos (le_abs_self _)

/-- C12 (the code at a failing input): two owned points at rest (`F = V^n = I`, all
velocities zero), output buffers zero-filled, whatever the external functions are. The
updater leaves `V^{n+1}[1]` at its prior content `0` although `V^n[1] = I`; only entry
`0` is stored (`V^{n+1}[0] = V^n[0] = I`). -/
theorem C12_identity_start_left_stretch_not_stored (ext : External ℚ) :
    (computeUnrotatedRateOfDeformationAndRotationTensor ext (twoPointRestInput 1)
        (fun _ => 0) (fun _ => 0) (fun _ => 0)).leftStretchTensorNP1 1 = Mat3.zero ∧
    (twoPointRestInput (1 : ℚ)).leftStretchTensorN 1 = Mat3.identity ∧
    (Mat3.zero : Mat3 ℚ) ≠ Mat3.identity ∧
    (∀ k, (twoPointRestInput (1 : ℚ)).velocities k = 0) ∧
    (computeUnrotatedRateOfDeformationAndRotationTensor ext (twoPointRestInput 1)
        (fun _ => 0) (fun _ => 0) (fun _ => 0)).leftStretchTensorNP1 0 = Mat3.identity := by
  refine ⟨?_, rfl, ?_, fun _ => rfl, ?_⟩
  · rw [kinematic_leftStretchTensorNP1]
    simp
    rfl
  · intro h
    have := congrArg Mat3.XX h
    simp [Mat3.zero, Mat3.identity] at this
  · rw [kinematic_leftStretchTensorNP1]
    have h2 : (0 : Nat) = 0 ∧ 0 < (twoPointRestInput (1 : ℚ)).numPoints := ⟨rfl, by decide⟩
    rw [if_pos h2]
    have hFf := weightedBondSum_zero_field ext (twoPointRestInput (1 : ℚ)).volume
      (twoPointRestInput (1 : ℚ)).modelCoordinates (twoPointRestInput (1 : ℚ)).velocities
      (twoPointRestInput (1 : ℚ)).horizon (twoPointRestInput (1 : ℚ)).neighborhoodList
      ((twoPointRestInput (1 : ℚ)).numPoints - 1) (fun _ => rfl)
    have hL : (kinematicLocalsAt ext (twoPointRestInput (1 : ℚ))
        ((twoPointRestInput (1 : ℚ)).numPoints - 1)).eulerianVelGrad = Mat3.zero := by
      unfold kinematicLocalsAt
      rw [kinematicLocals_eulerianVelGrad, kinematicLocals_Fdot, hFf]
      rw [show MatrixMultiply (Mat3.zero : Mat3 ℚ) _ = Mat3.zero from MatrixMultiply_zero_left _]
      exact MatrixMultiply_zero_left _
    exact (kinematicLocals_of_velGrad_zero ext _ _ _ hL).2.2.2.2.2.2

end SpinClaims

section KinematicReturnCode

variable {α : Type} [LinearOrderedField α]

/-- The matrix inverted in the rotation update is `trace(V) I - V`. -/
theorem MatrixUpdate_trace_eq (V : Mat3 α) :
    MatrixUpdate (V.XX + V.YY + V.ZZ) (-1) Mat3.identity V
      = Mat3.sub (Mat3.smul (V.XX + V.YY + V.ZZ) Mat3.identity) V := by
  simp only [MatrixUpdate, Mat3.sub, Mat3.smul, Mat3.identity]
  ext <;> simp only <;> ring

/-- Return code after one more iteration of the updater. -/
theorem kinematicLoop_returnCode_succ (ext : External α) (inp : KinematicInput α)
    (st0 : KinematicState α) (h0 : st0.neighborListPtr = 0) (n : Nat) :
    (forLoop (kinematicPointBody ext inp) (n + 1) 0 st0).returnCode
      = if (inp.deformationGradient n).det = 0
          ∨ (Mat3.sub (Mat3.smul ((inp.leftStretchTensorN n).XX + (inp.leftStretchTensorN n).YY
              + (inp.leftStretchTensorN n).ZZ) Mat3.identity) (inp.leftStretchTensorN n)).det = 0
        then 1
        else (forLoop (kinematicPointBody ext inp) n 0 st0).returnCode := by
  obtain ⟨hp, _, _, _⟩ := kinematicLoop_fields ext inp st0 h0 n
  rw [forLoop_succ_last, zero_add, kinematicPointBody_eq ext inp n _ hp]
  unfold kinematicLocalsAt
  simp only [kinematicLocals_inversionReturnCodeT, kinematicLocals_inversionReturnCodeF,
    invert3by3Matrix_code, MatrixUpdate_trace_eq]
  by_cases hF : (inp.deformationGradient n).det = 0 <;>
    by_cases hT : (Mat3.sub (Mat3.smul ((inp.leftStretchTensorN n).XX
        + (inp.leftStretchTensorN n).YY + (inp.leftStretchTensorN n).ZZ) Mat3.identity)
        (inp.leftStretchTensorN n)).det = 0 <;>
    simp [hF, hT]

/-- Return code of the updater loop: the code on entry while no inversion failed, 1 as
soon as one did. -/
theorem kinematicLoop_returnCode (ext : External α) (inp : KinematicInput α)
    (st0 : KinematicState α) (h0 : st0.neighborListPtr = 0) (n : Nat) :
    ((∀ i, i < n → ¬ ((inp.deformationGradient i).det = 0
        ∨ (Mat3.sub (Mat3.smul ((inp.leftStretchTensorN i).XX + (inp.leftStretchTensorN i).YY
            + (inp.leftStretchTensorN i).ZZ) Mat3.identity) (inp.leftStretchTensorN i)).det = 0)) →
      (forLoop (kinematicPointBody ext inp) n 0 st0).returnCode = st0.returnCode) ∧
    ((∃ i, i < n ∧ ((inp.deformationGradient i).det = 0
        ∨ (Mat3.sub (Mat3.smul ((inp.leftStretchTensorN i).XX + (inp.leftStretchTensorN i).YY
            + (inp.leftStretchTensorN i).ZZ) Mat3.identity) (inp.leftStretchTensorN i)).det = 0)) →
      (forLoop (kinematicPointBody ext inp) n 0 st0).returnCode = 1) := by
  induction n with
  | zero =>
    refine ⟨fun _ => rfl, ?_⟩
    rintro ⟨i, hi, _⟩
    omega
  | succ n ih =>
    obtain ⟨ihA, ihB⟩ := ih
    rw [kinematicLoop_returnCode_succ ext inp st0 h0 n]
    constructor
    · intro hall
      rw [if_neg (hall n (by omega))]
      exact ihA (fun i hi => hall i (by omega))
    · rintro ⟨i, hi, hdet⟩
      by_cases hn : (inp.deformationGradient n).det = 0
        ∨ (Mat3.sub (Mat3.smul ((inp.leftStretchTensorN n).XX + (inp.leftStretchTensorN n).YY
            + (inp.leftStretchTensorN n).ZZ) Mat3.identity) (inp.leftStretchTensorN n)).det = 0
      · rw [if_pos hn]
      · rw [if_neg hn]
        apply ihB
        refine ⟨i, ?_, hdet⟩
        rcases Nat.lt_succ_iff_lt_or_eq.mp hi with h | h
        · exact h
        · exact absurd (h ▸ hdet) hn

/-- C18: the updater returns a non-zero code if and only if at some owned point
`det F[i] = 0` or `det(trace(V^n[i]) I - V^n[i]) = 0`. A failed inverse is the zero
matrix, and every owned point, the faulty one and those after it included, still gets
`R^{n+1}[i] = Q_i R^n[i]` and `d[i] = R^{n+1}[i]ᵀ D_i R^{n+1}[i]` computed with it:
with `det F[i] = 0` this gives `L = 0`, `d[i] = 0` and `R^{n+1}[i] = R^n[i]`; with
`det(trace(V) I - V) = 0` it gives `omega = w`. -/
theorem C18_updater_return_code (ext : External α) (inp : KinematicInput α)
    (leftStretchTensorNP10 rotationTensorNP10 unrotatedRateOfDeformation0 : Nat → Mat3 α) :
    ((computeUnrotatedRateOfDeformationAndRotationTensor ext inp leftStretchTensorNP10
        rotationTensorNP10 unrotatedRateOfDeformation0).returnCode ≠ 0
      ↔ ∃ i, i < inp.numPoints ∧ ((inp.deformationGradient i).det = 0
        ∨ (Mat3.sub (Mat3.smul ((inp.leftStretchTensorN i).XX + (inp.leftStretchTensorN i).YY
            + (inp.leftStretchTensorN i).ZZ) Mat3.identity)
            (inp.leftStretchTensorN i)).det = 0)) ∧
    ∀ i, i < inp.numPoints →
      (computeUnrotatedRateOfDeformationAndRotationTensor ext inp leftStretchTensorNP10
          rotationTensorNP10 unrotatedRateOfDeformation0).rotationTensorNP1 i
        = MatrixMultiply (kinematicLocalsAt ext inp i).QMatrix (inp.rotationTensorN i) ∧
      (computeUnrotatedRateOfDeformationAndRotationTensor ext inp leftStretchTensorNP10
          rotationTensorNP10 unrotatedRateOfDeformation0).unrotatedRateOfDeformation i
        = UnrotateTensor (kinematicLocalsAt ext inp i).rateOfDef
            ((computeUnrotatedRateOfDeformationAndRotationTensor ext inp leftStretchTensorNP10
              rotationTensorNP10 unrotatedRateOfDeformation0).rotationTensorNP1 i) ∧
      ((inp.deformationGradient i).det = 0 →
        (kinematicLocalsAt ext inp i).defGradInv = ⟨0, 0, 0, 0, 0, 0, 0, 0, 0⟩ ∧
        (kinematicLocalsAt ext inp i).eulerianVelGrad = Mat3.zero ∧
        (computeUnrotatedRateOfDeformationAndRotationTensor ext inp leftStretchTensorNP10
            rotationTensorNP10 unrotatedRateOfDeformation0).rotationTensorNP1 i
          = inp.rotationTensorN i ∧
        (computeUnrotatedRateOfDeformationAndRotationTensor ext inp leftStretchTensorNP10
            rotationTensorNP10 unrotatedRateOfDeformation0).unrotatedRateOfDeformation i
          = Mat3.zero) ∧
      ((Mat3.sub (Mat3.smul ((inp.leftStretchTensorN i).XX + (inp.leftStretchTensorN i).YY
            + (inp.leftStretchTensorN i).ZZ) Mat3.identity) (inp.leftStretchTensorN i)).det = 0 →
        (kinematicLocalsAt ext inp i).tempInv = ⟨0, 0, 0, 0, 0, 0, 0, 0, 0⟩ ∧
        (kinematicLocalsAt ext inp i).omega = (kinematicLocalsAt ext inp i).w) := by
  constructor
  · obtain ⟨hA, hB⟩ := kinematicLoop_returnCode ext inp
      { neighborListPtr := 0
        leftStretchTensorNP1 := leftStretchTensorNP10
        rotationTensorNP1 := rotationTensorNP10
        unrotatedRateOfDeformation := unrotatedRateOfDeformation0
        returnCode := 0 } rfl inp.numPoints
    unfold computeUnrotatedRateOfDeformationAndRotationTensor
    constructor
    · intro hrc
      by_contra hne
      apply hrc
      apply hA
      intro i hi hdet
      exact hne ⟨i, hi, hdet⟩
    · intro hex
      rw [hB hex]
      decide
  · intro i hi
    have hR := kinematic_rotationTensorNP1 ext inp leftStretchTensorNP10 rotationTensorNP10
      unrotatedRateOfDeformation0 i
    have hd := kinematic_unrotatedRateOfDeformation ext inp leftStretchTensorNP10
      rotationTensorNP10 unrotatedRateOfDeformation0 i
    rw [if_pos hi] at hR hd
    rw [hR, hd]
    refine ⟨rfl, rfl, ?_, ?_⟩
    · intro hdet
      have hinv : (kinematicLocalsAt ext inp i).defGradInv = ⟨0, 0, 0, 0, 0, 0, 0, 0, 0⟩ := by
        unfold kinematicLocalsAt
        rw [kinematicLocals_defGradInv, invert3by3Matrix_singular _ hdet]
        rfl
      have hL : (kinematicLocalsAt ext inp i).eulerianVelGrad = Mat3.zero := by
        unfold kinematicLocalsAt at hinv ⊢
        rw [kinematicLocals_eulerianVelGrad, hinv]
        exact MatrixMultiply_zero_right _
      obtain ⟨_, _, _, _, hR2, hd2, _⟩ := kinematicLocals_of_velGrad_zero ext inp i _ hL
      exact ⟨hinv, hL, hR2, hd2⟩
    · intro hdet
      have hinv : (kinematicLocalsAt ext inp i).tempInv = ⟨0, 0, 0, 0, 0, 0, 0, 0, 0⟩ := by
        unfold kinematicLocalsAt
        rw [kinematicLocals_tempInv, MatrixUpdate_trace_eq, invert3by3Matrix_singular _ hdet]
        rfl
      refine ⟨hinv, ?_⟩
      unfold kinematicLocalsAt at hinv ⊢
      rw [kinematicLocals_omega_components, hinv]
      ext <;> simp only <;> ring

/-- Witness of C18 on `singularGradientInput`: `det F[0] = 0`, the updater returns 1,
writes `d[0] = 0` and `R^{n+1}[0] = R^n[0]`, and the later point `1` still gets its
rotation. -/
theorem C18_updater_return_code_witness :
    ((singularGradientInput (1 : ℚ)).deformationGradient 0).det = 0 ∧
    (computeUnrotatedRateOfDeformationAndRotationTensor unitInfluence
        (singularGradientInput 1) (fun _ => 0) (fun _ => 0) (fun _ => Mat3.identity)).returnCode
      ≠ 0 ∧
    (computeUnrotatedRateOfDeformationAndRotationTensor unitInfluence
        (singularGradientInput 1) (fun _ => 0) (fun _ => 0)
        (fun _ => Mat3.identity)).unrotatedRateOfDeformation 0 = Mat3.zero ∧
    (computeUnrotatedRateOfDeformationAndRotationTensor unitInfluence
        (singularGradientInput 1) (fun _ => 0) (fun _ => 0)
        (fun _ => Mat3.identity)).rotationTensorNP1 1
      = MatrixMultiply (kinematicLocalsAt unitInfluence (singularGradientInput 1) 1).QMatrix
          ((singularGradientInput (1 : ℚ)).rotationTensorN 1) := by
  have hdet : ((singularGradientInput (1 : ℚ)).deformationGradient 0).det = 0 := by
    simp [singularGradientInput, Mat3.det, Mat3.zero]
  have h := C18_updater_return_code unitInfluence (singularGradientInput (1 : ℚ))
    (fun _ => 0) (fun _ => 0) (fun _ => Mat3.identity)
  exact ⟨hdet, h.1.mpr ⟨0, by decide, Or.inl hdet⟩,
    ((h.2 0 (by decide)).2.2.1 hdet).2.2.2, (h.2 1 (by decide)).1⟩

end KinematicReturnCode

section UnrotateClaim

variable {α : Type} [Field α]

/-- C21: for every pair of 3x3 matrices `A` and `R` (orthogonal or not),
`UnrotateTensor` writes `Rᵀ * A * R`, i.e.
`result_ij = sum over k, l of R_ki * A_kl * R_lj`. -/
theorem C21_UnrotateTensor_formula (A R : Mat3 α) :
    (UnrotateTensor A R).toMatrix = R.toMatrix.transpose * A.toMatrix * R.toMatrix ∧
    ∀ i j : Fin 3, (UnrotateTensor A R).toMatrix i j
      = ∑ k : Fin 3, ∑ l : Fin 3, R.toMatrix k i * A.toMatrix k l * R.toMatrix l j := by
  have h1 : (UnrotateTensor A R).toMatrix
      = R.toMatrix.transpose * A.toMatrix * R.toMatrix := by
    rw [UnrotateTensor_eq, toMatrix_MatrixMultiply, toMatrix_MatrixMultiply, toMatrix_transpose,
      Matrix.mul_assoc]
  refine ⟨h1, ?_⟩
  intro i j
  rw [h1]
  simp only [Matrix.mul_apply, Matrix.transpose_apply, Finset.sum_mul]
  rw [Finset.sum_comm]

end UnrotateClaim

section SymmetryLemmas

variable {α : Type} [Field α]

/-- A sum of symmetric outer products `w * ξ ξᵀ` is symmetric. -/
theorem sum_scaledOuter_symmetric (l : List Nat) (w : Nat → α) (xi : Nat → Vec3 α) :
    (l.map (fun j => Mat3.scaledOuter (w j) (xi j) (xi j))).sum.transpose
      = (l.map (fun j => Mat3.scaledOuter (w j) (xi j) (xi j))).sum := by
  induction l with
  | nil => rfl
  | cons a l ih =>
    simp only [List.map_cons, List.sum_cons]
    generalize (l.map (fun j => Mat3.scaledOuter (w j) (xi j) (xi j))).sum = T at ih ⊢
    have h1 : T.YX = T.XY := congrArg Mat3.XY ih
    have h2 : T.ZX = T.XZ := congrArg Mat3.XZ ih
    have h3 : T.ZY = T.YZ := congrArg Mat3.YZ ih
    simp only [Mat3.add_def, Mat3.add, Mat3.scaledOuter, Mat3.transpose]
    ext <;> simp only
    · rw [h1]; ring
    · rw [h2]; ring
    · rw [h1]; ring
    · rw [h3]; ring
    · rw [h2]; ring
    · rw [h3]; ring

/-- The inverse written by `invert3by3Matrix` for a symmetric input is symmetric,
singular input included. -/
theorem invert3by3Matrix_symmetric [DecidableEq α] (m : Mat3 α) (h : m.transpose = m) :
    (invert3by3Matrix m).2.transpose = (invert3by3Matrix m).2 := by
  have h1 : m.YX = m.XY := congrArg Mat3.XY h
  have h2 : m.ZX = m.XZ := congrArg Mat3.XZ h
  have h3 : m.ZY = m.YZ := congrArg Mat3.YZ h
  by_cases hdet : m.det = 0
  · rw [invert3by3Matrix_singular m hdet]
    rfl
  · have h0 : ¬ (m.XX * (m.YY * m.ZZ - m.YZ * m.ZY) - m.XY * (m.YX * m.ZZ - m.YZ * m.ZX)
        + m.XZ * (m.YX * m.ZY - m.YY * m.ZX) = 0) := hdet
    simp only [invert3by3Matrix, if_neg h0, Mat3.transpose]
    ext <;> simp only [h1, h2, h3] <;> ring

end SymmetryLemmas

section SymmetryClaim

variable {α : Type} [Field α] [DecidableEq α]

/-- C22: shape-tensor symmetry. For every input and every owned point, the accumulated
shape tensor `K` is symmetric and the `K⁻¹[i]` written by the shape kernel is symmetric
(`XY = YX`, `XZ = ZX`, `YZ = ZY`), whether or not `K` is singular. -/
theorem C22_shape_tensor_symmetry (ext : External α) (inp : ShapeInput α)
    (shapeTensorInverse0 deformationGradient0 : Nat → Mat3 α) (i : Nat)
    (hi : i < inp.numPoints) :
    ((shapeTensorOf ext inp i).XY = (shapeTensorOf ext inp i).YX ∧
      (shapeTensorOf ext inp i).XZ = (shapeTensorOf ext inp i).ZX ∧
      (shapeTensorOf ext inp i).YZ = (shapeTensorOf ext inp i).ZY) ∧
    (((computeShapeTensorInverseAndApproximateDeformationGradient ext inp
        shapeTensorInverse0 deformationGradient0).shapeTensorInverse i).XY
      = ((computeShapeTensorInverseAndApproximateDeformationGradient ext inp
        shapeTensorInverse0 deformationGradient0).shapeTensorInverse i).YX ∧
     ((computeShapeTensorInverseAndApproximateDeformationGradient ext inp
        shapeTensorInverse0 deformationGradient0).shapeTensorInverse i).XZ
      = ((computeShapeTensorInverseAndApproximateDeformationGradient ext inp
        shapeTensorInverse0 deformationGradient0).shapeTensorInverse i).ZX ∧
     ((computeShapeTensorInverseAndApproximateDeformationGradient ext inp
        shapeTensorInverse0 deformationGradient0).shapeTensorInverse i).YZ
      = ((computeShapeTensorInverseAndApproximateDeformationGradient ext inp
        shapeTensorInverse0 deformationGradient0).shapeTensorInverse i).ZY) := by
  have hK : (shapeTensorOf ext inp i).transpose = shapeTensorOf ext inp i :=
    sum_scaledOuter_symmetric _ _ _
  have hKinv := invert3by3Matrix_symmetric _ hK
  have hout := shapeKernel_shapeTensorInverse ext inp shapeTensorInverse0
    deformationGradient0 i
  rw [if_pos hi] at hout
  rw [hout]
  exact ⟨⟨(congrArg Mat3.YX hK), (congrArg Mat3.ZX hK), (congrArg Mat3.ZY hK)⟩,
    ⟨(congrArg Mat3.YX hKinv), (congrArg Mat3.ZX hKinv), (congrArg Mat3.ZY hKinv)⟩⟩

/-- Witness of C22 at the regular point `1` of `singularFirstInput`. -/
theorem C22_shape_tensor_symmetry_witness :
    ((computeShapeTensorInverseAndApproximateDeformationGradient unitInfluence
        singularFirstInput (fun _ => 0) (fun _ => 0)).shapeTensorInverse 1).XY
      = ((computeShapeTensorInverseAndApproximateDeformationGradient unitInfluence
        singularFirstInput (fun _ => 0) (fun _ => 0)).shapeTensorInverse 1).YX :=
  (C22_shape_tensor_symmetry unitInfluence singularFirstInput (fun _ => 0) (fun _ => 0) 1
    (by decide)).2.1

end SymmetryClaim

section StrainStressLemmas

variable {α : Type} [Field α]

/-- Entry `i` of the strain buffer after the strain kernel. -/
theorem computeGreenLagrangeStrain_apply (deformationGradient greenLagrangeStrain0 :
    Nat → Mat3 α) (numPoints i : Nat) :
    computeGreenLagrangeStrain deformationGradient greenLagrangeStrain0 numPoints i
      = if i < numPoints then greenLagrangeStrainPoint (deformationGradient i)
        else greenLagrangeStrain0 i := by
  unfold computeGreenLagrangeStrain
  rw [forLoop_update]

/-- Entry `i` of the stress buffer after the stress kernel. -/
theorem computeClassicalElasticStress_apply (strain cauchyStress0 : Nat → Mat3 α)
    (numPoints : Nat) (youngsModulus poissonsRatio : α) (i : Nat) :
    computeClassicalElasticStress strain cauchyStress0 numPoints youngsModulus poissonsRatio i
      = if i < numPoints
        then classicalElasticStressPoint youngsModulus poissonsRatio (strain i)
        else cauchyStress0 i := by
  unfold computeClassicalElasticStress
  rw [forLoop_update]

/-- Entry `i` of the rotated-stress buffer after the stress rotation kernel. -/
theorem rotateCauchyStress_apply (rotationTensor unrotatedCauchyStress rotatedCauchyStress0 :
    Nat → Mat3 α) (numPoints i : Nat) :
    rotateCauchyStress rotationTensor unrotatedCauchyStress rotatedCauchyStress0 numPoints i
      = if i < numPoints then RotateTensor (unrotatedCauchyStress i) (rotationTensor i)
        else rotatedCauchyStress0 i := by
  unfold rotateCauchyStress
  rw [forLoop_update]

/-- The strain of one point is `1/2 (Fᵀ F - I)`. -/
theorem greenLagrangeStrainPoint_eq (F : Mat3 α) :
    greenLagrangeStrainPoint F
      = Mat3.smul (1 / 2) (Mat3.sub (MatrixMultiply F.transpose F) Mat3.identity) := by
  simp only [greenLagrangeStrainPoint, Mat3.smul, Mat3.sub, MatrixMultiply, Mat3.transpose,
    Mat3.identity]
  ext <;> simp only <;> ring

theorem toMatrix_smul (c : α) (a : Mat3 α) : (Mat3.smul c a).toMatrix = c • a.toMatrix := by
  ext i j
  fin_cases i <;> fin_cases j <;> rfl

theorem toMatrix_sub (a b : Mat3 α) : (Mat3.sub a b).toMatrix = a.toMatrix - b.toMatrix := by
  ext i j
  fin_cases i <;> fin_cases j <;> rfl

end StrainStressLemmas

section StrainStressClaims

variable {α : Type} [Field α]

/-- C23: for every owned point and every deformation gradient `F`,
`computeGreenLagrangeStrain` writes `E = 1/2 (Fᵀ F - I)`, i.e.
`E_ab = 1/2 (sum over k of F_ka * F_kb - delta_ab)`. -/
theorem C23_green_lagrange_strain (deformationGradient greenLagrangeStrain0 : Nat → Mat3 α)
    (numPoints i : Nat) (hi : i < numPoints) :
    (computeGreenLagrangeStrain deformationGradient greenLagrangeStrain0 numPoints i).toMatrix
      = (1 / 2 : α) • ((deformationGradient i).toMatrix.transpose
          * (deformationGradient i).toMatrix - 1) ∧
    ∀ a b : Fin 3,
      (computeGreenLagrangeStrain deformationGradient greenLagrangeStrain0 numPoints i).toMatrix
          a b
        = 1 / 2 * (∑ k : Fin 3, (deformationGradient i).toMatrix k a
            * (deformationGradient i).toMatrix k b - if a = b then 1 else 0) := by
  have h1 : (computeGreenLagrangeStrain deformationGradient greenLagrangeStrain0 numPoints
      i).toMatrix
      = (1 / 2 : α) • ((deformationGradient i).toMatrix.transpose
          * (deformationGradient i).toMatrix - 1) := by
    rw [computeGreenLagrangeStrain_apply, if_pos hi, greenLagrangeStrainPoint_eq, toMatrix_smul,
      toMatrix_sub, toMatrix_MatrixMultiply, toMatrix_transpose, toMatrix_identity]
  refine ⟨h1, ?_⟩
  intro a b
  rw [h1]
  simp only [Matrix.smul_apply, Matrix.sub_apply, Matrix.mul_apply, Matrix.transpose_apply,
    Matrix.one_apply, smul_eq_mul]

/-- Witness of C23: `F = diag(1.1, 1, 1)` gives `E = diag(0.105, 0, 0)`. -/
theorem C23_green_lagrange_strain_witness :
    (computeGreenLagrangeStrain (fun _ => (⟨11 / 10, 0, 0, 0, 1, 0, 0, 0, 1⟩ : Mat3 ℚ))
        (fun _ => 0) 1 0).toMatrix
      = (1 / 2 : ℚ) • ((⟨11 / 10, 0, 0, 0, 1, 0, 0, 0, 1⟩ : Mat3 ℚ).toMatrix.transpose
          * (⟨11 / 10, 0, 0, 0, 1, 0, 0, 0, 1⟩ : Mat3 ℚ).toMatrix - 1) ∧
    computeGreenLagrangeStrain (fun _ => (⟨11 / 10, 0, 0, 0, 1, 0, 0, 0, 1⟩ : Mat3 ℚ))
        (fun _ => 0) 1 0 = ⟨105 / 1000, 0, 0, 0, 0, 0, 0, 0, 0⟩ := by
  refine ⟨(C23_green_lagrange_strain
    (fun _ => (⟨11 / 10, 0, 0, 0, 1, 0, 0, 0, 1⟩ : Mat3 ℚ)) (fun _ => 0) 1 0 (by decide)).1, ?_⟩
  rw [computeGreenLagrangeStrain_apply, if_pos (by decide)]
  simp only [greenLagrangeStrainPoint]
  ext <;> simp only <;> norm_num

/-- C25: for every owned point and every strain, `computeClassicalElasticStress`
writes, with `c = E_y / ((1+nu)(1-2nu))`: the three normal stresses
`c((1-nu) e_xx + nu e_yy + nu e_zz)` and cyclic, the shear stresses
`sigma_xy = c(1-2nu) e_xy`, `sigma_yz = c(1-2nu) e_yz`, `sigma_zx = c(1-2nu) e_zx`, and
`sigma_yx = sigma_xy`, `sigma_zy = sigma_yz`, `sigma_xz = sigma_zx`. -/
theorem C25_classical_elastic_stress (strain cauchyStress0 : Nat → Mat3 α)
    (numPoints : Nat) (youngsModulus poissonsRatio : α) (i : Nat) (hi : i < numPoints) :
    (computeClassicalElasticStress strain cauchyStress0 numPoints youngsModulus poissonsRatio
        i).XX
      = youngsModulus / ((1 + poissonsRatio) * (1 - 2 * poissonsRatio))
        * ((1 - poissonsRatio) * (strain i).XX + poissonsRatio * (strain i).YY
          + poissonsRatio * (strain i).ZZ) ∧
    (computeClassicalElasticStress strain cauchyStress0 numPoints youngsModulus poissonsRatio
        i).YY
      = youngsModulus / ((1 + poissonsRatio) * (1 - 2 * poissonsRatio))
        * (poissonsRatio * (strain i).XX + (1 - poissonsRatio) * (strain i).YY
          + poissonsRatio * (strain i).ZZ) ∧
    (computeClassicalElasticStress strain cauchyStress0 numPoints youngsModulus poissonsRatio
        i).ZZ
      = youngsModulus / ((1 + poissonsRatio) * (1 - 2 * poissonsRatio))
        * (poissonsRatio * (strain i).XX + poissonsRatio * (strain i).YY
          + (1 - poissonsRatio) * (strain i).ZZ) ∧
    (computeClassicalElasticStress strain cauchyStress0 numPoints youngsModulus poissonsRatio
        i).XY
      = youngsModulus / ((1 + poissonsRatio) * (1 - 2 * poissonsRatio))
        * (1 - 2 * poissonsRatio) * (strain i).XY ∧
    (computeClassicalElasticStress strain cauchyStress0 numPoints youngsModulus poissonsRatio
        i).YZ
      = youngsModulus / ((1 + poissonsRatio) * (1 - 2 * poissonsRatio))
        * (1 - 2 * poissonsRatio) * (strain i).YZ ∧
    (computeClassicalElasticStress strain cauchyStress0 numPoints youngsModulus poissonsRatio
        i).ZX
      = youngsModulus / ((1 + poissonsRatio) * (1 - 2 * poissonsRatio))
        * (1 - 2 * poissonsRatio) * (strain i).ZX ∧
    (computeClassicalElasticStress strain cauchyStress0 numPoints youngsModulus poissonsRatio
        i).YX
      = (computeClassicalElasticStress strain cauchyStress0 numPoints youngsModulus
        poissonsRatio i).XY ∧
    (computeClassicalElasticStress strain cauchyStress0 numPoints youngsModulus poissonsRatio
        i).ZY
      = (computeClassicalElasticStress strain cauchyStress0 numPoints youngsModulus
        poissonsRatio i).YZ ∧
    (computeClassicalElasticStress strain cauchyStress0 numPoints youngsModulus poissonsRatio
        i).XZ
      = (computeClassicalElasticStress strain cauchyStress0 numPoints youngsModulus
        poissonsRatio i).ZX := by
  rw [computeClassicalElasticStress_apply, if_pos hi]
  exact ⟨rfl, rfl, rfl, rfl, rfl, rfl, rfl, rfl, rfl⟩

/-- Witness of C25: `E_y = 2`, `nu = 1/4` and a strain with nine distinct entries give
`sigma_xx = 16/5 * (3/4 * 1 + 1/4 * 5 + 1/4 * 9) = 68/5`. -/
theorem C25_classical_elastic_stress_witness :
    (computeClassicalElasticStress (fun _ => (⟨1, 2, 3, 4, 5, 6, 7, 8, 9⟩ : Mat3 ℚ))
        (fun _ => 0) 1 2 (1 / 4) 0).XX = 68 / 5 := by
  rw [(C25_classical_elastic_stress (fun _ => (⟨1, 2, 3, 4, 5, 6, 7, 8, 9⟩ : Mat3 ℚ))
    (fun _ => 0) 1 2 (1 / 4) 0 (by decide)).1]
  norm_num

/-- C26: stress symmetry. For every strain tensor, symmetric or not, and every `E_y`
and `nu`, the stress written by `computeClassicalElasticStress` is symmetric at every
point: `sigma_xy = sigma_yx`, `sigma_xz = sigma_zx`, `sigma_yz = sigma_zy`. -/
theorem C26_stress_symmetry (strain cauchyStress0 : Nat → Mat3 α)
    (numPoints : Nat) (youngsModulus poissonsRatio : α) (i : Nat) (hi : i < numPoints) :
    (computeClassicalElasticStress strain cauchyStress0 numPoints youngsModulus poissonsRatio
        i).XY
      = (computeClassicalElasticStress strain cauchyStress0 numPoints youngsModulus
        poissonsRatio i).YX ∧
    (computeClassicalElasticStress strain cauchyStress0 numPoints youngsModulus poissonsRatio
        i).XZ
      = (computeClassicalElasticStress strain cauchyStress0 numPoints youngsModulus
        poissonsRatio i).ZX ∧
    (computeClassicalElasticStress strain cauchyStress0 numPoints youngsModulus poissonsRatio
        i).YZ
      = (computeClassicalElasticStress strain cauchyStress0 numPoints youngsModulus
        poissonsRatio i).ZY := by
  rw [computeClassicalElasticStress_apply, if_pos hi]
  exact ⟨rfl, rfl, rfl⟩

/-- Witness of C26: a strain that is not symmetric (`e_xy = 2`, `e_yx = 4`) still gives
`sigma_xy = sigma_yx`. -/
theorem C26_stress_symmetry_witness :
    (computeClassicalElasticStress (fun _ => (⟨1, 2, 3, 4, 5, 6, 7, 8, 9⟩ : Mat3 ℚ))
        (fun _ => Mat3.identity) 1 2 (1 / 4) 0).XY
      = (computeClassicalElasticStress (fun _ => (⟨1, 2, 3, 4, 5, 6, 7, 8, 9⟩ : Mat3 ℚ))
        (fun _ => Mat3.identity) 1 2 (1 / 4) 0).YX :=
  (C26_stress_symmetry (fun _ => (⟨1, 2, 3, 4, 5, 6, 7, 8, 9⟩ : Mat3 ℚ))
    (fun _ => Mat3.identity) 1 2 (1 / 4) 0 (by decide)).1

/-- C27: scenario 4. With `E_y = 1` and `nu = 1/4`, for every `e` the strain
`diag(e, 0, 0)` yields `sigma_xx = 6/5 e`, `sigma_yy = sigma_zz = 2/5 e` and all six
off-diagonal stress components zero, in exact rational arithmetic. -/
theorem C27_scenario_uniaxial_strain (e : ℚ) (cauchyStress0 : Nat → Mat3 ℚ) :
    computeClassicalElasticStress (fun _ => ⟨e, 0, 0, 0, 0, 0, 0, 0, 0⟩) cauchyStress0 1 1
        (1 / 4) 0
      = ⟨6 / 5 * e, 0, 0, 0, 2 / 5 * e, 0, 0, 0, 2 / 5 * e⟩ := by
  rw [computeClassicalElasticStress_apply, if_pos (by decide)]
  simp only [classicalElasticStressPoint]
  ext <;> simp only <;> norm_num <;> ring

/-- C28: for every number of points and every owned point `i`, `rotateCauchyStress`
writes `rotated[i] = R[i] * unrotated[i] * R[i]ᵀ` from the rotation and stress of the
same index `i`, and leaves every other entry of the output buffer as it was. -/
theorem C28_rotateCauchyStress (rotationTensor unrotatedCauchyStress rotatedCauchyStress0 :
    Nat → Mat3 α) (numPoints : Nat) :
    (∀ i, i < numPoints →
      (rotateCauchyStress rotationTensor unrotatedCauchyStress rotatedCauchyStress0 numPoints
          i).toMatrix
        = (rotationTensor i).toMatrix * (unrotatedCauchyStress i).toMatrix
          * (rotationTensor i).toMatrix.transpose) ∧
    (∀ i, ¬ i < numPoints →
      rotateCauchyStress rotationTensor unrotatedCauchyStress rotatedCauchyStress0 numPoints i
        = rotatedCauchyStress0 i) := by
  constructor
  · intro i hi
    rw [rotateCauchyStress_apply, if_pos hi, RotateTensor_eq, toMatrix_MatrixMultiply,
      toMatrix_MatrixMultiply, toMatrix_transpose, Matrix.mul_assoc]
  · intro i hi
    rw [rotateCauchyStress_apply, if_neg hi]

/-- Witness of C28: two points with different rotations and stresses; entry `1` is
built from `R[1]` and `unrotated[1]`, entry `2` keeps its prior content. -/
theorem C28_rotateCauchyStress_witness :
    (rotateCauchyStress
        (fun k => if k = 0 then Mat3.identity else (⟨0, -1, 0, 1, 0, 0, 0, 0, 1⟩ : Mat3 ℚ))
        (fun k => if k = 0 then ⟨1, 0, 0, 0, 1, 0, 0, 0, 1⟩ else ⟨1, 0, 0, 0, 2, 0, 0, 0, 3⟩)
        (fun _ => ⟨7, 7, 7, 7, 7, 7, 7, 7, 7⟩) 2 1).toMatrix
      = (⟨0, -1, 0, 1, 0, 0, 0, 0, 1⟩ : Mat3 ℚ).toMatrix
        * (⟨1, 0, 0, 0, 2, 0, 0, 0, 3⟩ : Mat3 ℚ).toMatrix
        * (⟨0, -1, 0, 1, 0, 0, 0, 0, 1⟩ : Mat3 ℚ).toMatrix.transpose ∧
    rotateCauchyStress
        (fun k => if k = 0 then Mat3.identity else (⟨0, -1, 0, 1, 0, 0, 0, 0, 1⟩ : Mat3 ℚ))
        (fun k => if k = 0 then ⟨1, 0, 0, 0, 1, 0, 0, 0, 1⟩ else ⟨1, 0, 0, 0, 2, 0, 0, 0, 3⟩)
        (fun _ => ⟨7, 7, 7, 7, 7, 7, 7, 7, 7⟩) 2 2 = ⟨7, 7, 7, 7, 7, 7, 7, 7, 7⟩ :=
  ⟨(C28_rotateCauchyStress _ _ _ 2).1 1 (by decide),
    (C28_rotateCauchyStress _ _ _ 2).2 2 (by decide)⟩

end StrainStressClaims

section PureRotationClaim

variable {α : Type} [Field α] [DecidableEq α]

/-- C24 (counterexample): with `F = I` (so `Fᵀ F = I` and `E = 0`) and `E_y = 1`, at
`nu = 1/2` and at `nu = -1` the divisor `(1 + nu)(1 - 2 nu)` of the hoisted constant is
zero and the stress kernel stores no tensor of numbers at the point, in particular not
`sigma = 0`. -/
theorem C24_pure_rotation_stress_undefined :
    MatrixMultiply (Mat3.identity : Mat3 ℚ).transpose Mat3.identity = Mat3.identity ∧
    computeGreenLagrangeStrain (fun _ => (Mat3.identity : Mat3 ℚ)) (fun _ => 0) 1 0
      = ⟨0, 0, 0, 0, 0, 0, 0, 0, 0⟩ ∧
    computeClassicalElasticStressChecked
        (computeGreenLagrangeStrain (fun _ => (Mat3.identity : Mat3 ℚ)) (fun _ => 0) 1)
        (fun _ => 0) 1 1 (1 / 2) 0 = none ∧
    computeClassicalElasticStressChecked
        (computeGreenLagrangeStrain (fun _ => (Mat3.identity : Mat3 ℚ)) (fun _ => 0) 1)
        (fun _ => 0) 1 1 (1 / 2) 0 ≠ some ⟨0, 0, 0, 0, 0, 0, 0, 0, 0⟩ ∧
    computeClassicalElasticStressChecked
        (computeGreenLagrangeStrain (fun _ => (Mat3.identity : Mat3 ℚ)) (fun _ => 0) 1)
        (fun _ => 0) 1 1 (-1) 0 = none := by
  have hnone : computeClassicalElasticStressChecked
      (computeGreenLagrangeStrain (fun _ => (Mat3.identity : Mat3 ℚ)) (fun _ => 0) 1)
      (fun _ => 0) 1 1 (1 / 2) 0 = none := by
    rw [computeClassicalElasticStressChecked_apply, if_pos (by decide)]
    exact classicalElasticStressPointChecked_of_eq _ _ _ (by norm_num)
  refine ⟨?_, ?_, hnone, ?_, ?_⟩
  · simp [MatrixMultiply, Mat3.transpose, Mat3.identity]
  · rw [computeGreenLagrangeStrain_apply, if_pos (by decide),
      greenLagrangeStrainPoint_identity]
    rfl
  · rw [hnone]
    exact Option.noConfusion
  · rw [computeClassicalElasticStressChecked_apply, if_pos (by decide)]
    exact classicalElasticStressPointChecked_of_eq _ _ _ (by norm_num)

/-- C24 (amended): pure rotation produces no strain, and no stress where the stress is
defined. For every owned point whose `F` satisfies `Fᵀ F = I`,
`computeGreenLagrangeStrain` writes `E = 0` (all nine components); and for every
Young's modulus and every Poisson's ratio with `(1 + nu)(1 - 2 nu) ≠ 0`,
`computeClassicalElasticStress` applied to that strain stores a tensor of numbers,
`sigma = 0`. -/
theorem C24_pure_rotation_no_strain (deformationGradient greenLagrangeStrain0
    cauchyStress0 : Nat → Mat3 α) (numPoints i : Nat) (youngsModulus poissonsRatio : α)
    (hi : i < numPoints)
    (hF : MatrixMultiply (deformationGradient i).transpose (deformationGradient i)
      = Mat3.identity)
    (hnu : (1 + poissonsRatio) * (1 - 2 * poissonsRatio) ≠ 0) :
    computeGreenLagrangeStrain deformationGradient greenLagrangeStrain0 numPoints i
      = ⟨0, 0, 0, 0, 0, 0, 0, 0, 0⟩ ∧
    computeClassicalElasticStress
        (computeGreenLagrangeStrain deformationGradient greenLagrangeStrain0 numPoints)
        cauchyStress0 numPoints youngsModulus poissonsRatio i
      = ⟨0, 0, 0, 0, 0, 0, 0, 0, 0⟩ ∧
    computeClassicalElasticStressChecked
        (computeGreenLagrangeStrain deformationGradient greenLagrangeStrain0 numPoints)
        cauchyStress0 numPoints youngsModulus poissonsRatio i
      = some ⟨0, 0, 0, 0, 0, 0, 0, 0, 0⟩ := by
  have hE : computeGreenLagrangeStrain deformationGradient greenLagrangeStrain0 numPoints i
      = ⟨0, 0, 0, 0, 0, 0, 0, 0, 0⟩ := by
    rw [computeGreenLagrangeStrain_apply, if_pos hi, greenLagrangeStrainPoint_eq, hF]
    simp only [Mat3.smul, Mat3.sub, Mat3.identity]
    ext <;> simp only <;> ring
  refine ⟨hE, ?_, ?_⟩
  · rw [computeClassicalElasticStress_apply, if_pos hi, hE]
    exact classicalElasticStressPoint_zero youngsModulus poissonsRatio
  · rw [computeClassicalElasticStressChecked_apply, if_pos hi, hE,
      classicalElasticStressPointChecked_of_ne _ _ _ hnu]
    exact congrArg some (classicalElasticStressPoint_zero youngsModulus poissonsRatio)

/-- Witness of C24: the quarter turn about `z`, `E_y = 1`, `nu = 1/4`. -/
theorem C24_pure_rotation_no_strain_witness :
    MatrixMultiply (⟨0, -1, 0, 1, 0, 0, 0, 0, 1⟩ : Mat3 ℚ).transpose
        ⟨0, -1, 0, 1, 0, 0, 0, 0, 1⟩ = Mat3.identity ∧
    ((1 + 1 / 4) * (1 - 2 * (1 / 4)) : ℚ) ≠ 0 ∧
    computeGreenLagrangeStrain (fun _ => (⟨0, -1, 0, 1, 0, 0, 0, 0, 1⟩ : Mat3 ℚ))
        (fun _ => Mat3.identity) 1 0 = ⟨0, 0, 0, 0, 0, 0, 0, 0, 0⟩ ∧
    computeClassicalElasticStress
        (computeGreenLagrangeStrain (fun _ => (⟨0, -1, 0, 1, 0, 0, 0, 0, 1⟩ : Mat3 ℚ))
          (fun _ => Mat3.identity) 1)
        (fun _ => Mat3.identity) 1 1 (1 / 4) 0 = ⟨0, 0, 0, 0, 0, 0, 0, 0, 0⟩ ∧
    computeClassicalElasticStressChecked
        (computeGreenLagrangeStrain (fun _ => (⟨0, -1, 0, 1, 0, 0, 0, 0, 1⟩ : Mat3 ℚ))
          (fun _ => Mat3.identity) 1)
        (fun _ => Mat3.identity) 1 1 (1 / 4) 0 = some ⟨0, 0, 0, 0, 0, 0, 0, 0, 0⟩ :=
  have h : MatrixMultiply (⟨0, -1, 0, 1, 0, 0, 0, 0, 1⟩ : Mat3 ℚ).transpose
      ⟨0, -1, 0, 1, 0, 0, 0, 0, 1⟩ = Mat3.identity := by
    simp [MatrixMultiply, Mat3.transpose, Mat3.identity]
  have hnu : ((1 + 1 / 4) * (1 - 2 * (1 / 4)) : ℚ) ≠ 0 := by norm_num
  ⟨h, hnu, C24_pure_rotation_no_strain
    (fun _ => (⟨0, -1, 0, 1, 0, 0, 0, 0, 1⟩ : Mat3 ℚ))
    (fun _ => Mat3.identity) (fun _ => Mat3.identity) 1 0 1 (1 / 4) (by decide) h hnu⟩

end PureRotationClaim

section HourglassLemmas

variable {α : Type} [Field α]

/-- The deformed bond of the source is `eta = x[j] - x[i]`. -/
theorem hourglassBondLocals_deformedBond (ext : External α) (inp : HourglassInput α)
    (i j : Nat) :
    (hourglassBondLocals ext inp i j).deformedBond
      = Vec3.sub (triple inp.coordinates j) (triple inp.coordinates i) := rfl

/-- The magnitude the source computes, `(1 - b) * kappa * (dot / |xi|) * (1 / |eta|)`
with `dot = -(h . eta)`, is `(1 - b) * kappa * p` with `p = -(h . eta) / (|xi| |eta|)`. -/
theorem hourglassBondLocals_magnitude (ext : External α) (inp : HourglassInput α)
    (i j : Nat) :
    (hourglassBondLocals ext inp i j).magnitude = hourglassMagnitude ext inp i j := by
  simp only [hourglassBondLocals, hourglassMagnitude, Vec3.dot, Vec3.sub, Vec3.add, triple,
    Mat3.mulVec, div_eq_mul_inv, mul_inv]
  ring

/-- The statement `*(p) += c` on a flat buffer. -/
theorem update_add_eq (f : Nat → α) (p : Nat) (c : α) :
    Function.update f p (f p + c) = fun k => f k + if k = p then c else 0 := by
  funext k
  rw [Function.update_apply]
  split_ifs with h
  · rw [h]
  · rw [add_zero]

/-- The statement `*(p) -= c` on a flat buffer. -/
theorem update_sub_eq (f : Nat → α) (p : Nat) (c : α) :
    Function.update f p (f p - c) = fun k => f k - if k = p then c else 0 := by
  funext k
  rw [Function.update_apply]
  split_ifs with h
  · rw [h]
  · rw [sub_zero]

/-- The flat array of one triple is the sum of its three entries. -/
theorem tripleEntry_eq_sum (v : Vec3 α) (p k : Nat) :
    tripleEntry v p k = (if k = 3 * p then v.X else 0) + (if k = 3 * p + 1 then v.Y else 0)
      + (if k = 3 * p + 2 then v.Z else 0) := by
  unfold tripleEntry
  split_ifs <;> first | (exfalso; omega) | simp

theorem tripleEntry_smul (c : α) (v : Vec3 α) (p k : Nat) :
    tripleEntry (Vec3.smul c v) p k = c * tripleEntry v p k := by
  unfold tripleEntry Vec3.smul
  split_ifs <;> simp

/-- Six read-modify-write statements at offsets `3i, 3i+1, 3i+2, 3j, 3j+1, 3j+2` add up,
also when `i = j`. -/
theorem sixUpdates_apply (f : Nat → α) (i j k : Nat) (a b : Vec3 α) :
    (let f1 := Function.update f (3 * i) (f (3 * i) + a.X)
     let f2 := Function.update f1 (3 * i + 1) (f1 (3 * i + 1) + a.Y)
     let f3 := Function.update f2 (3 * i + 2) (f2 (3 * i + 2) + a.Z)
     let f4 := Function.update f3 (3 * j) (f3 (3 * j) - b.X)
     let f5 := Function.update f4 (3 * j + 1) (f4 (3 * j + 1) - b.Y)
     let f6 := Function.update f5 (3 * j + 2) (f5 (3 * j + 2) - b.Z)
     f6 k)
      = f k + tripleEntry a i k - tripleEntry b j k := by
  simp only [update_add_eq, update_sub_eq, tripleEntry_eq_sum]
  ring

/-- One iteration of the neighbour loop adds the contribution of the bond
`(iID, neighborIndex)` to the buffer and advances the cursor. -/
theorem hourglassBondBody_eq (ext : External α) (inp : HourglassInput α) (iID : Nat)
    (st : HourglassState α) :
    hourglassBondBody ext inp iID st
      = { neighborListPtr := st.neighborListPtr + 1
          hourglassForceDensity := fun k => st.hourglassForceDensity k
            + hourglassContribution ext inp iID
                (inp.neighborhoodList st.neighborListPtr) k } := by
  unfold hourglassBondBody
  simp only
  congr 1
  funext k
  have h := sixUpdates_apply st.hourglassForceDensity iID
    (inp.neighborhoodList st.neighborListPtr) k
    (Vec3.smul (hourglassMagnitude ext inp iID (inp.neighborhoodList st.neighborListPtr)
        * inp.volume (inp.neighborhoodList st.neighborListPtr))
      (Vec3.sub (triple inp.coordinates (inp.neighborhoodList st.neighborListPtr))
        (triple inp.coordinates iID)))
    (Vec3.smul (hourglassMagnitude ext inp iID (inp.neighborhoodList st.neighborListPtr)
        * inp.volume iID)
      (Vec3.sub (triple inp.coordinates (inp.neighborhoodList st.neighborListPtr))
        (triple inp.coordinates iID)))
  simp only [hourglassContribution, hourglassAddedToPoint, hourglassAddedToNeighbor,
    tripleEntry_smul]
  rw [tripleEntry_smul, tripleEntry_smul] at h
  rw [neg_mul, ← sub_eq_add_neg, ← add_sub_assoc, ← h]
  simp only [hourglassBondLocals_magnitude, hourglassBondLocals_deformedBond, Vec3.smul,
    Vec3.sub, triple, show ∀ j, (hourglassBondLocals ext inp iID j).vol = inp.volume iID
      from fun _ => rfl,
    show ∀ j, (hourglassBondLocals ext inp iID j).neighborVol = inp.volume j
      from fun _ => rfl]
  simp only [mul_right_comm]

/-- The neighbour loop of one owned point. -/
theorem hourglassBondLoop_eq (ext : External α) (inp : HourglassInput α) (iID n : Nat)
    (st : HourglassState α) :
    forLoop (fun _ => hourglassBondBody ext inp iID) n 0 st
      = { neighborListPtr := st.neighborListPtr + n
          hourglassForceDensity := fun k => st.hourglassForceDensity k
            + ((List.range n).map (fun m => hourglassContribution ext inp iID
                (inp.neighborhoodList (st.neighborListPtr + m)) k)).sum } := by
  induction n with
  | zero =>
    cases st
    simp [forLoop]
  | succ n ih =>
    rw [forLoop_succ_last, ih, hourglassBondBody_eq]
    simp only [List.range_succ, List.map_append, List.sum_append, List.map_cons, List.map_nil,
      List.sum_cons, List.sum_nil, add_zero]
    congr 1
    funext k
    rw [add_assoc]

/-- One iteration of the loop over owned points, entered with the cursor on the count
of point `iID`. -/
theorem hourglassPointBody_eq (ext : External α) (inp : HourglassInput α) (iID : Nat)
    (st : HourglassState α)
    (h : st.neighborListPtr = neighborOffset inp.neighborhoodList iID) :
    hourglassPointBody ext inp iID st
      = { neighborListPtr := neighborOffset inp.neighborhoodList (iID + 1)
          hourglassForceDensity := fun k => st.hourglassForceDensity k
            + ((neighbors inp.neighborhoodList iID).map
                (fun j => hourglassContribution ext inp iID j k)).sum } := by
  unfold hourglassPointBody
  simp only
  rw [hourglassBondLoop_eq]
  simp only [h, neighbors, neighborOffset, List.map_map]
  rfl

/-- The loop over owned points: cursor and buffer after `n` points. -/
theorem hourglassPointLoop_eq (ext : External α) (inp : HourglassInput α)
    (hourglassForceDensity0 : Nat → α) (n : Nat) :
    forLoop (hourglassPointBody ext inp) n 0
        { neighborListPtr := 0, hourglassForceDensity := hourglassForceDensity0 }
      = { neighborListPtr := neighborOffset inp.neighborhoodList n
          hourglassForceDensity := fun k => hourglassForceDensity0 k
            + ((traversedBonds inp.neighborhoodList n).map
                (fun b => hourglassContribution ext inp b.1 b.2 k)).sum } := by
  induction n with
  | zero => simp [forLoop, neighborOffset, traversedBonds]
  | succ n ih =>
    rw [forLoop_succ_last, ih, zero_add, hourglassPointBody_eq _ _ _ _ rfl]
    simp only [traversedBonds, List.map_append, List.sum_append, List.map_map]
    congr 1
    funext k
    rw [add_assoc]
    rfl

theorem tripleEntry_self (v : Vec3 α) (p : Nat) :
    tripleEntry v p (3 * p) = v.X ∧ tripleEntry v p (3 * p + 1) = v.Y
      ∧ tripleEntry v p (3 * p + 2) = v.Z := by
  simp [tripleEntry]

theorem tripleEntry_other (v : Vec3 α) (p q : Nat) (h : q ≠ p) :
    tripleEntry v p (3 * q) = 0 ∧ tripleEntry v p (3 * q + 1) = 0
      ∧ tripleEntry v p (3 * q + 2) = 0 := by
  unfold tripleEntry
  refine ⟨?_, ?_, ?_⟩ <;> split_ifs <;> first | (exfalso; omega) | rfl

/-- A bond from a point to itself has `eta = 0` and contributes nothing. -/
theorem hourglassContribution_self (ext : External α) (inp : HourglassInput α) (i k : Nat) :
    hourglassContribution ext inp i i k = 0 := by
  simp [hourglassContribution, hourglassAddedToPoint, hourglassAddedToNeighbor, tripleEntry,
    Vec3.smul, Vec3.sub, triple]

/-- What a bond `(i, j)`, `i ≠ j`, adds at the three offsets of `i` and of `j`. -/
theorem hourglassContribution_ends (ext : External α) (inp : HourglassInput α) (i j : Nat)
    (h : j ≠ i) :
    triple (hourglassContribution ext inp i j) i = hourglassAddedToPoint ext inp i j ∧
    triple (hourglassContribution ext inp i j) j = hourglassAddedToNeighbor ext inp i j := by
  have hs := fun v : Vec3 α => tripleEntry_self v i
  have ht := fun v : Vec3 α => tripleEntry_self v j
  have ho := fun v : Vec3 α => tripleEntry_other v j i (Ne.symm h)
  have hp := fun v : Vec3 α => tripleEntry_other v i j h
  constructor
  · ext <;> simp only [triple, hourglassContribution, (hs _).1, (hs _).2.1, (hs _).2.2,
      (ho _).1, (ho _).2.1, (ho _).2.2, add_zero]
  · ext <;> simp only [triple, hourglassContribution, (ht _).1, (ht _).2.1, (ht _).2.2,
      (hp _).1, (hp _).2.1, (hp _).2.2, zero_add]

/-- The two vectors of one bond differ by the factor `-(V[j] / V[i])`. -/
theorem hourglassAdded_ratio (ext : External α) (inp : HourglassInput α) (i j : Nat)
    (hV : inp.volume i ≠ 0) :
    hourglassAddedToPoint ext inp i j
      = Vec3.smul (-(inp.volume j / inp.volume i)) (hourglassAddedToNeighbor ext inp i j) := by
  simp only [hourglassAddedToPoint, hourglassAddedToNeighbor, Vec3.smul]
  ext <;> simp only <;> field_simp <;> ring

end HourglassLemmas

section HourglassScenario

/-- The kernel run on the two-point input from a buffer holding 100 everywhere: both
bonds add `6` at offset `0` and subtract `4` at offset `3`. -/
theorem computeHourglassForce_twoPoint :
    (computeHourglassForce squareRootOneFour twoPointHourglassInput
        (fun _ => 100)).hourglassForceDensity 0 = 112 ∧
    (computeHourglassForce squareRootOneFour twoPointHourglassInput
        (fun _ => 100)).hourglassForceDensity 3 = 92 ∧
    (computeHourglassForce squareRootOneFour twoPointHourglassInput
        (fun _ => 100)).hourglassForceDensity 1 = 100 := by
  simp only [computeHourglassForce, hourglassPointBody, forLoop, hourglassBondBody,
    hourglassBondLocals, hourglassConstant, twoPointHourglassInput,
    squareRootOneFour, Function.update_apply, Mat3.identity]
  norm_num

end HourglassScenario

section HourglassClaims

variable {α : Type} [Field α]

/-- C29: for every bond `(i, j)` it traverses, `computeHourglassForce` adds
`m * eta * V[j]` to the force density of `i` and subtracts `m * eta * V[i]` from the
force density of `j`, where `eta = x[j] - x[i]`, `xi = X[j] - X[i]`,
`h = x[i] + F[i] * xi - x[j]`, `p = -(h . eta) / (|xi| * |eta|)` and
`m = (1 - b) * kappa * p` with `b = 0` and `kappa` the hoisted constant. This holds for
one iteration of the neighbour loop on any buffer, and the buffer on exit is the buffer
on entry plus the contributions of all traversed bonds: it is accumulated into, not
reset. -/
theorem C29_hourglass_bond_contributions (ext : External α) (inp : HourglassInput α)
    (hourglassForceDensity0 : Nat → α) :
    (∀ (iID : Nat) (st : HourglassState α) (k : Nat),
      (hourglassBondBody ext inp iID st).hourglassForceDensity k
        = st.hourglassForceDensity k
          + (tripleEntry
              (Vec3.smul
                (hourglassMagnitude ext inp iID (inp.neighborhoodList st.neighborListPtr)
                  * inp.volume (inp.neighborhoodList st.neighborListPtr))
                (Vec3.sub (triple inp.coordinates (inp.neighborhoodList st.neighborListPtr))
                  (triple inp.coordinates iID))) iID k
            + tripleEntry
              (Vec3.smul
                (-(hourglassMagnitude ext inp iID (inp.neighborhoodList st.neighborListPtr)
                  * inp.volume iID))
                (Vec3.sub (triple inp.coordinates (inp.neighborhoodList st.neighborListPtr))
                  (triple inp.coordinates iID)))
              (inp.neighborhoodList st.neighborListPtr) k)) ∧
    (∀ k : Nat,
      (computeHourglassForce ext inp hourglassForceDensity0).hourglassForceDensity k
        = hourglassForceDensity0 k
          + ((traversedBonds inp.neighborhoodList inp.numPoints).map
              (fun b => tripleEntry (hourglassAddedToPoint ext inp b.1 b.2) b.1 k
                + tripleEntry (hourglassAddedToNeighbor ext inp b.1 b.2) b.2 k)).sum) := by
  constructor
  · intro iID st k
    rw [hourglassBondBody_eq]
    rfl
  · intro k
    unfold computeHourglassForce
    rw [hourglassPointLoop_eq]
    rfl

end HourglassClaims

section ConstantDivisorLemma

variable {α : Type} [Field α]

/-- In characteristic zero the divisor of the hourglass constant vanishes only with the
horizon. -/
theorem hourglassConstantDivisor_ne_zero [CharZero α] (inp : HourglassInput α)
    (h : inp.horizon ≠ 0) : hourglassConstantDivisor inp ≠ 0 := by
  unfold hourglassConstantDivisor
  have hlit : (31415926536 / 10000000000 : α) ≠ 0 := by norm_num
  exact mul_ne_zero (mul_ne_zero (mul_ne_zero (mul_ne_zero hlit h) h) h) h

end ConstantDivisorLemma

section HourglassPartialLemmas

variable {α : Type} [Field α] [DecidableEq α]

/-- One iteration of the neighbour loop whose three divisors are not zero. -/
theorem hourglassBondBodyChecked_eq_some (ext : External α) (inp : HourglassInput α)
    (iID : Nat) (st : HourglassState α)
    (hd : hourglassConstantDivisor inp ≠ 0)
    (hxi : ext.sqrt (Vec3.dot
        (Vec3.sub (triple inp.modelCoordinates (inp.neighborhoodList st.neighborListPtr))
          (triple inp.modelCoordinates iID))
        (Vec3.sub (triple inp.modelCoordinates (inp.neighborhoodList st.neighborListPtr))
          (triple inp.modelCoordinates iID))) ≠ 0)
    (heta : ext.sqrt (Vec3.dot
        (Vec3.sub (triple inp.coordinates (inp.neighborhoodList st.neighborListPtr))
          (triple inp.coordinates iID))
        (Vec3.sub (triple inp.coordinates (inp.neighborhoodList st.neighborListPtr))
          (triple inp.coordinates iID))) ≠ 0) :
    hourglassBondBodyChecked ext inp iID st = some (hourglassBondBody ext inp iID st) := by
  unfold hourglassBondBodyChecked
  simp only
  rw [if_neg]
  intro h
  rcases h with h | h | h
  · exact hd h
  · exact hxi h
  · exact heta h

/-- The neighbour loop of one owned point, all of whose bonds have non-zero divisors. -/
theorem hourglassBondLoopChecked_eq_some (ext : External α) (inp : HourglassInput α)
    (iID n : Nat) (st : HourglassState α)
    (hd : hourglassConstantDivisor inp ≠ 0)
    (hlen : ∀ m, m < n →
      ext.sqrt (Vec3.dot
        (Vec3.sub (triple inp.modelCoordinates (inp.neighborhoodList (st.neighborListPtr + m)))
          (triple inp.modelCoordinates iID))
        (Vec3.sub (triple inp.modelCoordinates (inp.neighborhoodList (st.neighborListPtr + m)))
          (triple inp.modelCoordinates iID))) ≠ 0 ∧
      ext.sqrt (Vec3.dot
        (Vec3.sub (triple inp.coordinates (inp.neighborhoodList (st.neighborListPtr + m)))
          (triple inp.coordinates iID))
        (Vec3.sub (triple inp.coordinates (inp.neighborhoodList (st.neighborListPtr + m)))
          (triple inp.coordinates iID))) ≠ 0) :
    forLoop (fun _ acc => acc.bind (hourglassBondBodyChecked ext inp iID)) n 0 (some st)
      = some (forLoop (fun _ => hourglassBondBody ext inp iID) n 0 st) := by
  induction n with
  | zero => rfl
  | succ n ih =>
    rw [forLoop_succ_last, forLoop_succ_last,
      ih (fun m hm => hlen m (Nat.lt_succ_of_lt hm)), Option.some_bind]
    have hp : (forLoop (fun _ => hourglassBondBody ext inp iID) n 0 st).neighborListPtr
        = st.neighborListPtr + n := by
      rw [hourglassBondLoop_eq]
    apply hourglassBondBodyChecked_eq_some ext inp iID _ hd
    · rw [hp]
      exact (hlen n (Nat.lt_succ_self n)).1
    · rw [hp]
      exact (hlen n (Nat.lt_succ_self n)).2

/-- One iteration of the loop over owned points, entered with the cursor on the count of
point `iID`, all bonds of the point having non-zero divisors. -/
theorem hourglassPointBodyChecked_eq_some (ext : External α) (inp : HourglassInput α)
    (iID : Nat) (st : HourglassState α)
    (hptr : st.neighborListPtr = neighborOffset inp.neighborhoodList iID)
    (hd : hourglassConstantDivisor inp ≠ 0)
    (hlen : ∀ j ∈ neighbors inp.neighborhoodList iID,
      ext.sqrt (Vec3.dot
        (Vec3.sub (triple inp.modelCoordinates j) (triple inp.modelCoordinates iID))
        (Vec3.sub (triple inp.modelCoordinates j) (triple inp.modelCoordinates iID))) ≠ 0 ∧
      ext.sqrt (Vec3.dot
        (Vec3.sub (triple inp.coordinates j) (triple inp.coordinates iID))
        (Vec3.sub (triple inp.coordinates j) (triple inp.coordinates iID))) ≠ 0) :
    hourglassPointBodyChecked ext inp iID (some st)
      = some (hourglassPointBody ext inp iID st) := by
  unfold hourglassPointBodyChecked hourglassPointBody
  rw [Option.some_bind]
  apply hourglassBondLoopChecked_eq_some ext inp iID _ _ hd
  intro m hm
  apply hlen
  simp only [neighbors, List.mem_map, List.mem_range]
  refine ⟨m, ?_, ?_⟩
  · rw [← hptr]
    exact hm
  · rw [← hptr]

/-- The loop over owned points, all traversed bonds having non-zero divisors. -/
theorem hourglassPointLoopChecked_eq_some (ext : External α) (inp : HourglassInput α)
    (hourglassForceDensity0 : Nat → α) (n : Nat)
    (hd : hourglassConstantDivisor inp ≠ 0)
    (hlen : ∀ b ∈ traversedBonds inp.neighborhoodList n,
      ext.sqrt (Vec3.dot
        (Vec3.sub (triple inp.modelCoordinates b.2) (triple inp.modelCoordinates b.1))
        (Vec3.sub (triple inp.modelCoordinates b.2) (triple inp.modelCoordinates b.1))) ≠ 0 ∧
      ext.sqrt (Vec3.dot
        (Vec3.sub (triple inp.coordinates b.2) (triple inp.coordinates b.1))
        (Vec3.sub (triple inp.coordinates b.2) (triple inp.coordinates b.1))) ≠ 0) :
    forLoop (hourglassPointBodyChecked ext inp) n 0
        (some { neighborListPtr := 0, hourglassForceDensity := hourglassForceDensity0 })
      = some (forLoop (hourglassPointBody ext inp) n 0
        { neighborListPtr := 0, hourglassForceDensity := hourglassForceDensity0 }) := by
  induction n with
  | zero => rfl
  | succ n ih =>
    have hprev : ∀ b ∈ traversedBonds inp.neighborhoodList n,
        b ∈ traversedBonds inp.neighborhoodList (n + 1) := by
      intro b hb
      simp only [traversedBonds, List.mem_append]
      exact Or.inl hb
    rw [forLoop_succ_last, forLoop_succ_last, ih (fun b hb => hlen b (hprev b hb)), zero_add]
    apply hourglassPointBodyChecked_eq_some ext inp n _ _ hd
    · intro j hj
      exact hlen (n, j) (by
        simp only [traversedBonds, List.mem_append, List.mem_map]
        exact Or.inr ⟨j, hj, rfl⟩)
    · rw [hourglassPointLoop_eq]

end HourglassPartialLemmas

section HourglassAntisymmetry

variable {α : Type} [Field α] [DecidableEq α] [CharZero α]

/-- C30: hourglass antisymmetry. For every bond `(i, j)` with `V[i] ≠ 0` on which the
quotients of the source are defined (non-zero horizon, non-zero `|xi|` and `|eta|`), the
iteration of the neighbour loop stores numbers, and the vector it adds to the force
density of `i` is the negation of the vector it adds to the force density of `j`,
multiplied by `V[j] / V[i]`. -/
theorem C30_hourglass_antisymmetry (ext : External α) (inp : HourglassInput α)
    (iID : Nat) (st : HourglassState α) (hV : inp.volume iID ≠ 0)
    (hhorizon : inp.horizon ≠ 0)
    (hxi : ext.sqrt (Vec3.dot
        (Vec3.sub (triple inp.modelCoordinates (inp.neighborhoodList st.neighborListPtr))
          (triple inp.modelCoordinates iID))
        (Vec3.sub (triple inp.modelCoordinates (inp.neighborhoodList st.neighborListPtr))
          (triple inp.modelCoordinates iID))) ≠ 0)
    (heta : ext.sqrt (Vec3.dot
        (Vec3.sub (triple inp.coordinates (inp.neighborhoodList st.neighborListPtr))
          (triple inp.coordinates iID))
        (Vec3.sub (triple inp.coordinates (inp.neighborhoodList st.neighborListPtr))
          (triple inp.coordinates iID))) ≠ 0) :
    hourglassBondBodyChecked ext inp iID st = some (hourglassBondBody ext inp iID st) ∧
    Vec3.sub (triple (hourglassBondBody ext inp iID st).hourglassForceDensity iID)
        (triple st.hourglassForceDensity iID)
      = Vec3.smul
          (-(inp.volume (inp.neighborhoodList st.neighborListPtr) / inp.volume iID))
          (Vec3.sub
            (triple (hourglassBondBody ext inp iID st).hourglassForceDensity
              (inp.neighborhoodList st.neighborListPtr))
            (triple st.hourglassForceDensity (inp.neighborhoodList st.neighborListPtr))) := by
  refine ⟨hourglassBondBodyChecked_eq_some ext inp iID st
    (hourglassConstantDivisor_ne_zero inp hhorizon) hxi heta, ?_⟩
  have hsub : ∀ p : Nat,
      Vec3.sub (triple (hourglassBondBody ext inp iID st).hourglassForceDensity p)
          (triple st.hourglassForceDensity p)
        = triple (hourglassContribution ext inp iID
            (inp.neighborhoodList st.neighborListPtr)) p := by
    intro p
    rw [hourglassBondBody_eq]
    simp only [Vec3.sub, triple]
    ext <;> simp only <;> ring
  rw [hsub, hsub]
  by_cases hij : inp.neighborhoodList st.neighborListPtr = iID
  · rw [hij]
    simp only [triple, hourglassContribution_self, Vec3.smul, mul_zero]
  · rw [(hourglassContribution_ends ext inp iID _ hij).1,
      (hourglassContribution_ends ext inp iID _ hij).2]
    exact hourglassAdded_ratio ext inp iID _ hV

/-- Witness of C30: the bond `(0, 1)` of the two-point input (horizon 1, `|xi| = 1`,
`|eta| = 2`) on a zero buffer adds `(6, 0, 0)` at point `0` and `(-4, 0, 0)` at point
`1`; `6 = -(3 / 2) * (-4)`. -/
theorem C30_hourglass_antisymmetry_witness :
    twoPointHourglassInput.volume 0 ≠ 0 ∧
    Vec3.sub
        (triple (hourglassBondBody squareRootOneFour twoPointHourglassInput 0
          { neighborListPtr := 1, hourglassForceDensity := fun _ => 0 }).hourglassForceDensity 0)
        (triple (fun _ => (0 : ℚ)) 0) = ⟨6, 0, 0⟩ ∧
    Vec3.sub
        (triple (hourglassBondBody squareRootOneFour twoPointHourglassInput 0
          { neighborListPtr := 1, hourglassForceDensity := fun _ => 0 }).hourglassForceDensity 0)
        (triple (fun _ => (0 : ℚ)) 0)
      = Vec3.smul (-(twoPointHourglassInput.volume 1 / twoPointHourglassInput.volume 0))
          (Vec3.sub
            (triple (hourglassBondBody squareRootOneFour twoPointHourglassInput 0
              { neighborListPtr := 1,
                hourglassForceDensity := fun _ => 0 }).hourglassForceDensity 1)
            (triple (fun _ => (0 : ℚ)) 1)) := by
  have hV : twoPointHourglassInput.volume 0 ≠ 0 := by
    simp [twoPointHourglassInput]
  refine ⟨hV, ?_, (C30_hourglass_antisymmetry squareRootOneFour
    twoPointHourglassInput 0
    { neighborListPtr := 1, hourglassForceDensity := fun _ => 0 } hV
    (by simp [twoPointHourglassInput])
    (by simp [twoPointHourglassInput, squareRootOneFour, triple, Vec3.sub, Vec3.dot])
    (by
      simp [twoPointHourglassInput, squareRootOneFour, triple, Vec3.sub, Vec3.dot]
      norm_num)).2⟩
  simp only [hourglassBondBody, hourglassBondLocals, hourglassConstant, twoPointHourglassInput,
    squareRootOneFour, triple, Vec3.sub, Function.update_apply, Mat3.identity]
  norm_num

end HourglassAntisymmetry

section ConsistentMotionLemmas

variable {α : Type} [Field α]

/-- A traversed bond starts at an owned point. -/
theorem traversedBonds_fst_lt (neighborhoodList : Nat → Nat) (n : Nat) (b : Nat × Nat)
    (hb : b ∈ traversedBonds neighborhoodList n) : b.1 < n := by
  induction n with
  | zero => simp [traversedBonds] at hb
  | succ n ih =>
    simp only [traversedBonds, List.mem_append, List.mem_map] at hb
    rcases hb with h | ⟨j, _, rfl⟩
    · exact Nat.lt_succ_of_lt (ih h)
    · exact Nat.lt_succ_self n

end ConsistentMotionLemmas

section ConsistentMotionClaims

variable {α : Type} [Field α]

end ConsistentMotionClaims

section WriteLocality

/-- C32 (the code at a failing input): in the updater, the iteration of point `1` of the
two-point spin scenario, entered with zero-filled output buffers, stores its left stretch
(the identity) in entry `0` of `V^{n+1}` and leaves entry `1` at its prior content; the
value stored is built from `V^n[0]`. For the rotation and the unrotated rate of
deformation, the iteration of point `i` of any input leaves every entry `k ≠ i` as it
was. -/
theorem C32_left_stretch_write_not_local (ext : External ℚ) :
    (kinematicPointBody ext (singleBondSpinInput 1) 1
        { neighborListPtr := 2, leftStretchTensorNP1 := fun _ => 0,
          rotationTensorNP1 := fun _ => 0, unrotatedRateOfDeformation := fun _ => 0,
          returnCode := 0 }).leftStretchTensorNP1 0 = Mat3.identity ∧
    (kinematicPointBody ext (singleBondSpinInput 1) 1
        { neighborListPtr := 2, leftStretchTensorNP1 := fun _ => 0,
          rotationTensorNP1 := fun _ => 0, unrotatedRateOfDeformation := fun _ => 0,
          returnCode := 0 }).leftStretchTensorNP1 1 = Mat3.zero ∧
    (Mat3.zero : Mat3 ℚ) ≠ Mat3.identity ∧
    (∀ (inp : KinematicInput ℚ) (i : Nat) (st : KinematicState ℚ),
      (kinematicPointBody ext inp i st).leftStretchTensorNP1
        = Function.update st.leftStretchTensorNP1 0
            (MatrixUpdate 1 inp.dt (inp.leftStretchTensorN 0)
              (kinematicLocals ext inp i
                (forLoop (fun _ => fdotNeighborBody ext inp i)
                  (inp.neighborhoodList st.neighborListPtr) 0
                  { neighborListPtr := st.neighborListPtr + 1,
                    FdotFirstTerm := 0 }).FdotFirstTerm).rateOfStretch)) ∧
    (∀ (inp : KinematicInput ℚ) (i : Nat) (st : KinematicState ℚ) (k : Nat), k ≠ i →
      (kinematicPointBody ext inp i st).rotationTensorNP1 k = st.rotationTensorNP1 k ∧
      (kinematicPointBody ext inp i st).unrotatedRateOfDeformation k
        = st.unrotatedRateOfDeformation k) := by
  refine ⟨?_, ?_, ?_, ?_, ?_⟩
  · rw [kinematicPointBody_eq ext (singleBondSpinInput 1) 1 _ (by decide)]
    simp only [Function.update_same]
    exact singleBondSpin_leftStretchNP1 ext 1
  · rw [kinematicPointBody_eq ext (singleBondSpinInput 1) 1 _ (by decide)]
    simp only [Function.update_apply]
    rfl
  · intro h
    have := congrArg Mat3.XX h
    simp [Mat3.zero, Mat3.identity] at this
  · intro inp i st
    rfl
  · intro inp i st k hk
    unfold kinematicPointBody
    simp only [Function.update_noteq hk]
    exact ⟨trivial, trivial⟩

end WriteLocality

section ScenarioOne

/-- C33: scenario 1. For a single owned point at the origin with six neighbours at
distance 1 on the axes, unit volumes, influence function identically 1 and `x = X`, the
accumulated shape tensor is `2 * I` and the shape kernel writes `K⁻¹ = 1/2 * I` and
`F = I` and returns 0. -/
theorem C33_scenario_six_neighbors (ext : External ℚ)
    (hw : ∀ a b : ℚ, ext.scalarInfluenceFunction a b = 1)
    (shapeTensorInverse0 deformationGradient0 : Nat → Mat3 ℚ) :
    shapeTensorOf ext sixNeighborRestInput 0 = ⟨2, 0, 0, 0, 2, 0, 0, 0, 2⟩ ∧
    (computeShapeTensorInverseAndApproximateDeformationGradient ext sixNeighborRestInput
        shapeTensorInverse0 deformationGradient0).shapeTensorInverse 0
      = ⟨1 / 2, 0, 0, 0, 1 / 2, 0, 0, 0, 1 / 2⟩ ∧
    (computeShapeTensorInverseAndApproximateDeformationGradient ext sixNeighborRestInput
        shapeTensorInverse0 deformationGradient0).deformationGradient 0
      = ⟨1, 0, 0, 0, 1, 0, 0, 0, 1⟩ ∧
    (computeShapeTensorInverseAndApproximateDeformationGradient ext sixNeighborRestInput
        shapeTensorInverse0 deformationGradient0).returnCode = 0 := by
  have hK : shapeTensorOf ext sixNeighborRestInput 0 = ⟨2, 0, 0, 0, 2, 0, 0, 0, 2⟩ := by
    simp [shapeTensorOf, weightedBondSum, neighbors, neighborOffset, sixNeighborRestInput,
      sixNeighborList, List.range_succ, bondWeight, hw, referenceBond, triple, Vec3.sub,
      sixNeighborModelCoordinates, Mat3.scaledOuter, Mat3.add_def, Mat3.add, Mat3.zero_def,
      Mat3.zero]
    norm_num
  have hF1 : defGradFirstTermOf ext sixNeighborRestInput 0
      = shapeTensorOf ext sixNeighborRestInput 0 := rfl
  have hinv : (invert3by3Matrix (⟨2, 0, 0, 0, 2, 0, 0, 0, 2⟩ : Mat3 ℚ)).2
      = ⟨1 / 2, 0, 0, 0, 1 / 2, 0, 0, 0, 1 / 2⟩ := by
    norm_num [invert3by3Matrix]
  have hdet : ∀ i, i < 1 → (shapeTensorOf ext sixNeighborRestInput i).det ≠ 0 := by
    intro i hi
    have h0 : i = 0 := by omega
    rw [h0, hK]
    norm_num [Mat3.det]
  refine ⟨hK, ?_, ?_, ?_⟩
  · rw [shapeKernel_shapeTensorInverse, if_pos (by decide), hK, hinv]
  · rw [shapeKernel_deformationGradient, if_pos (by decide), hF1, hK, hinv]
    simp only [MatrixMultiply]
    ext <;> simp only <;> norm_num
  · exact (shapeLoop_returnCode ext sixNeighborRestInput
      { neighborListPtr := 0
        shapeTensorInverse := shapeTensorInverse0
        deformationGradient := deformationGradient0
        returnCode := 0 } rfl 1).1 hdet

/-- Witness of C33 with the constant influence function of `unitInfluence` and
zero-filled output buffers. -/
theorem C33_scenario_six_neighbors_witness :
    (computeShapeTensorInverseAndApproximateDeformationGradient unitInfluence
        sixNeighborRestInput (fun _ => 0) (fun _ => 0)).shapeTensorInverse 0
      = ⟨1 / 2, 0, 0, 0, 1 / 2, 0, 0, 0, 1 / 2⟩ ∧
    (computeShapeTensorInverseAndApproximateDeformationGradient unitInfluence
        sixNeighborRestInput (fun _ => 0) (fun _ => 0)).returnCode = 0 :=
  ⟨(C33_scenario_six_neighbors unitInfluence (fun _ _ => rfl) (fun _ => 0)
      (fun _ => 0)).2.1,
    (C33_scenario_six_neighbors unitInfluence (fun _ _ => rfl) (fun _ => 0)
      (fun _ => 0)).2.2.2⟩

end ScenarioOne

section ContractionLemmas

variable {α : Type} [Field α]

/-- The hand-expanded `z` is `((D V)_zy - (D V)_yz, (D V)_xz - (D V)_zx,
(D V)_yx - (D V)_xy)`. -/
theorem zVector_eq_products (V D : Mat3 α) :
    zVector V D
      = ⟨(MatrixMultiply D V).ZY - (MatrixMultiply D V).YZ,
         (MatrixMultiply D V).XZ - (MatrixMultiply D V).ZX,
         (MatrixMultiply D V).YX - (MatrixMultiply D V).XY⟩ := by
  simp only [zVector, MatrixMultiply]
  ext <;> simp only <;> ring

/-- The hand-expanded `z` is the contraction `eps_{ikj} D_{jm} V_{mk}`. -/
theorem zVector_eq_contraction (V D : Mat3 α) (i : Fin 3) :
    (zVector V D).toFun i = zContraction D V i := by
  fin_cases i <;>
    simp [zVector, zContraction, Vec3.toFun, leviCivita, Mat3.toMatrix, Fin.sum_univ_three] <;>
    ring

/-- The hand-expanded `w` is the contraction `-1/2 eps_{ijk} W_{jk}`. -/
theorem wVector_eq_contraction (W : Mat3 α) (i : Fin 3) :
    (wVector W).toFun i = wContraction W i := by
  fin_cases i <;>
    simp [wVector, wContraction, Vec3.toFun, leviCivita, Mat3.toMatrix, Fin.sum_univ_three] <;>
    ring

/-- The square of a skew tensor is symmetric. -/
theorem skewTensor_sq_transpose (omega : Vec3 α) :
    (MatrixMultiply (skewTensor omega) (skewTensor omega)).transpose
      = MatrixMultiply (skewTensor omega) (skewTensor omega) := by
  simp only [MatrixMultiply, skewTensor, Mat3.transpose]
  ext <;> simp only <;> ring

/-- `Rᵀ D R` is symmetric when `D` is, whatever `R`. -/
theorem UnrotateTensor_symmetric (D R : Mat3 α) (h : D.transpose = D) :
    (UnrotateTensor D R).transpose = UnrotateTensor D R := by
  have h1 : D.YX = D.XY := congrArg Mat3.XY h
  have h2 : D.ZX = D.XZ := congrArg Mat3.XZ h
  have h3 : D.ZY = D.YZ := congrArg Mat3.YZ h
  simp only [UnrotateTensor, MatrixMultiply, Mat3.transpose]
  ext <;> simp only [h1, h2, h3] <;> ring

/-- `1/2 (L + Lᵀ)`, as the first `MatrixUpdate` of the updater builds it, is symmetric. -/
theorem MatrixUpdate_half_transpose (L : Mat3 α) :
    (MatrixUpdate (1 / 2) (1 / 2) L L.transpose).transpose
      = MatrixUpdate (1 / 2) (1 / 2) L L.transpose := by
  simp only [MatrixUpdate, Mat3.transpose]
  ext <;> simp only <;> ring

end ContractionLemmas

section AngularVelocityClaims

variable {α : Type} [LinearOrderedField α]

/-- C35: for every owned point, the angular-velocity vector of the updater is
`omega = w + T⁻¹ * z` with `T = trace(V^n) * I - V^n` inverted by `invert3by3Matrix`,
`z` the hand-expanded terms of the source read at `V^n[i]` and `D`, and `w` those read
at `W`; and for every `D`, `W` and `V`, symmetric or not, these terms are the
contractions `z_i = eps_{ikj} D_{jm} V_{mk}` (so `z = ((D V)_zy - (D V)_yz,
(D V)_xz - (D V)_zx, (D V)_yx - (D V)_xy)`) and `w_i = -1/2 eps_{ijk} W_{jk}` (so
`w = ((W_zy - W_yz)/2, (W_xz - W_zx)/2, (W_yx - W_xy)/2)`). -/
theorem C35_angular_velocity_vector (ext : External α) (inp : KinematicInput α) (i : Nat) :
    (kinematicLocalsAt ext inp i).omega
      = Vec3.add (kinematicLocalsAt ext inp i).w
          ((invert3by3Matrix
            (Mat3.sub
              (Mat3.smul ((inp.leftStretchTensorN i).XX + (inp.leftStretchTensorN i).YY
                + (inp.leftStretchTensorN i).ZZ) Mat3.identity)
              (inp.leftStretchTensorN i))).2.mulVec (kinematicLocalsAt ext inp i).z) ∧
    (kinematicLocalsAt ext inp i).z
      = zVector (inp.leftStretchTensorN i) (kinematicLocalsAt ext inp i).rateOfDef ∧
    (kinematicLocalsAt ext inp i).w = wVector (kinematicLocalsAt ext inp i).spin ∧
    (∀ (D V : Mat3 α) (a : Fin 3), (zVector V D).toFun a = zContraction D V a) ∧
    (∀ D V : Mat3 α, zVector V D
      = ⟨(MatrixMultiply D V).ZY - (MatrixMultiply D V).YZ,
         (MatrixMultiply D V).XZ - (MatrixMultiply D V).ZX,
         (MatrixMultiply D V).YX - (MatrixMultiply D V).XY⟩) ∧
    (∀ (W : Mat3 α) (a : Fin 3), (wVector W).toFun a = wContraction W a) ∧
    (∀ W : Mat3 α, wVector W
      = ⟨(W.ZY - W.YZ) / 2, (W.XZ - W.ZX) / 2, (W.YX - W.XY) / 2⟩) := by
  refine ⟨?_, rfl, rfl, fun D V a => zVector_eq_contraction V D a,
    fun D V => zVector_eq_products V D, fun W a => wVector_eq_contraction W a, ?_⟩
  · unfold kinematicLocalsAt
    rw [kinematicLocals_omega, kinematicLocals_tempInv]
    have hT : MatrixUpdate
        ((inp.leftStretchTensorN i).XX + (inp.leftStretchTensorN i).YY
          + (inp.leftStretchTensorN i).ZZ)
        (-1) Mat3.identity (inp.leftStretchTensorN i)
        = Mat3.sub
          (Mat3.smul ((inp.leftStretchTensorN i).XX + (inp.leftStretchTensorN i).YY
            + (inp.leftStretchTensorN i).ZZ) Mat3.identity)
          (inp.leftStretchTensorN i) := by
      simp only [MatrixUpdate, Mat3.sub, Mat3.smul, Mat3.identity]
      ext <;> simp only <;> ring
    rw [hT]
  · intro W
    simp only [wVector]
    ext <;> simp only <;> ring

/-- C36: for every angular-velocity vector `omega`, the matrix the second `MatrixUpdate`
receives in place of `Om^2`, with rows `(SqXX, SqYX, SqZX)`, `(SqYX, SqYY, SqZY)`,
`(SqXZ, SqYZ, SqZZ)`, equals `Om * Om` component by component, the square of the skew
tensor being symmetric; hence the `Q` of the code is the `Q` obtained by passing
`Om * Om` directly. -/
theorem C36_permuted_square_argument (ext : External α) (inp : KinematicInput α) (i : Nat)
    (Ff : Mat3 α) :
    (∀ omega : Vec3 α,
      (⟨(MatrixMultiply (skewTensor omega) (skewTensor omega)).XX,
        (MatrixMultiply (skewTensor omega) (skewTensor omega)).YX,
        (MatrixMultiply (skewTensor omega) (skewTensor omega)).ZX,
        (MatrixMultiply (skewTensor omega) (skewTensor omega)).YX,
        (MatrixMultiply (skewTensor omega) (skewTensor omega)).YY,
        (MatrixMultiply (skewTensor omega) (skewTensor omega)).ZY,
        (MatrixMultiply (skewTensor omega) (skewTensor omega)).XZ,
        (MatrixMultiply (skewTensor omega) (skewTensor omega)).YZ,
        (MatrixMultiply (skewTensor omega) (skewTensor omega)).ZZ⟩ : Mat3 α)
        = MatrixMultiply (skewTensor omega) (skewTensor omega)) ∧
    (kinematicLocals ext inp i Ff).OmegaTensor
      = skewTensor (kinematicLocals ext inp i Ff).omega ∧
    (kinematicLocals ext inp i Ff).QMatrix
      = if (kinematicLocals ext inp i Ff).OmegaSq > 1 / 10 ^ 30 then
          MatrixUpdate 1
            (-(1 - ext.cos (inp.dt * (kinematicLocals ext inp i Ff).Omega))
              / (kinematicLocals ext inp i Ff).OmegaSq)
            (MatrixUpdate 1
              (ext.sin (inp.dt * (kinematicLocals ext inp i Ff).Omega)
                / (kinematicLocals ext inp i Ff).Omega)
              Mat3.identity (kinematicLocals ext inp i Ff).OmegaTensor)
            (MatrixMultiply (kinematicLocals ext inp i Ff).OmegaTensor
              (kinematicLocals ext inp i Ff).OmegaTensor)
        else Mat3.identity := by
  have hperm : ∀ omega : Vec3 α,
      (⟨(MatrixMultiply (skewTensor omega) (skewTensor omega)).XX,
        (MatrixMultiply (skewTensor omega) (skewTensor omega)).YX,
        (MatrixMultiply (skewTensor omega) (skewTensor omega)).ZX,
        (MatrixMultiply (skewTensor omega) (skewTensor omega)).YX,
        (MatrixMultiply (skewTensor omega) (skewTensor omega)).YY,
        (MatrixMultiply (skewTensor omega) (skewTensor omega)).ZY,
        (MatrixMultiply (skewTensor omega) (skewTensor omega)).XZ,
        (MatrixMultiply (skewTensor omega) (skewTensor omega)).YZ,
        (MatrixMultiply (skewTensor omega) (skewTensor omega)).ZZ⟩ : Mat3 α)
        = MatrixMultiply (skewTensor omega) (skewTensor omega) := by
    intro omega
    simp only [MatrixMultiply, skewTensor]
    ext <;> simp only <;> ring
  refine ⟨hperm, rfl, ?_⟩
  rw [kinematicLocals_QMatrix, kinematicLocals_OmegaTensor, hperm]

/-- C40: the unrotated rate of deformation is always symmetric. For every input (any
`F`, `K⁻¹`, `V^n`, velocities and `R^n`, whether or not an inversion faulted) and every
owned point `i`, the `d[i]` written by the updater satisfies `d_xy = d_yx`,
`d_xz = d_zx`, `d_yz = d_zy`. -/
theorem C40_unrotated_rate_symmetric (ext : External α) (inp : KinematicInput α)
    (leftStretchTensorNP10 rotationTensorNP10 unrotatedRateOfDeformation0 : Nat → Mat3 α)
    (i : Nat) (hi : i < inp.numPoints) :
    ((computeUnrotatedRateOfDeformationAndRotationTensor ext inp leftStretchTensorNP10
        rotationTensorNP10 unrotatedRateOfDeformation0).unrotatedRateOfDeformation i).XY
      = ((computeUnrotatedRateOfDeformationAndRotationTensor ext inp leftStretchTensorNP10
        rotationTensorNP10 unrotatedRateOfDeformation0).unrotatedRateOfDeformation i).YX ∧
    ((computeUnrotatedRateOfDeformationAndRotationTensor ext inp leftStretchTensorNP10
        rotationTensorNP10 unrotatedRateOfDeformation0).unrotatedRateOfDeformation i).XZ
      = ((computeUnrotatedRateOfDeformationAndRotationTensor ext inp leftStretchTensorNP10
        rotationTensorNP10 unrotatedRateOfDeformation0).unrotatedRateOfDeformation i).ZX ∧
    ((computeUnrotatedRateOfDeformationAndRotationTensor ext inp leftStretchTensorNP10
        rotationTensorNP10 unrotatedRateOfDeformation0).unrotatedRateOfDeformation i).YZ
      = ((computeUnrotatedRateOfDeformationAndRotationTensor ext inp leftStretchTensorNP10
        rotationTensorNP10 unrotatedRateOfDeformation0).unrotatedRateOfDeformation i).ZY := by
  have hd : ((computeUnrotatedRateOfDeformationAndRotationTensor ext inp
      leftStretchTensorNP10 rotationTensorNP10
      unrotatedRateOfDeformation0).unrotatedRateOfDeformation i).transpose
      = (computeUnrotatedRateOfDeformationAndRotationTensor ext inp
      leftStretchTensorNP10 rotationTensorNP10
      unrotatedRateOfDeformation0).unrotatedRateOfDeformation i := by
    rw [kinematic_unrotatedRateOfDeformation, if_pos hi]
    unfold kinematicLocalsAt
    rw [kinematicLocals_unrotRateOfDef, kinematicLocals_rateOfDef]
    exact UnrotateTensor_symmetric _ _ (MatrixUpdate_half_transpose _)
  exact ⟨congrArg Mat3.YX hd, congrArg Mat3.ZX hd, congrArg Mat3.ZY hd⟩

/-- Witness of C40: point `0` of the two-point input whose deformation gradient is
singular there (the inversion of `F[0]` faults), and point `0` of the spin scenario
(regular, with a non-zero velocity gradient), both with `dt = 1`. -/
theorem C40_unrotated_rate_symmetric_witness :
    (invert3by3Matrix ((singularGradientInput (1 : ℚ)).deformationGradient 0)).1 = 1 ∧
    ((computeUnrotatedRateOfDeformationAndRotationTensor unitInfluence
        (singularGradientInput 1) (fun _ => 0) (fun _ => 0)
        (fun _ => 0)).unrotatedRateOfDeformation 0).XY
      = ((computeUnrotatedRateOfDeformationAndRotationTensor unitInfluence
        (singularGradientInput 1) (fun _ => 0) (fun _ => 0)
        (fun _ => 0)).unrotatedRateOfDeformation 0).YX ∧
    ((computeUnrotatedRateOfDeformationAndRotationTensor unitInfluence
        (singleBondSpinInput 1) (fun _ => 0) (fun _ => 0)
        (fun _ => 0)).unrotatedRateOfDeformation 0).XY
      = ((computeUnrotatedRateOfDeformationAndRotationTensor unitInfluence
        (singleBondSpinInput 1) (fun _ => 0) (fun _ => 0)
        (fun _ => 0)).unrotatedRateOfDeformation 0).YX :=
  ⟨by simp [singularGradientInput, invert3by3Matrix, Mat3.zero],
    (C40_unrotated_rate_symmetric unitInfluence (singularGradientInput 1) (fun _ => 0)
      (fun _ => 0) (fun _ => 0) 0 (by decide)).1,
    (C40_unrotated_rate_symmetric unitInfluence (singleBondSpinInput 1) (fun _ => 0)
      (fun _ => 0) (fun _ => 0) 0 (by decide)).1⟩

end AngularVelocityClaims

section HourglassConstant

/-- C37 (counterexample): over the reals, with `C_H = K_bulk = delta = 1`, the constant
the kernel hoists is `18 / 3.1415926536`, which is not `18 / pi`: the literal of
source line 1261 is larger than `pi`. -/
theorem C37_constant_differs_from_pi :
    hourglassConstant
        ({ volume := fun _ => 0, modelCoordinates := fun _ => 0, coordinates := fun _ => 0,
           deformationGradient := fun _ => Mat3.identity, neighborhoodList := fun _ => 0,
           numPoints := 0, horizon := 1, bulkModulus := 1,
           hourglassCoefficient := 1 } : HourglassInput ℝ)
      ≠ 18 * 1 * 1 / (Real.pi * 1 ^ 4) := by
  simp only [hourglassConstant, mul_one, one_pow]
  intro h
  have hpi : Real.pi < 31415926536 / 10000000000 :=
    lt_trans Real.pi_lt_d20 (by norm_num)
  have hpos : (0 : ℝ) < Real.pi := Real.pi_pos
  field_simp at h
  linarith

/-- C37 (amended): for every hourglass coefficient, bulk modulus and non-zero horizon,
the constant the kernel hoists out of its loops is
`18 * C_H * K_bulk / (3.1415926536 * delta^4)` with a non-zero divisor, where
`3.1415926536` is the decimal literal the source uses for `pi`; the literal exceeds `pi`
by less than `1.1e-11`. -/
theorem C37_hourglass_constant (inp : HourglassInput ℝ) (hhorizon : inp.horizon ≠ 0) :
    hourglassConstant inp
      = 18 * inp.hourglassCoefficient * inp.bulkModulus
          / (31415926536 / 10000000000 * inp.horizon ^ 4) ∧
    (31415926536 / 10000000000 * inp.horizon ^ 4 : ℝ) ≠ 0 ∧
    Real.pi < 31415926536 / 10000000000 ∧
    (31415926536 / 10000000000 : ℝ) - Real.pi < 11 / 1000000000000 := by
  refine ⟨?_, ?_, lt_trans Real.pi_lt_d20 (by norm_num), ?_⟩
  · simp only [hourglassConstant]
    congr 1
    ring
  · exact mul_ne_zero (by norm_num) (pow_ne_zero 4 hhorizon)
  · have h := Real.pi_gt_d20
    have h2 : (31415926536 / 10000000000 : ℝ) - 11 / 1000000000000
        < 3.14159265358979323846 := by norm_num
    linarith

/-- Witness of C37: `C_H = 3`, `K_bulk = 5`, `delta = 2` give
`kappa = 18 * 3 * 5 / (3.1415926536 * 2^4)`. -/
theorem C37_hourglass_constant_witness :
    (2 : ℝ) ≠ 0 ∧
    hourglassConstant
        ({ volume := fun _ => 0, modelCoordinates := fun _ => 0, coordinates := fun _ => 0,
           deformationGradient := fun _ => Mat3.identity, neighborhoodList := fun _ => 0,
           numPoints := 0, horizon := 2, bulkModulus := 5,
           hourglassCoefficient := 3 } : HourglassInput ℝ)
      = 18 * 3 * 5 / (31415926536 / 10000000000 * 2 ^ 4) :=
  ⟨two_ne_zero,
    (C37_hourglass_constant
      ({ volume := fun _ => 0, modelCoordinates := fun _ => 0, coordinates := fun _ => 0,
         deformationGradient := fun _ => Mat3.identity, neighborhoodList := fun _ => 0,
         numPoints := 0, horizon := 2, bulkModulus := 5,
         hourglassCoefficient := 3 } : HourglassInput ℝ) two_ne_zero).1⟩

end HourglassConstant

section ConservationLemmas

variable {α : Type} [Field α]

/-- The volume-weighted sum of the flat array of one triple stored at point `q`. -/
theorem sum_volume_tripleEntry (volume : Nat → α) (v : Vec3 α) (q N : Nat) (hq : q < N) :
    (∑ p in Finset.range N, volume p * tripleEntry v q (3 * p)) = volume q * v.X ∧
    (∑ p in Finset.range N, volume p * tripleEntry v q (3 * p + 1)) = volume q * v.Y ∧
    (∑ p in Finset.range N, volume p * tripleEntry v q (3 * p + 2)) = volume q * v.Z := by
  refine ⟨?_, ?_, ?_⟩
  · rw [Finset.sum_eq_single q, (tripleEntry_self v q).1]
    · intro p _ hp
      rw [(tripleEntry_other v q p hp).1, mul_zero]
    · intro h
      exact absurd (Finset.mem_range.mpr hq) h
  · rw [Finset.sum_eq_single q, (tripleEntry_self v q).2.1]
    · intro p _ hp
      rw [(tripleEntry_other v q p hp).2.1, mul_zero]
    · intro h
      exact absurd (Finset.mem_range.mpr hq) h
  · rw [Finset.sum_eq_single q, (tripleEntry_self v q).2.2]
    · intro p _ hp
      rw [(tripleEntry_other v q p hp).2.2, mul_zero]
    · intro h
      exact absurd (Finset.mem_range.mpr hq) h

/-- The two additions of one bond cancel in the volume-weighted total. -/
theorem volumeWeightedForce_contribution (ext : External α) (inp : HourglassInput α)
    (i j N : Nat) (hi : i < N) (hj : j < N) :
    volumeWeightedForce inp.volume (hourglassContribution ext inp i j) N = ⟨0, 0, 0⟩ := by
  obtain ⟨a0, a1, a2⟩ :=
    sum_volume_tripleEntry inp.volume (hourglassAddedToPoint ext inp i j) i N hi
  obtain ⟨b0, b1, b2⟩ :=
    sum_volume_tripleEntry inp.volume (hourglassAddedToNeighbor ext inp i j) j N hj
  simp only [volumeWeightedForce, hourglassContribution, mul_add, Finset.sum_add_distrib,
    a0, a1, a2, b0, b1, b2]
  simp only [hourglassAddedToPoint, hourglassAddedToNeighbor, Vec3.smul]
  ext <;> simp only <;> ring

/-- The volume-weighted total is additive in the buffer. -/
theorem volumeWeightedForce_add (volume f g : Nat → α) (N : Nat) :
    volumeWeightedForce volume (fun k => f k + g k) N
      = Vec3.add (volumeWeightedForce volume f N) (volumeWeightedForce volume g N) := by
  simp only [volumeWeightedForce, Vec3.add, mul_add, Finset.sum_add_distrib]

/-- The contributions of a list of bonds with endpoints below `N` cancel in the
volume-weighted total. -/
theorem volumeWeightedForce_bonds (ext : External α) (inp : HourglassInput α) (N : Nat)
    (l : List (Nat × Nat)) (h : ∀ b ∈ l, b.1 < N ∧ b.2 < N) :
    volumeWeightedForce inp.volume
        (fun k => (l.map (fun b => hourglassContribution ext inp b.1 b.2 k)).sum) N
      = ⟨0, 0, 0⟩ := by
  induction l with
  | nil => simp [volumeWeightedForce]
  | cons a l ih =>
    simp only [List.map_cons, List.sum_cons]
    rw [volumeWeightedForce_add,
      volumeWeightedForce_contribution ext inp a.1 a.2 N (h a (List.mem_cons_self a l)).1
        (h a (List.mem_cons_self a l)).2,
      ih (fun b hb => h b (List.mem_cons_of_mem a hb))]
    simp [Vec3.add]

end ConservationLemmas

section ConservationClaims

variable {α : Type} [Field α] [DecidableEq α] [CharZero α]

/-- C38 (counterexample): on the two-point input with point `0` listed as its own
neighbour (valid indices, traversed bonds `(0, 0)` and `(1, 0)`), the bond `(0, 0)` has
`|xi| = |eta| = 0`, the kernel divides by zero and returns no buffer of numbers, so there
is no total after the call to equal the total before it. The same happens on the
two-point input with both points at the same current position (`|eta| = 0`) and on the
two-point input with horizon `0`. -/
theorem C38_self_neighbour_not_conserved :
    traversedBonds selfNeighborHourglassInput.neighborhoodList
        selfNeighborHourglassInput.numPoints = [(0, 0), (1, 0)] ∧
    computeHourglassForceChecked squareRootOneFour selfNeighborHourglassInput
        (fun _ => 100) = none ∧
    (¬ ∃ st : HourglassState ℚ,
      computeHourglassForceChecked squareRootOneFour selfNeighborHourglassInput
          (fun _ => 100) = some st ∧
      volumeWeightedForce selfNeighborHourglassInput.volume st.hourglassForceDensity 2
        = volumeWeightedForce selfNeighborHourglassInput.volume (fun _ => 100) 2) ∧
    computeHourglassForceChecked squareRootOneFour coincidentHourglassInput
        (fun _ => 100) = none ∧
    computeHourglassForceChecked squareRootOneFour zeroHorizonHourglassInput
        (fun _ => 100) = none := by
  have h1 : computeHourglassForceChecked squareRootOneFour selfNeighborHourglassInput
      (fun _ => 100) = none := by
    simp [computeHourglassForceChecked, hourglassPointBodyChecked, forLoop,
      hourglassBondBodyChecked, hourglassBondLocals, hourglassConstantDivisor,
      selfNeighborHourglassInput, twoPointHourglassInput, squareRootOneFour]
  refine ⟨by decide, h1, ?_, ?_, ?_⟩
  · rintro ⟨st, hst, _⟩
    rw [h1] at hst
    exact Option.noConfusion hst
  · simp [computeHourglassForceChecked, hourglassPointBodyChecked, forLoop,
      hourglassBondBodyChecked, hourglassBondLocals, hourglassConstantDivisor,
      coincidentHourglassInput, twoPointHourglassInput, squareRootOneFour]
  · simp [computeHourglassForceChecked, hourglassPointBodyChecked, forLoop,
      hourglassBondBodyChecked, hourglassBondLocals, hourglassConstantDivisor,
      zeroHorizonHourglassInput, twoPointHourglassInput, squareRootOneFour]

/-- C38 (amended): `computeHourglassForce` conserves the volume-weighted total force
where it stores numbers. For every input with valid neighbour indices (owned points and
neighbours all below the number `numAllPoints` of owned and ghost points; any neighbour
graph, reciprocal or not), non-zero horizon and non-zero `|xi|` and `|eta|` on every
traversed bond (so no self-neighbours), the kernel returns a buffer of numbers and the sum
over all points `k` of `V[k] * f[k]` is the same vector before and after the call. -/
theorem C38_volume_weighted_force_conserved (ext : External α)
    (inp : HourglassInput α) (hourglassForceDensity0 : Nat → α) (numAllPoints : Nat)
    (hN : inp.numPoints ≤ numAllPoints)
    (hvalid : ∀ b ∈ traversedBonds inp.neighborhoodList inp.numPoints,
      b.2 < numAllPoints)
    (hhorizon : inp.horizon ≠ 0)
    (hlen : ∀ b ∈ traversedBonds inp.neighborhoodList inp.numPoints,
      ext.sqrt (Vec3.dot
          (Vec3.sub (triple inp.modelCoordinates b.2) (triple inp.modelCoordinates b.1))
          (Vec3.sub (triple inp.modelCoordinates b.2) (triple inp.modelCoordinates b.1))) ≠ 0 ∧
      ext.sqrt (Vec3.dot
          (Vec3.sub (triple inp.coordinates b.2) (triple inp.coordinates b.1))
          (Vec3.sub (triple inp.coordinates b.2) (triple inp.coordinates b.1))) ≠ 0) :
    computeHourglassForceChecked ext inp hourglassForceDensity0
      = some (computeHourglassForce ext inp hourglassForceDensity0) ∧
    volumeWeightedForce inp.volume
        (computeHourglassForce ext inp hourglassForceDensity0).hourglassForceDensity
        numAllPoints
      = volumeWeightedForce inp.volume hourglassForceDensity0 numAllPoints := by
  constructor
  · exact hourglassPointLoopChecked_eq_some ext inp hourglassForceDensity0 inp.numPoints
      (hourglassConstantDivisor_ne_zero inp hhorizon) hlen
  · unfold computeHourglassForce
    rw [hourglassPointLoop_eq]
    simp only
    rw [volumeWeightedForce_add, volumeWeightedForce_bonds ext inp numAllPoints _
      (fun b hb => ⟨lt_of_lt_of_le (traversedBonds_fst_lt _ _ b hb) hN, hvalid b hb⟩)]
    simp only [Vec3.add, add_zero]

/-- Witness of C38: the two-point input (volumes 2 and 3, horizon 1, both bonds with
`|xi| = 1` and `|eta| = 2`), from a buffer holding 100 everywhere: the kernel returns
numbers and the total is `(500, 500, 500)` before and after, although the entries at
offsets `0` and `3` change to 112 and 92. -/
theorem C38_volume_weighted_force_conserved_witness :
    computeHourglassForceChecked squareRootOneFour twoPointHourglassInput (fun _ => 100)
      = some (computeHourglassForce squareRootOneFour twoPointHourglassInput
          (fun _ => 100)) ∧
    volumeWeightedForce twoPointHourglassInput.volume
        (computeHourglassForce squareRootOneFour twoPointHourglassInput
          (fun _ => 100)).hourglassForceDensity 2
      = volumeWeightedForce twoPointHourglassInput.volume (fun _ => 100) 2 ∧
    volumeWeightedForce twoPointHourglassInput.volume (fun _ => 100) 2 = ⟨500, 500, 500⟩ := by
  have hl : traversedBonds twoPointHourglassInput.neighborhoodList
      twoPointHourglassInput.numPoints = [(0, 1), (1, 0)] := by decide
  have h := C38_volume_weighted_force_conserved squareRootOneFour
    twoPointHourglassInput (fun _ => 100) 2 (by decide)
    (by
      intro b hb
      rw [hl] at hb
      simp only [List.mem_cons, List.mem_singleton, List.not_mem_nil, or_false] at hb
      rcases hb with rfl | rfl <;> decide)
    (by simp [twoPointHourglassInput])
    (by
      intro b hb
      rw [hl] at hb
      simp only [List.mem_cons, List.mem_singleton, List.not_mem_nil, or_false] at hb
      rcases hb with rfl | rfl <;>
        simp [twoPointHourglassInput, squareRootOneFour, triple, Vec3.sub, Vec3.dot] <;>
        norm_num)
  refine ⟨h.1, h.2, ?_⟩
  simp [volumeWeightedForce, twoPointHourglassInput, Finset.sum_range_succ]
  norm_num

end ConservationClaims

section StressReadSet

variable {α : Type} [Field α]

/-- C39: `computeClassicalElasticStress` reads only six strain components. Two strain
fields that agree at an owned point on `e_xx`, `e_yy`, `e_zz`, `e_xy`, `e_yz` and `e_zx`
give the same stress there, whatever their `e_yx`, `e_zy` and `e_xz`; and the
upper-triangular output `sigma_xz` is `c (1 - 2 nu) e_zx`, built from the
lower-triangular strain component. -/
theorem C39_stress_reads_six_components (strainA strainB cauchyStress0 : Nat → Mat3 α)
    (numPoints : Nat) (youngsModulus poissonsRatio : α) (i : Nat) (hi : i < numPoints)
    (hxx : (strainA i).XX = (strainB i).XX) (hyy : (strainA i).YY = (strainB i).YY)
    (hzz : (strainA i).ZZ = (strainB i).ZZ) (hxy : (strainA i).XY = (strainB i).XY)
    (hyz : (strainA i).YZ = (strainB i).YZ) (hzx : (strainA i).ZX = (strainB i).ZX) :
    computeClassicalElasticStress strainA cauchyStress0 numPoints youngsModulus
        poissonsRatio i
      = computeClassicalElasticStress strainB cauchyStress0 numPoints youngsModulus
        poissonsRatio i ∧
    (computeClassicalElasticStress strainA cauchyStress0 numPoints youngsModulus
        poissonsRatio i).XZ
      = youngsModulus / ((1 + poissonsRatio) * (1 - 2 * poissonsRatio))
        * (1 - 2 * poissonsRatio) * (strainA i).ZX := by
  rw [computeClassicalElasticStress_apply, computeClassicalElasticStress_apply, if_pos hi,
    if_pos hi]
  refine ⟨?_, rfl⟩
  simp only [classicalElasticStressPoint, hxx, hyy, hzz, hxy, hyz, hzx]

/-- Witness of C39: with `E_y = 2`, `nu = 1/4`, two strains that differ only in `e_yx`,
`e_zy`, `e_xz` give the same stress; `sigma_xz = 16/5 * 1/2 * e_zx = 56/5` with
`e_zx = 7`, which is not `16/5 * 1/2 * e_xz = 24/5` (`e_xz = 3`). -/
theorem C39_stress_reads_six_components_witness :
    computeClassicalElasticStress (fun _ => (⟨1, 2, 3, 4, 5, 6, 7, 8, 9⟩ : Mat3 ℚ))
        (fun _ => 0) 1 2 (1 / 4) 0
      = computeClassicalElasticStress (fun _ => (⟨1, 2, 30, 40, 5, 6, 7, 80, 9⟩ : Mat3 ℚ))
        (fun _ => 0) 1 2 (1 / 4) 0 ∧
    (computeClassicalElasticStress (fun _ => (⟨1, 2, 3, 4, 5, 6, 7, 8, 9⟩ : Mat3 ℚ))
        (fun _ => 0) 1 2 (1 / 4) 0).XZ = 56 / 5 ∧
    (56 / 5 : ℚ) ≠ 2 / ((1 + 1 / 4) * (1 - 2 * (1 / 4))) * (1 - 2 * (1 / 4)) * 3 := by
  have h := C39_stress_reads_six_components
    (fun _ => (⟨1, 2, 3, 4, 5, 6, 7, 8, 9⟩ : Mat3 ℚ))
    (fun _ => (⟨1, 2, 30, 40, 5, 6, 7, 80, 9⟩ : Mat3 ℚ)) (fun _ => 0) 1 2 (1 / 4) 0
    (by decide) rfl rfl rfl rfl rfl rfl
  refine ⟨h.1, ?_, by norm_num⟩
  rw [h.2]
  norm_num

end StressReadSet

end CORRESPONDENCE
